import Mathlib

/-!
Verification of the `lethe` wipe engine against its specification.

The development shallowly embeds the core of the repository:

* `src/sanitization/stage.rs` — sanitization stages and the block stream
  (`Stage::stream`, the `StreamingIterator` implementation);
* `src/actions/wipe.rs` — the wipe engine (`WipeTask`, `WipeState`,
  `WipeRun::{try_seek, try_write, seek_to_the_next_safe_position, fill,
  verify, run}`, `underlying_io_error_kind`) and the in-memory test
  storage used by the engine's test scenarios;
* `src/actions/marker.rs` — the bad-block marker (a set of `u32` indices);
* `src/core/storage/mod.rs` — the `StorageAccess` contract.

Bytes are modelled as `Nat` (values < 256 are not enforced; no operation
of the embedded code depends on the bound).  Machine-integer casts are
made explicit where the source has them (`as u32` becomes `% 2^32`).

The ChaCha8 generator (`rand_chacha`, an external crate) is abstracted by
the byte keystream `ks : Nat → Nat` that a given 32-byte seed determines:
`set_word_pos(w)` positions the generator at keystream byte `4*w`, and
`fill_bytes(n)` emits the `n` consecutive keystream bytes starting there
while consuming `⌈n/4⌉` whole 32-bit words (the semantics of
`BlockRng::fill_bytes` / `fill_via_u32_chunks` in the `rand` crate, which
discards the tail of a partially used word).
-/

/-- A byte, modelled as a natural number. -/
abbrev Byte := Nat

/-! ## Sanitization stages and streams (`src/sanitization/stage.rs`) -/

/-- `Stage` from `stage.rs`: `Fill { value: u8 }` or
`Random { seed: [u8; 32] }`.  A random stage is represented by the byte
keystream `ks` its seed determines (see the module comment). -/
inductive Stage where
  | fill (value : Byte)
  | random (ks : Nat → Byte)

/-- `Stage::constant` from `stage.rs`. -/
def Stage.constant (value : Byte) : Stage := Stage.fill value

/-- `Stage::zero` from `stage.rs`. -/
def Stage.zero : Stage := Stage.constant 0

/-- `Stage::one` from `stage.rs`. -/
def Stage.one : Stage := Stage.constant 0xff

/-- `StreamState` from `stage.rs`. -/
structure StreamState where
  total_size : Nat
  block_size : Nat
  position : Nat
  buf : List Byte
  current_block_size : Nat
  eof : Bool

/-- `StreamKind` from `stage.rs`; the `Random` generator state is its
keystream together with its current word position. -/
inductive StreamKind where
  | fill
  | random (wp : Nat) (ks : Nat → Byte)

/-- `SanitizationStream` from `stage.rs`. -/
structure SanitizationStream where
  kind : StreamKind
  state : StreamState

/-- `fill_bytes` of the ChaCha generator at word position `wp`: emits the
`n` consecutive keystream bytes starting at byte `4*wp` and advances the
word position by `⌈n/4⌉` (whole words are consumed, the tail of a
partially used word is discarded). -/
def RandomGenerator.fillBytes (ks : Nat → Byte) (wp : Nat) (n : Nat) :
    List Byte × Nat :=
  ((List.range n).map (fun i => ks (4 * wp + i)), wp + (n + 3) / 4)

/-- `Stage::stream` from `stage.rs`.  For a `Fill` stage the buffer is
filled with the value once; for a `Random` stage the generator is seeded
and positioned with `set_word_pos(start_from >> 2)`.  The freshly
allocated `AlignedBuffer` is uninitialized in the source; it is modelled
as zeros (its initial contents are never yielded: `current_block_size`
starts at 0 and a random stage refills the whole buffer on every
advance). -/
def Stage.stream (stage : Stage) (total_size : Nat) (block_size : Nat)
    (start_from : Nat) : SanitizationStream :=
  let buf0 := List.replicate block_size (0 : Byte)
  let (kind, buf) :=
    match stage with
    | Stage.fill value => (StreamKind.fill, List.replicate block_size value)
    | Stage.random ks => (StreamKind.random (start_from / 4) ks, buf0)
  { kind := kind
    state :=
      { total_size := total_size
        block_size := block_size
        position := start_from
        buf := buf
        eof := false
        current_block_size := 0 } }

/-- `StreamingIterator::advance` for `SanitizationStream` from
`stage.rs`. -/
def SanitizationStream.advance (st : SanitizationStream) :
    SanitizationStream :=
  if !st.state.eof && st.state.position < st.state.total_size then
    let chunk_size :=
      min st.state.block_size (st.state.total_size - st.state.position)
    let (kind, buf) :=
      match st.kind with
      | StreamKind.fill => (StreamKind.fill, st.state.buf)
      | StreamKind.random wp ks =>
          let r := RandomGenerator.fillBytes ks wp st.state.block_size
          (StreamKind.random r.2 ks, r.1)
    { kind := kind
      state :=
        { st.state with
            buf := buf
            current_block_size := chunk_size
            position := st.state.position + chunk_size } }
  else
    { st with state := { st.state with eof := true } }

/-- `StreamingIterator::get` for `SanitizationStream` from `stage.rs`. -/
def SanitizationStream.get (st : SanitizationStream) : Option (List Byte) :=
  if !st.state.eof then some (st.state.buf.take st.state.current_block_size)
  else none

/-- `StreamingIterator::next`: advance, then get. -/
def SanitizationStream.next (st : SanitizationStream) :
    Option (List Byte) × SanitizationStream :=
  let st' := st.advance
  (st'.get, st')

/-- All slices yielded by a stream, up to `fuel` iterations (the source's
iterator diverges when `block_size = 0`, hence the explicit fuel). -/
def SanitizationStream.collectFuel :
    Nat → SanitizationStream → List (List Byte)
  | 0, _ => []
  | fuel + 1, st =>
    match st.next with
    | (none, _) => []
    | (some c, st') => c :: st'.collectFuel fuel

/-- The sequence of chunk lengths the stream's loop produces: repeatedly
take `min block_size (total - pos)` until `pos` reaches `total`
(specification-side description of the emission contract). -/
def chunkLens (bs total pos : Nat) : List Nat :=
  if h : bs = 0 ∨ total ≤ pos then []
  else
    min bs (total - pos) :: chunkLens bs total (pos + min bs (total - pos))
termination_by total - pos
decreasing_by
  simp only [not_or, not_le] at h
  have h1 : 1 ≤ min bs (total - pos) := by omega
  omega

/-- The slices yielded by `stage.stream(total_size, block_size, start_from)`
until exhaustion (fuel `total_size - start_from + 1` suffices whenever
`block_size > 0`). -/
def streamYields (stage : Stage) (total_size block_size start_from : Nat) :
    List (List Byte) :=
  (stage.stream total_size block_size start_from).collectFuel
    (total_size - start_from + 1)

/-! ## The wipe engine (`src/actions/wipe.rs`) -/

deriving instance DecidableEq for Except

/-- An `anyhow::Error`, abstracted to what the engine inspects: whether
the cause chain contains a `std::io::Error` (and that error's kind,
modelled as an opaque numeric code), plus the message. -/
structure AnyError where
  ioKind : Option Nat
  msg : String
deriving DecidableEq, Repr

/-- `underlying_io_error_kind` from `wipe.rs`: the kind of the
`std::io::Error` in the cause chain, if any. -/
def underlying_io_error_kind (e : AnyError) : Option Nat := e.ioKind

/-- Result of one storage operation. -/
inductive SRes (α : Type) where
  | ok (value : α)
  | err (e : AnyError)
deriving DecidableEq, Repr

/-- The `StorageAccess` contract from `src/core/storage/mod.rs`, modelled
as explicit state transformers over a storage state `σ`.  `read` receives
the current contents of the destination slice and returns its new
contents together with the byte count the implementation reports
(`position` is never called by the engine and is omitted). -/
structure StorageModel (σ : Type) where
  seek : σ → Nat → σ × SRes Nat
  read : σ → List Byte → σ × SRes (List Byte × Nat)
  write : σ → List Byte → σ × SRes Unit
  flush : σ → σ × SRes Unit

/-- Instrumentation: the storage operations the engine actually issues. -/
inductive SOp where
  | seekOp (pos : Nat)
  | readOp (len : Nat)
  | writeOp (len : Nat)
  | flushOp
deriving DecidableEq, Repr

/-- `Verify` from `wipe.rs`. -/
inductive Verify where
  | no
  | last
  | all
deriving DecidableEq, Repr

/-- `Scheme` from `src/core/sanitization/mod.rs`. -/
structure Scheme where
  description : String
  stages : List Stage

/-- `WipeTask` from `wipe.rs`. -/
structure WipeTask where
  scheme : Scheme
  verify : Verify
  total_size : Nat
  block_size : Nat

/-- `WipeTask::new` from `wipe.rs`: fails iff
`total_size / block_size > 1 << 32`; performs no I/O (it is a pure
function of its four arguments). -/
def WipeTask.new (scheme : Scheme) (verify : Verify)
    (total_size block_size : Nat) : Except AnyError WipeTask :=
  if total_size / block_size > 2 ^ 32 then
    Except.error ⟨none,
      "Number of blocks in this device is more than 2^32. Try using a bigger block size."⟩
  else
    Except.ok ⟨scheme, verify, total_size, block_size⟩

/-- `WipeState` from `wipe.rs`; the bad-block marker
(`RoaringBlockMarker`, a set of `u32` indices) is modelled as the list of
marked indices. -/
structure WipeState where
  stage : Nat
  at_verification : Bool
  position : Nat
  retries_left : Nat
  bad_blocks : List Nat
deriving DecidableEq, Repr

/-- `WipeState::default` from `wipe.rs`. -/
def WipeState.default : WipeState :=
  { stage := 0, at_verification := false, position := 0, retries_left := 0,
    bad_blocks := [] }

/-- `BlockMarker::mark` from `src/actions/marker.rs` (idempotent set
insertion). -/
def markBlock (m : List Nat) (i : Nat) : List Nat :=
  if i ∈ m then m else i :: m

/-- `WipeEvent` from `wipe.rs`. -/
inductive WipeEvent where
  | started
  | stageStarted
  | progress (position : Nat)
  | markBlockAsBad (position : Nat)
  | stageCompleted (err : Option AnyError)
  | retrying
  | aborted
  | completed (err : Option AnyError)
  | fatal (e : AnyError)
deriving DecidableEq, Repr

/-- The outcome of an engine routine: final storage state, final wipe
state, the published events (paired with the `at_verification` flag of
the state snapshot passed to the receiver), the storage operations
issued, and the result. -/
structure EngineOut (σ : Type) (α : Type) where
  s : σ
  ws : WipeState
  evs : List (Bool × WipeEvent)
  ops : List SOp
  res : Except AnyError α

/-- Error standing for exhaustion of the explicit fuel: the source code
diverges in those situations (e.g. `block_size = 0`), and no theorem
below relies on it. -/
def fuelError : AnyError := ⟨none, "fuel exhausted"⟩

/-- The error raised by `anyhow!("Verification failed!")` in
`WipeRun::verify`: its cause chain holds no `std::io::Error`, so it is
never classified as a bad block. -/
def verificationFailedError : AnyError := ⟨none, "Verification failed!"⟩

/-- `WipeRun::current_block_number` from `wipe.rs` (the `as u32` cast is
the `% 2^32`). -/
def currentBlockNumber (t : WipeTask) (ws : WipeState) : Nat :=
  (ws.position / t.block_size) % 2 ^ 32

/-- `WipeRun::is_at_bad_block` from `wipe.rs`. -/
def isAtBadBlock (t : WipeTask) (ws : WipeState) : Bool :=
  ws.bad_blocks.contains (currentBlockNumber t ws)

/-- `WipeRun::advance` from `wipe.rs`: advance the position by `bytes`,
clamp at `total_size`, publish `Progress`. -/
def advanceRun (t : WipeTask) (ws : WipeState) (bytes : Nat) :
    WipeState × List (Bool × WipeEvent) :=
  let p := min (ws.position + bytes) t.total_size
  ({ ws with position := p }, [(ws.at_verification, WipeEvent.progress p)])

/-- `WipeRun::try_seek` from `wipe.rs`. -/
def trySeek {σ : Type} (sm : StorageModel σ) (t : WipeTask) (s : σ)
    (ws : WipeState) : EngineOut σ Bool :=
  if isAtBadBlock t ws then ⟨s, ws, [], [], Except.ok false⟩
  else
    match sm.seek s ws.position with
    | (s', SRes.ok _) => ⟨s', ws, [], [SOp.seekOp ws.position], Except.ok true⟩
    | (s', SRes.err e) =>
      match underlying_io_error_kind e with
      | some _ =>
        let ws' := { ws with
          bad_blocks := markBlock ws.bad_blocks (currentBlockNumber t ws) }
        ⟨s', ws', [(ws'.at_verification, WipeEvent.markBlockAsBad ws.position)],
         [SOp.seekOp ws.position], Except.ok false⟩
      | none => ⟨s', ws, [], [SOp.seekOp ws.position], Except.error e⟩

/-- `WipeRun::try_write` from `wipe.rs`. -/
def tryWrite {σ : Type} (sm : StorageModel σ) (t : WipeTask) (s : σ)
    (ws : WipeState) (chunk : List Byte) : EngineOut σ Bool :=
  if isAtBadBlock t ws then ⟨s, ws, [], [], Except.ok false⟩
  else
    match sm.write s chunk with
    | (s', SRes.ok _) =>
        ⟨s', ws, [], [SOp.writeOp chunk.length], Except.ok true⟩
    | (s', SRes.err e) =>
      match underlying_io_error_kind e with
      | some _ =>
        let ws' := { ws with
          bad_blocks := markBlock ws.bad_blocks (currentBlockNumber t ws) }
        ⟨s', ws', [(ws'.at_verification, WipeEvent.markBlockAsBad ws.position)],
         [SOp.writeOp chunk.length], Except.ok false⟩
      | none => ⟨s', ws, [], [SOp.writeOp chunk.length], Except.error e⟩

/-- `WipeRun::seek_to_the_next_safe_position` from `wipe.rs` (fuelled:
each iteration advances by one block). -/
def seekToTheNextSafePosition {σ : Type} (sm : StorageModel σ)
    (t : WipeTask) : Nat → σ → WipeState → EngineOut σ Unit
  | 0, s, ws => ⟨s, ws, [], [], Except.error fuelError⟩
  | fuel + 1, s, ws =>
    if t.total_size ≤ ws.position then ⟨s, ws, [], [], Except.ok ()⟩
    else if isAtBadBlock t ws then
      let aw := advanceRun t ws t.block_size
      let o := seekToTheNextSafePosition sm t fuel s aw.1
      ⟨o.s, o.ws, aw.2 ++ o.evs, o.ops, o.res⟩
    else
      let o := trySeek sm t s ws
      match o.res with
      | Except.error e => ⟨o.s, o.ws, o.evs, o.ops, Except.error e⟩
      | Except.ok true => ⟨o.s, o.ws, o.evs, o.ops, Except.ok ()⟩
      | Except.ok false =>
        let aw := advanceRun t o.ws t.block_size
        let o2 := seekToTheNextSafePosition sm t fuel o.s aw.1
        ⟨o2.s, o2.ws, o.evs ++ aw.2 ++ o2.evs, o.ops ++ o2.ops, o2.res⟩

/-- The `while let Some(chunk) = stream.next()` loop of `WipeRun::fill`
from `wipe.rs`. -/
def fillLoop {σ : Type} (sm : StorageModel σ) (t : WipeTask) :
    Nat → σ → WipeState → SanitizationStream → Bool → EngineOut σ Unit
  | 0, s, ws, _, _ => ⟨s, ws, [], [], Except.error fuelError⟩
  | fuel + 1, s, ws, stream, skip_next =>
    match stream.next with
    | (none, _) => ⟨s, ws, [], [], Except.ok ()⟩
    | (some chunk, stream') =>
      if skip_next then
        let aw := advanceRun t ws chunk.length
        let o := trySeek sm t s aw.1
        match o.res with
        | Except.error e => ⟨o.s, o.ws, aw.2 ++ o.evs, o.ops, Except.error e⟩
        | Except.ok b =>
          let o2 := fillLoop sm t fuel o.s o.ws stream' (!b)
          ⟨o2.s, o2.ws, aw.2 ++ o.evs ++ o2.evs, o.ops ++ o2.ops, o2.res⟩
      else
        let ow := tryWrite sm t s ws chunk
        match ow.res with
        | Except.error e => ⟨ow.s, ow.ws, ow.evs, ow.ops, Except.error e⟩
        | Except.ok false =>
          let aw := advanceRun t ow.ws chunk.length
          let o := trySeek sm t ow.s aw.1
          match o.res with
          | Except.error e =>
              ⟨o.s, o.ws, ow.evs ++ aw.2 ++ o.evs, ow.ops ++ o.ops,
               Except.error e⟩
          | Except.ok b =>
            let o2 := fillLoop sm t fuel o.s o.ws stream' (!b)
            ⟨o2.s, o2.ws, ow.evs ++ aw.2 ++ o.evs ++ o2.evs,
             ow.ops ++ o.ops ++ o2.ops, o2.res⟩
        | Except.ok true =>
          let aw := advanceRun t ow.ws chunk.length
          let o2 := fillLoop sm t fuel ow.s aw.1 stream' skip_next
          ⟨o2.s, o2.ws, ow.evs ++ aw.2 ++ o2.evs, ow.ops ++ o2.ops, o2.res⟩

/-- `WipeRun::fill` from `wipe.rs`. -/
def fill {σ : Type} (sm : StorageModel σ) (t : WipeTask) (fuel : Nat)
    (s : σ) (ws : WipeState) (stage : Stage) : EngineOut σ Unit :=
  let ev0 := [(ws.at_verification, WipeEvent.progress ws.position)]
  let o1 := seekToTheNextSafePosition sm t fuel s ws
  match o1.res with
  | Except.error e => ⟨o1.s, o1.ws, ev0 ++ o1.evs, o1.ops, Except.error e⟩
  | Except.ok _ =>
    if t.total_size ≤ o1.ws.position then
      ⟨o1.s, o1.ws, ev0 ++ o1.evs, o1.ops, Except.ok ()⟩
    else
      let stream := stage.stream t.total_size t.block_size o1.ws.position
      let o2 := fillLoop sm t fuel o1.s o1.ws stream false
      match o2.res with
      | Except.error e =>
          ⟨o2.s, o2.ws, ev0 ++ o1.evs ++ o2.evs, o1.ops ++ o2.ops,
           Except.error e⟩
      | Except.ok _ =>
        match sm.flush o2.s with
        | (s3, SRes.ok _) =>
            ⟨s3, o2.ws, ev0 ++ o1.evs ++ o2.evs,
             o1.ops ++ o2.ops ++ [SOp.flushOp], Except.ok ()⟩
        | (s3, SRes.err e) =>
            ⟨s3, o2.ws, ev0 ++ o1.evs ++ o2.evs,
             o1.ops ++ o2.ops ++ [SOp.flushOp], Except.error e⟩

/-- The `while let Some(chunk) = stream.next()` loop of
`WipeRun::verify` from `wipe.rs`.  `vbuf` is the contents of the reused
aligned buffer; the engine reads into its first `chunk.len()` bytes and
compares them against the expected chunk, ignoring the count returned by
`read`. -/
def verifyLoop {σ : Type} (sm : StorageModel σ) (t : WipeTask) :
    Nat → σ → WipeState → SanitizationStream → List Byte → EngineOut σ Unit
  | 0, s, ws, _, _ => ⟨s, ws, [], [], Except.error fuelError⟩
  | fuel + 1, s, ws, stream, vbuf =>
    match stream.next with
    | (none, _) => ⟨s, ws, [], [], Except.ok ()⟩
    | (some chunk, stream') =>
      if isAtBadBlock t ws then
        let aw := advanceRun t ws chunk.length
        let o := trySeek sm t s aw.1
        match o.res with
        | Except.error e => ⟨o.s, o.ws, aw.2 ++ o.evs, o.ops, Except.error e⟩
        | Except.ok _ =>
          let o2 := verifyLoop sm t fuel o.s o.ws stream' vbuf
          ⟨o2.s, o2.ws, aw.2 ++ o.evs ++ o2.evs, o.ops ++ o2.ops, o2.res⟩
      else
        match sm.read s (vbuf.take chunk.length) with
        | (s', SRes.err e) =>
            ⟨s', ws, [], [SOp.readOp chunk.length], Except.error e⟩
        | (s', SRes.ok (b', _cnt)) =>
          let vbuf' := b' ++ vbuf.drop chunk.length
          if b' ≠ chunk then
            ⟨s', ws, [], [SOp.readOp chunk.length],
             Except.error verificationFailedError⟩
          else
            let aw := advanceRun t ws chunk.length
            let o2 := verifyLoop sm t fuel s' aw.1 stream' vbuf'
            ⟨o2.s, o2.ws, aw.2 ++ o2.evs, SOp.readOp chunk.length :: o2.ops,
             o2.res⟩

/-- `WipeRun::verify` from `wipe.rs`.  The fresh aligned buffer of
`block_size` bytes is uninitialized in the source; it is modelled as
zeros. -/
def verify {σ : Type} (sm : StorageModel σ) (t : WipeTask) (fuel : Nat)
    (s : σ) (ws : WipeState) (stage : Stage) : EngineOut σ Unit :=
  let ev0 := [(ws.at_verification, WipeEvent.progress ws.position)]
  let o1 := seekToTheNextSafePosition sm t fuel s ws
  match o1.res with
  | Except.error e => ⟨o1.s, o1.ws, ev0 ++ o1.evs, o1.ops, Except.error e⟩
  | Except.ok _ =>
    if t.total_size ≤ o1.ws.position then
      ⟨o1.s, o1.ws, ev0 ++ o1.evs, o1.ops, Except.ok ()⟩
    else
      let stream := stage.stream t.total_size t.block_size o1.ws.position
      let o2 := verifyLoop sm t fuel o1.s o1.ws stream
        (List.replicate t.block_size 0)
      ⟨o2.s, o2.ws, ev0 ++ o1.evs ++ o2.evs, o1.ops ++ o2.ops, o2.res⟩

/-- The per-stage attempt loop of `WipeRun::run` from `wipe.rs` (the
`loop { let watermark = self.state.position; ... }` body).  The result
is the stage error: `none` on success.  Each retry consumes one unit of
fuel; `retries_left` bounds the retries the engine itself takes. -/
def attemptLoop {σ : Type} (sm : StorageModel σ) (t : WipeTask) :
    Nat → σ → WipeState → Stage → Bool → EngineOut σ (Option AnyError)
  | 0, s, ws, _, _ => ⟨s, ws, [], [], Except.error fuelError⟩
  | fuel + 1, s, ws, stage, have_to_verify =>
    let watermark := ws.position
    let ev1 := [(ws.at_verification, WipeEvent.stageStarted)]
    let of := fill sm t (fuel + 1) s ws stage
    match of.res with
    | Except.error e =>
      let ev2 := [(of.ws.at_verification, WipeEvent.stageCompleted (some e))]
      if 0 < of.ws.retries_left then
        let ws2 := { of.ws with retries_left := of.ws.retries_left - 1 }
        let ev3 := [(ws2.at_verification, WipeEvent.retrying)]
        let o2 := attemptLoop sm t fuel of.s ws2 stage have_to_verify
        ⟨o2.s, o2.ws, ev1 ++ of.evs ++ ev2 ++ ev3 ++ o2.evs,
         of.ops ++ o2.ops, o2.res⟩
      else
        ⟨of.s, of.ws, ev1 ++ of.evs ++ ev2, of.ops, Except.ok (some e)⟩
    | Except.ok _ =>
      let ev2 := [(of.ws.at_verification, WipeEvent.stageCompleted none)]
      if !have_to_verify then
        ⟨of.s, of.ws, ev1 ++ of.evs ++ ev2, of.ops, Except.ok none⟩
      else
        let wsv := { of.ws with position := watermark, at_verification := true }
        let ev3 := [(wsv.at_verification, WipeEvent.stageStarted)]
        let ov := verify sm t (fuel + 1) of.s wsv stage
        match ov.res with
        | Except.error e =>
          let ev4 := [(ov.ws.at_verification, WipeEvent.stageCompleted (some e))]
          if 0 < ov.ws.retries_left then
            let ws2 := { ov.ws with retries_left := ov.ws.retries_left - 1,
                                    at_verification := false }
            let ev5 := [(ws2.at_verification, WipeEvent.retrying)]
            let o2 := attemptLoop sm t fuel ov.s ws2 stage have_to_verify
            ⟨o2.s, o2.ws,
             ev1 ++ of.evs ++ ev2 ++ ev3 ++ ov.evs ++ ev4 ++ ev5 ++ o2.evs,
             of.ops ++ ov.ops ++ o2.ops, o2.res⟩
          else
            ⟨ov.s, ov.ws, ev1 ++ of.evs ++ ev2 ++ ev3 ++ ov.evs ++ ev4,
             of.ops ++ ov.ops, Except.ok (some e)⟩
        | Except.ok _ =>
          let ev4 := [(ov.ws.at_verification, WipeEvent.stageCompleted none)]
          ⟨ov.s, ov.ws, ev1 ++ of.evs ++ ev2 ++ ev3 ++ ov.evs ++ ev4,
           of.ops ++ ov.ops, Except.ok none⟩

/-- The `have_to_verify` computation of `WipeRun::run` from `wipe.rs`:
`Verify::No` never, `Verify::Last` only for the final stage
(`i + 1 == stages.len()`), `Verify::All` always. -/
def haveToVerify (v : Verify) (i len : Nat) : Bool :=
  match v with
  | Verify.no => false
  | Verify.last => i + 1 == len
  | Verify.all => true

/-- The `for (i, stage) in stages.iter().enumerate()` loop of
`WipeRun::run` from `wipe.rs`. -/
def runStages {σ : Type} (sm : StorageModel σ) (t : WipeTask) (fuel : Nat) :
    List Stage → Nat → σ → WipeState → EngineOut σ (Option AnyError)
  | [], _, s, ws => ⟨s, ws, [], [], Except.ok none⟩
  | stg :: rest, i, s, ws =>
    let have_to_verify := haveToVerify t.verify i t.scheme.stages.length
    let ws1 := { ws with stage := i, position := 0, at_verification := false }
    let o := attemptLoop sm t fuel s ws1 stg have_to_verify
    match o.res with
    | Except.error e => ⟨o.s, o.ws, o.evs, o.ops, Except.error e⟩
    | Except.ok (some e) => ⟨o.s, o.ws, o.evs, o.ops, Except.ok (some e)⟩
    | Except.ok none =>
      let o2 := runStages sm t fuel rest (i + 1) o.s o.ws
      ⟨o2.s, o2.ws, o.evs ++ o2.evs, o.ops ++ o2.ops, o2.res⟩

/-- `WipeTask::run` / `WipeRun::run` from `wipe.rs`: publish `Started`,
run the stages, publish `Completed(err?)`, return `err.is_none()`.  A
`fuelError` result stands for divergence of the source and publishes no
`Completed`. -/
def WipeTask.run {σ : Type} (t : WipeTask) (sm : StorageModel σ)
    (fuel : Nat) (s : σ) (ws : WipeState) : EngineOut σ Bool :=
  let ev0 := [(ws.at_verification, WipeEvent.started)]
  let o := runStages sm t fuel t.scheme.stages 0 s ws
  match o.res with
  | Except.error e => ⟨o.s, o.ws, ev0 ++ o.evs, o.ops, Except.error e⟩
  | Except.ok werr =>
    ⟨o.s, o.ws, ev0 ++ o.evs ++ [(o.ws.at_verification, WipeEvent.completed werr)],
     o.ops, Except.ok werr.isNone⟩

/-! ## Concrete storage models and tasks used as witnesses -/

/-- The payload of a read result with the reported byte count erased. -/
def sresBytes : SRes (List Byte × Nat) → SRes (List Byte)
  | SRes.ok (b, _) => SRes.ok b
  | SRes.err e => SRes.err e

/-- A small task: a single constant-fill stage, 4 bytes, blocks of 2,
no verification. -/
def smallTask : WipeTask :=
  ⟨⟨"zero fill", [Stage.fill 0]⟩, Verify.no, 4, 2⟩

/-- A state with block 0 already marked bad. -/
def wsBad0 : WipeState :=
  { WipeState.default with bad_blocks := [0] }

/-- Storage whose seeks and writes fail with an `std::io::Error` of kind
7 in the cause chain (an arbitrary non-EIO kind); reads succeed without
filling anything. -/
def ioFailSM : StorageModel Unit :=
  { seek := fun s _ => (s, SRes.err ⟨some 7, "simulated iofail"⟩)
    read := fun s b => (s, SRes.ok (b, 0))
    write := fun s _ => (s, SRes.err ⟨some 7, "simulated iofail"⟩)
    flush := fun s => (s, SRes.ok ()) }

/-- Storage whose seeks and writes fail with an error carrying no
`std::io::Error` in its cause chain. -/
def otherFailSM : StorageModel Unit :=
  { seek := fun s _ => (s, SRes.err ⟨none, "simulated failure"⟩)
    read := fun s b => (s, SRes.ok (b, 0))
    write := fun s _ => (s, SRes.err ⟨none, "simulated failure"⟩)
    flush := fun s => (s, SRes.ok ()) }

/-- Storage whose operations all succeed; reads report the buffer
unchanged with count 0. -/
def idleSM : StorageModel Unit :=
  { seek := fun s p => (s, SRes.ok p)
    read := fun s b => (s, SRes.ok (b, 0))
    write := fun s _ => (s, SRes.ok ())
    flush := fun s => (s, SRes.ok ()) }

/-- Storage whose reads fail. -/
def readFailSM : StorageModel Unit :=
  { seek := fun s p => (s, SRes.ok p)
    read := fun s _ => (s, SRes.err ⟨some 3, "simulated read failure"⟩)
    write := fun s _ => (s, SRes.ok ())
    flush := fun s => (s, SRes.ok ()) }

/-- Storage whose reads fill the buffer with 9s (mismatching any
constant-0 chunk). -/
def mismatchSM : StorageModel Unit :=
  { seek := fun s p => (s, SRes.ok p)
    read := fun s b => (s, SRes.ok (List.replicate b.length 9, b.length))
    write := fun s _ => (s, SRes.ok ())
    flush := fun s => (s, SRes.ok ()) }

/-- A task with one constant-5 stage over 4 bytes in blocks of 2. -/
def staleTask : WipeTask :=
  ⟨⟨"constant fill", [Stage.fill 5]⟩, Verify.no, 4, 2⟩

/-- Storage (state = number of reads so far) whose first read fills the
buffer with the expected bytes 5,5 and whose second read is a successful
short read: it fills nothing (returns the buffer unchanged) and reports
count 0. -/
def staleReadSM : StorageModel Nat :=
  { seek := fun s p => (s, SRes.ok p)
    read := fun s b =>
      if s = 0 then (1, SRes.ok ([5, 5], 2)) else (s + 1, SRes.ok (b, 0))
    write := fun s _ => (s, SRes.ok ())
    flush := fun s => (s, SRes.ok ()) }

/-- The events one phase (fill pass or verification pass) publishes when
`total_size = 0`: `StageStarted`, the unconditional entry `Progress(0)`,
`StageCompleted(None)`. -/
def zeroSizePhaseE : List WipeEvent :=
  [WipeEvent.stageStarted, WipeEvent.progress 0,
   WipeEvent.stageCompleted none]

/-- The full event sequence (flags dropped) of the stage loop when
`total_size = 0`. -/
def zeroSizeTraceE (v : Verify) (len : Nat) : Nat → List Stage → List WipeEvent
  | _, [] => []
  | i, _ :: rest =>
    zeroSizePhaseE ++ (if haveToVerify v i len then zeroSizePhaseE else [])
      ++ zeroSizeTraceE v len (i + 1) rest

/-! ## Observing progress events -/

/-- The positions carried by the `Progress` events of a trace, in
order. -/
def progresses (evs : List (Bool × WipeEvent)) : List Nat :=
  evs.filterMap (fun e =>
    match e.2 with
    | WipeEvent.progress p => some p
    | _ => none)

/-- Split a trace at its `StageStarted` events and collect the
`Progress` positions of each resulting segment (`cur` accumulates the
current segment). -/
def segsAux (cur : List Nat) : List (Bool × WipeEvent) → List (List Nat)
  | [] => [cur]
  | e :: rest =>
    match e.2 with
    | WipeEvent.stageStarted => cur :: segsAux [] rest
    | WipeEvent.progress p => segsAux (cur ++ [p]) rest
    | _ => segsAux cur rest

/-- The `Progress` positions of a trace, grouped by the `StageStarted`
events that delimit the stages' phases. -/
def progressSegments (evs : List (Bool × WipeEvent)) : List (List Nat) :=
  segsAux [] evs

/-- `IsMono lo l hi`: the list `l` is non-decreasing, bounded below by
`lo` and above by `hi` (with `lo ≤ hi`). -/
def IsMono : Nat → List Nat → Nat → Prop
  | lo, [], hi => lo ≤ hi
  | lo, p :: ps, hi => lo ≤ p ∧ IsMono p ps hi

/-- A trace with no `StageStarted` event. -/
def noSS (evs : List (Bool × WipeEvent)) : Prop :=
  ∀ e ∈ evs, e.2 ≠ WipeEvent.stageStarted

/-- The invariant a single engine phase routine maintains: its progress
events grow monotonically from the entry position to the final position,
the final position stays within the device, and it publishes no
`StageStarted`. -/
def PhaseOK {σ : Type} {α : Type} (t : WipeTask) (ws : WipeState)
    (o : EngineOut σ α) : Prop :=
  IsMono ws.position (progresses o.evs) o.ws.position
  ∧ o.ws.position ≤ t.total_size
  ∧ noSS o.evs

/-- A continuation trace is segment-safe: whatever non-decreasing open
segment `cur` it is appended after, every progress segment of the
combined trace is non-decreasing. -/
def TailOK (tail : List (Bool × WipeEvent)) : Prop :=
  ∀ cur : List Nat, List.Chain' (fun a b => a ≤ b) cur →
    ∀ seg ∈ segsAux cur tail, List.Chain' (fun a b => a ≤ b) seg

/-! ## The in-memory test storage (`InMemoryStorage` in the tests of
`wipe.rs`) -/

/-- The state of `InMemoryStorage`: the backing `Cursor<Vec<u8>>` is a
contents function together with the cursor position, plus the
accumulated read/write byte counters that drive the `fail_after_any`
trap. -/
structure MemState where
  contents : Nat → Byte
  pos : Nat
  total_written : Nat
  total_read : Nat

/-- Overlay of a written buffer on the backing contents at position
`p` (the effect of `Write::write_all` on a `Cursor<Vec<u8>>`). -/
def writeOver (c : Nat → Byte) (p : Nat) (d : List Byte) : Nat → Byte :=
  fun i => if p ≤ i ∧ i < p + d.length then d.getD (i - p) 0 else c i

/-- `InMemoryStorage::check_for_traps` from `wipe.rs`: a configured bad
block overlapping `[pos, pos + write_bytes)` fails with an
`std::io::Error` (of kind `Other`) before the counters are updated;
otherwise the counters are updated and the access fails with a plain
`anyhow!` error (no `io::Error` in its chain) when it crosses the first
configured `fail_after_any` threshold not yet passed. -/
def checkForTraps (bad_blocks failures : List Nat)
    (read_bytes write_bytes : Nat) (st : MemState) :
    MemState × Option AnyError :=
  let block_start := st.pos
  let block_end := block_start + write_bytes
  if bad_blocks.any (fun b =>
      decide (block_start ≤ b) && decide (b < block_end)) then
    (st, some ⟨some 1, "Mocked IO failure: bad block"⟩)
  else
    let old_total := st.total_read + st.total_written
    let st2 := { st with total_read := st.total_read + read_bytes,
                         total_written := st.total_written + write_bytes }
    match failures.find? (fun x => decide (old_total ≤ x)) with
    | some v =>
      if old_total + read_bytes + write_bytes > v then
        (st2, some ⟨none, "Mocked IO failure"⟩)
      else (st2, none)
    | none => (st2, none)

/-- `InMemoryStorage` as a `StorageModel`: `seek` is the `Cursor` seek
(always succeeds), `read` checks the traps with the pre-access cursor
position and then copies up to `size - pos` bytes of the contents into
the buffer prefix, reporting the copied count, and `write` checks the
traps and then overlays the data at the cursor. -/
def inMemSM (size : Nat) (failures bad_blocks : List Nat) :
    StorageModel MemState :=
  { seek := fun st p => ({ st with pos := p }, SRes.ok p)
    read := fun st b =>
      match checkForTraps bad_blocks failures b.length 0 st with
      | (st2, some e) => (st2, SRes.err e)
      | (st2, none) =>
        let n := min b.length (size - st2.pos)
        ({ st2 with pos := st2.pos + n },
         SRes.ok ((List.range n).map (fun i => st2.contents (st2.pos + i))
             ++ b.drop n, n))
    write := fun st d =>
      match checkForTraps bad_blocks failures 0 d.length st with
      | (st2, some e) => (st2, SRes.err e)
      | (st2, none) =>
        ({ st2 with contents := writeOver st2.contents st2.pos d,
                    pos := st2.pos + d.length }, SRes.ok ())
    flush := fun st => (st, SRes.ok ()) }

/-! ## The S3 scenario (`test_wiping_validation_failure_with_retries`) -/

/-- `len` consecutive keystream bytes starting at byte `off`. -/
def ksChunk (ks : Nat → Byte) (off len : Nat) : List Byte :=
  (List.range len).map (fun i => ks (off + i))

/-- The S3 task: scheme `random` (a single `Random` stage),
`Verify::Last`, 100000 bytes, blocks of 32768. -/
def s3Task (ks : Nat → Byte) : WipeTask :=
  ⟨⟨"Single random fill", [Stage.random ks]⟩, Verify.last, 100000, 32768⟩

/-- `InMemoryStorage::new(100000)` with `fail_after_any(150000)`. -/
def s3SM : StorageModel MemState := inMemSM 100000 [150000] []

/-- The initial in-memory contents: every byte `0xff`. -/
def s3C0 : Nat → Byte := fun _ => 0xff

/-- `InMemoryStorage::new(100000)`: cursor 0, zeroed counters. -/
def s3Mem0 : MemState := ⟨s3C0, 0, 0, 0⟩

/-- The backing contents after the first fill writes its first chunk. -/
def s3F1c1 (ks : Nat → Byte) : Nat → Byte :=
  writeOver s3C0 0 (ksChunk ks 0 32768)

/-- … after its second chunk. -/
def s3F1c2 (ks : Nat → Byte) : Nat → Byte :=
  writeOver (s3F1c1 ks) 32768 (ksChunk ks 32768 32768)

/-- … after its third chunk. -/
def s3F1c3 (ks : Nat → Byte) : Nat → Byte :=
  writeOver (s3F1c2 ks) 65536 (ksChunk ks 65536 32768)

/-- The backing contents after the complete first fill: the whole
keystream prefix. -/
def s3C1 (ks : Nat → Byte) : Nat → Byte :=
  writeOver (s3F1c3 ks) 98304 (ksChunk ks 98304 1696)

/-- The backing contents after the retried fill writes its first chunk
(at the watermark 32768). -/
def s3F2c1 (ks : Nat → Byte) : Nat → Byte :=
  writeOver (s3C1 ks) 32768 (ksChunk ks 32768 32768)

/-- … after its second chunk. -/
def s3F2c2 (ks : Nat → Byte) : Nat → Byte :=
  writeOver (s3F2c1 ks) 65536 (ksChunk ks 65536 32768)

/-- The backing contents after the complete retried fill. -/
def s3C2 (ks : Nat → Byte) : Nat → Byte :=
  writeOver (s3F2c2 ks) 98304 (ksChunk ks 98304 1696)

/-- `WipeState::default()` with `retries_left = 8`. -/
def s3WS0 : WipeState := ⟨0, false, 0, 8, []⟩

theorem next_stop (k : StreamKind) (ts bs pos : Nat) (buf : List Byte)
    (cbs : Nat) (h : ts ≤ pos) :
    SanitizationStream.next ⟨k, ⟨ts, bs, pos, buf, cbs, false⟩⟩
      = (none, ⟨k, ⟨ts, bs, pos, buf, cbs, true⟩⟩) := by
  simp [SanitizationStream.next, SanitizationStream.advance,
    SanitizationStream.get, Nat.not_lt.2 h]

theorem next_fill (ts bs pos : Nat) (buf : List Byte) (cbs : Nat)
    (h : pos < ts) :
    SanitizationStream.next ⟨StreamKind.fill, ⟨ts, bs, pos, buf, cbs, false⟩⟩
      = (some (buf.take (min bs (ts - pos))),
         ⟨StreamKind.fill,
          ⟨ts, bs, pos + min bs (ts - pos), buf, min bs (ts - pos), false⟩⟩) := by
  simp [SanitizationStream.next, SanitizationStream.advance,
    SanitizationStream.get, h]

theorem next_random (ts bs pos wp : Nat) (ks : Nat → Byte) (buf : List Byte)
    (cbs : Nat) (h : pos < ts) :
    SanitizationStream.next
        ⟨StreamKind.random wp ks, ⟨ts, bs, pos, buf, cbs, false⟩⟩
      = (some (((List.range bs).map (fun i => ks (4 * wp + i))).take
            (min bs (ts - pos))),
         ⟨StreamKind.random (wp + (bs + 3) / 4) ks,
          ⟨ts, bs, pos + min bs (ts - pos),
           (List.range bs).map (fun i => ks (4 * wp + i)),
           min bs (ts - pos), false⟩⟩) := by
  simp [SanitizationStream.next, SanitizationStream.advance,
    SanitizationStream.get, RandomGenerator.fillBytes, h]

theorem collectFuel_none (fuel : Nat) (st st2 : SanitizationStream)
    (h : st.next = (none, st2)) :
    SanitizationStream.collectFuel (fuel + 1) st = [] := by
  rw [SanitizationStream.collectFuel, h]

theorem collectFuel_some (fuel : Nat) (st st' : SanitizationStream)
    (c : List Byte) (h : st.next = (some c, st')) :
    SanitizationStream.collectFuel (fuel + 1) st
      = c :: SanitizationStream.collectFuel fuel st' := by
  rw [SanitizationStream.collectFuel, h]

theorem chunkLens_nil (bs total pos : Nat) (h : total ≤ pos) :
    chunkLens bs total pos = [] := by
  rw [chunkLens]; simp [h]

theorem chunkLens_cons (bs total pos : Nat) (hbs : 0 < bs)
    (h : pos < total) :
    chunkLens bs total pos
      = min bs (total - pos)
        :: chunkLens bs total (pos + min bs (total - pos)) := by
  rw [chunkLens]
  have : ¬(bs = 0 ∨ total ≤ pos) := by omega
  simp [this]

/-- The lengths of the yielded slices do not depend on the stage kind. -/
theorem collectFuel_map_length (fuel : Nat) : ∀ (k : StreamKind)
    (ts bs pos : Nat) (buf : List Byte) (cbs : Nat), 0 < bs →
    ts - pos < fuel → buf.length = bs →
    ((SanitizationStream.collectFuel fuel
        ⟨k, ⟨ts, bs, pos, buf, cbs, false⟩⟩).map List.length)
      = chunkLens bs ts pos := by
  induction fuel with
  | zero => intro k ts bs pos buf cbs hbs hf hl; omega
  | succ fuel ih =>
    intro k ts bs pos buf cbs hbs hf hl
    by_cases hpos : ts ≤ pos
    · rw [chunkLens_nil _ _ _ hpos]
      rw [collectFuel_none _ _ _ (next_stop _ _ _ _ _ _ hpos)]
      rfl
    · push_neg at hpos
      rw [chunkLens_cons _ _ _ hbs hpos]
      have hm1 : 1 ≤ min bs (ts - pos) := by omega
      have hm2 : min bs (ts - pos) ≤ ts - pos := by omega
      have hrec : ts - (pos + min bs (ts - pos)) < fuel := by omega
      cases k with
      | fill =>
        rw [collectFuel_some _ _ _ _ (next_fill _ _ _ _ _ hpos)]
        rw [List.map_cons, ih _ _ _ _ _ _ hbs hrec hl]
        simp [List.length_take, hl, Nat.min_comm]
      | random wp ks =>
        rw [collectFuel_some _ _ _ _ (next_random _ _ _ _ _ _ _ hpos)]
        rw [List.map_cons, ih _ _ _ _ _ _ hbs hrec (by simp)]
        simp [List.length_take]

/-- Yield lists are fuel-independent once the fuel covers the remaining
byte range. -/
theorem collectFuel_fuel_free : ∀ (f1 f2 : Nat) (k : StreamKind)
    (ts bs pos : Nat) (buf : List Byte) (cbs : Nat), 0 < bs →
    ts - pos < f1 → ts - pos < f2 →
    SanitizationStream.collectFuel f1 ⟨k, ⟨ts, bs, pos, buf, cbs, false⟩⟩
      = SanitizationStream.collectFuel f2 ⟨k, ⟨ts, bs, pos, buf, cbs, false⟩⟩ := by
  intro f1
  induction f1 with
  | zero => intro f2 k ts bs pos buf cbs hbs h1 h2; omega
  | succ f1 ih =>
    intro f2 k ts bs pos buf cbs hbs h1 h2
    cases f2 with
    | zero => omega
    | succ f2 =>
      by_cases hpos : ts ≤ pos
      · rw [collectFuel_none _ _ _ (next_stop _ _ _ _ _ _ hpos),
          collectFuel_none _ _ _ (next_stop _ _ _ _ _ _ hpos)]
      · push_neg at hpos
        have hm1 : 1 ≤ min bs (ts - pos) := by omega
        have hm2 : min bs (ts - pos) ≤ ts - pos := by omega
        have hr1 : ts - (pos + min bs (ts - pos)) < f1 := by omega
        have hr2 : ts - (pos + min bs (ts - pos)) < f2 := by omega
        cases k with
        | fill =>
          rw [collectFuel_some _ _ _ _ (next_fill _ _ _ _ _ hpos),
            collectFuel_some _ _ _ _ (next_fill _ _ _ _ _ hpos)]
          rw [ih _ _ _ _ _ _ _ hbs hr1 hr2]
        | random wp ks =>
          rw [collectFuel_some _ _ _ _ (next_random _ _ _ _ _ _ _ hpos),
            collectFuel_some _ _ _ _ (next_random _ _ _ _ _ _ _ hpos)]
          rw [ih _ _ _ _ _ _ _ hbs hr1 hr2]

theorem chunkLens_length : ∀ (n bs total pos : Nat), 0 < bs →
    total - pos ≤ n →
    (chunkLens bs total pos).length = (total - pos + bs - 1) / bs := by
  intro n
  induction n with
  | zero =>
    intro bs total pos hbs hn
    have hpos : total ≤ pos := by omega
    rw [chunkLens_nil _ _ _ hpos]
    have : total - pos = 0 := by omega
    rw [this, List.length_nil]
    exact (Nat.div_eq_of_lt (by omega)).symm
  | succ n ih =>
    intro bs total pos hbs hn
    by_cases hpos : total ≤ pos
    · rw [chunkLens_nil _ _ _ hpos]
      have : total - pos = 0 := by omega
      rw [this, List.length_nil]
      exact (Nat.div_eq_of_lt (by omega)).symm
    · push_neg at hpos
      rw [chunkLens_cons _ _ _ hbs hpos, List.length_cons]
      have hm1 : 1 ≤ min bs (total - pos) := by omega
      have hm2 : min bs (total - pos) ≤ total - pos := by omega
      rw [ih bs total (pos + min bs (total - pos)) hbs (by omega)]
      by_cases hc : bs ≤ total - pos
      · have hmin : min bs (total - pos) = bs := by omega
        rw [hmin]
        have e1 : total - pos + bs - 1 = (total - pos - 1) + bs := by omega
        have e2 : total - (pos + bs) + bs - 1 = total - pos - 1 := by omega
        rw [e1, e2, Nat.add_div_right _ hbs]
      · push_neg at hc
        have hmin : min bs (total - pos) = total - pos := by omega
        rw [hmin]
        have e2 : total - (pos + (total - pos)) = 0 := by omega
        rw [e2]
        rw [Nat.div_eq_of_lt (by omega)]
        have : (total - pos + bs - 1) / bs = 1 := by
          apply Nat.div_eq_of_lt_le (by omega) (by omega)
        omega

theorem chunkLens_dropLast : ∀ (n bs total pos : Nat), 0 < bs →
    total - pos ≤ n →
    ∀ x ∈ (chunkLens bs total pos).dropLast, x = bs := by
  intro n
  induction n with
  | zero =>
    intro bs total pos hbs hn
    rw [chunkLens_nil _ _ _ (by omega)]
    simp
  | succ n ih =>
    intro bs total pos hbs hn
    by_cases hpos : total ≤ pos
    · rw [chunkLens_nil _ _ _ hpos]; simp
    · push_neg at hpos
      rw [chunkLens_cons _ _ _ hbs hpos]
      have hm1 : 1 ≤ min bs (total - pos) := by omega
      have hm2 : min bs (total - pos) ≤ total - pos := by omega
      by_cases ht : total ≤ pos + min bs (total - pos)
      · rw [chunkLens_nil _ _ _ ht]
        simp
      · push_neg at ht
        have htail : chunkLens bs total (pos + min bs (total - pos)) ≠ [] := by
          rw [chunkLens_cons _ _ _ hbs ht]
          simp
        rw [List.dropLast_cons_of_ne_nil htail]
        intro x hx
        rcases List.mem_cons.1 hx with h | h
        · have : min bs (total - pos) = bs := by omega
          omega
        · exact ih bs total _ hbs (by omega) x h

theorem chunkLens_getLast : ∀ (n bs total pos : Nat), 0 < bs →
    total - pos ≤ n → ∀ h : chunkLens bs total pos ≠ [],
    (chunkLens bs total pos).getLast h
      = total - pos - bs * ((chunkLens bs total pos).length - 1) := by
  intro n
  induction n with
  | zero =>
    intro bs total pos hbs hn h
    exact absurd (chunkLens_nil bs total pos (by omega)) h
  | succ n ih =>
    intro bs total pos hbs hn h
    by_cases hpos : total ≤ pos
    · exact absurd (chunkLens_nil _ _ _ hpos) h
    · push_neg at hpos
      have hm1 : 1 ≤ min bs (total - pos) := by omega
      have hm2 : min bs (total - pos) ≤ total - pos := by omega
      by_cases ht : total ≤ pos + min bs (total - pos)
      · have hnil : chunkLens bs total (pos + min bs (total - pos)) = [] :=
          chunkLens_nil _ _ _ ht
        have hone : chunkLens bs total pos = [min bs (total - pos)] := by
          rw [chunkLens_cons _ _ _ hbs hpos, hnil]
        simp only [hone, List.getLast_singleton, List.length_cons,
          List.length_nil]
        omega
      · push_neg at ht
        have htail : chunkLens bs total (pos + min bs (total - pos)) ≠ [] := by
          rw [chunkLens_cons _ _ _ hbs ht]
          simp
        have hbseq : min bs (total - pos) = bs := by omega
        have hstep : chunkLens bs total pos
            = bs :: chunkLens bs total (pos + bs) := by
          rw [chunkLens_cons _ _ _ hbs hpos, hbseq]
        rw [hbseq] at htail
        have hlen1 : 1 ≤ (chunkLens bs total (pos + bs)).length :=
          List.length_pos.2 htail
        have := ih bs total (pos + bs) hbs (by omega) htail
        calc (chunkLens bs total pos).getLast h
            = (chunkLens bs total (pos + bs)).getLast htail := by
              rw [List.getLast_eq_iff_getLast?_eq_some, ← List.getLast?_eq_getLast _ htail]
              rw [hstep]
              rcases List.exists_cons_of_ne_nil htail with ⟨y, ys, hys⟩
              rw [hys]
              exact List.getLast?_cons_cons ..
          _ = total - (pos + bs) - bs * ((chunkLens bs total (pos + bs)).length - 1) := this
          _ = total - pos - bs * ((chunkLens bs total pos).length - 1) := by
              rw [hstep, List.length_cons]
              have hlt : (chunkLens bs total (pos + bs)).length - 1 + 1
                  = (chunkLens bs total (pos + bs)).length := by omega
              have hmul : bs * ((chunkLens bs total (pos + bs)).length - 1 + 1)
                  = bs * ((chunkLens bs total (pos + bs)).length - 1) + bs :=
                Nat.mul_succ ..
              have hx : bs * (chunkLens bs total (pos + bs)).length
                  = bs * ((chunkLens bs total (pos + bs)).length - 1) + bs := by
                rw [← hmul, hlt]
              simp only [Nat.add_sub_cancel]
              omega

theorem collectFuel_fill_mem : ∀ (fuel ts bs pos cbs v : Nat),
    ∀ c ∈ SanitizationStream.collectFuel fuel
      ⟨StreamKind.fill, ⟨ts, bs, pos, List.replicate bs v, cbs, false⟩⟩,
    ∀ b ∈ c, b = v := by
  intro fuel
  induction fuel with
  | zero => intro ts bs pos cbs v c hc; simp [SanitizationStream.collectFuel] at hc
  | succ fuel ih =>
    intro ts bs pos cbs v c hc b hb
    by_cases hpos : ts ≤ pos
    · rw [collectFuel_none _ _ _ (next_stop _ _ _ _ _ _ hpos)] at hc
      simp at hc
    · push_neg at hpos
      rw [collectFuel_some _ _ _ _ (next_fill _ _ _ _ _ hpos)] at hc
      rcases List.mem_cons.1 hc with h | h
      · subst h
        exact List.eq_of_mem_replicate (List.mem_of_mem_take hb)
      · exact ih _ _ _ _ _ c h b hb

theorem collectFuel_random_flatten : ∀ (fuel ts bs pos wp : Nat)
    (ks : Nat → Byte) (buf : List Byte) (cbs : Nat),
    0 < bs → 4 ∣ bs → 4 * wp = pos → ts - pos < fuel →
    (SanitizationStream.collectFuel fuel
        ⟨StreamKind.random wp ks, ⟨ts, bs, pos, buf, cbs, false⟩⟩).flatten
      = (List.range (ts - pos)).map (fun i => ks (pos + i)) := by
  intro fuel
  induction fuel with
  | zero => intro ts bs pos wp ks buf cbs hbs h4 hwp hf; omega
  | succ fuel ih =>
    intro ts bs pos wp ks buf cbs hbs h4 hwp hf
    by_cases hpos : ts ≤ pos
    · rw [collectFuel_none _ _ _ (next_stop _ _ _ _ _ _ hpos)]
      have : ts - pos = 0 := by omega
      simp [this]
    · push_neg at hpos
      rw [collectFuel_some _ _ _ _ (next_random _ _ _ _ _ _ _ hpos)]
      rw [List.flatten_cons]
      have hchunk : ∀ m, m ≤ bs →
          ((List.range bs).map (fun i => ks (4 * wp + i))).take m
            = (List.range m).map (fun i => ks (pos + i)) := by
        intro m hm
        rw [← List.map_take, List.take_range]
        have hmm : min m bs = m := by omega
        rw [hmm, hwp]
      obtain ⟨t, ht⟩ := h4
      have hstep : (bs + 3) / 4 = t := by omega
      by_cases hcase : ts - pos ≤ bs
      · have hmin : min bs (ts - pos) = ts - pos := by omega
        have hstop : ts ≤ pos + min bs (ts - pos) := by omega
        have hrest : (SanitizationStream.collectFuel fuel
            ⟨StreamKind.random (wp + (bs + 3) / 4) ks,
             ⟨ts, bs, pos + min bs (ts - pos),
              (List.range bs).map (fun i => ks (4 * wp + i)),
              min bs (ts - pos), false⟩⟩) = [] := by
          cases fuel with
          | zero => rfl
          | succ fuel => exact collectFuel_none _ _ _ (next_stop _ _ _ _ _ _ hstop)
        rw [hrest]
        rw [hmin, hchunk _ (by omega)]
        simp
      · push_neg at hcase
        have hmin : min bs (ts - pos) = bs := by omega
        rw [hmin]
        have hwp' : 4 * (wp + (bs + 3) / 4) = pos + bs := by
          rw [hstep]; omega
        have hfuel2 : ts - (pos + bs) < fuel := by omega
        rw [ih ts bs (pos + bs) _ ks _ _ hbs ⟨t, ht⟩ hwp' hfuel2]
        rw [hchunk bs le_rfl]
        have hfun : ((fun i => ks (pos + i)) ∘ fun x => bs + x)
            = fun i => ks (pos + bs + i) := by
          funext x
          simp only [Function.comp]
          congr 1
          omega
        rw [show ts - pos = bs + (ts - pos - bs) by omega, List.range_add,
          List.map_append, List.map_map, hfun,
          show ts - pos - bs = ts - (pos + bs) by omega]

theorem stream_fill_def (v ts bs s : Nat) :
    Stage.stream (Stage.fill v) ts bs s
      = ⟨StreamKind.fill, ⟨ts, bs, s, List.replicate bs v, 0, false⟩⟩ := rfl

theorem stream_random_def (ks : Nat → Byte) (ts bs s : Nat) :
    Stage.stream (Stage.random ks) ts bs s
      = ⟨StreamKind.random (s / 4) ks,
         ⟨ts, bs, s, List.replicate bs 0, 0, false⟩⟩ := rfl

theorem streamYields_map_length (stage : Stage) (ts bs s : Nat)
    (hbs : 0 < bs) :
    (streamYields stage ts bs s).map List.length = chunkLens bs ts s := by
  cases stage with
  | fill v =>
    rw [streamYields, stream_fill_def]
    exact collectFuel_map_length _ _ _ _ _ _ _ hbs (by omega) (by simp)
  | random ks =>
    rw [streamYields, stream_random_def]
    exact collectFuel_map_length _ _ _ _ _ _ _ hbs (by omega) (by simp)

/-- C5: for every stage, every `total_size`, every `block_size > 0` and
every `start_from ≤ total_size`, `stage.stream` yields exactly
`⌈(total_size - start_from) / block_size⌉` slices; every slice except
possibly the last has length `block_size`, the last slice has length
`total_size - start_from - block_size * (k - 1)`; after exhaustion the
stream yields nothing further (the yield list is fuel-independent past
the bound); and for a constant stage every byte of every yielded slice
equals the stage's value. -/
theorem c5_stream_emission (stage : Stage) (total bs s : Nat)
    (hbs : 0 < bs) (hs : s ≤ total) :
    (streamYields stage total bs s).length = (total - s + bs - 1) / bs
  ∧ (∀ c ∈ (streamYields stage total bs s).dropLast, c.length = bs)
  ∧ (∀ h : streamYields stage total bs s ≠ [],
      ((streamYields stage total bs s).getLast h).length
        = total - s - bs * ((streamYields stage total bs s).length - 1))
  ∧ (∀ fuel, total - s + 1 ≤ fuel →
      (stage.stream total bs s).collectFuel fuel
        = streamYields stage total bs s)
  ∧ (∀ v, stage = Stage.fill v →
      ∀ c ∈ streamYields stage total bs s, ∀ b ∈ c, b = v) := by
  have hmap := streamYields_map_length stage total bs s hbs
  refine ⟨?_, ?_, ?_, ?_, ?_⟩
  · have := congrArg List.length hmap
    rw [List.length_map] at this
    rw [this]
    exact chunkLens_length (total - s) bs total s hbs le_rfl
  · intro c hc
    have h1 : c.length ∈ ((streamYields stage total bs s).dropLast).map
        List.length := List.mem_map_of_mem _ hc
    rw [List.map_dropLast, hmap] at h1
    exact chunkLens_dropLast (total - s) bs total s hbs le_rfl _ h1
  · intro h
    have hmne : (streamYields stage total bs s).map List.length ≠ [] := by
      simp [h]
    have hcne : chunkLens bs total s ≠ [] := hmap ▸ hmne
    have h3 := chunkLens_getLast (total - s) bs total s hbs le_rfl hcne
    have hsame : ((streamYields stage total bs s).map List.length).getLast hmne
        = (chunkLens bs total s).getLast hcne := by
      have e1 := List.getLast?_eq_getLast
        ((streamYields stage total bs s).map List.length) hmne
      have e2 := List.getLast?_eq_getLast (chunkLens bs total s) hcne
      conv at e1 => lhs; rw [hmap]
      rw [e2] at e1
      exact (Option.some_inj.1 e1).symm
    have h1 := List.getLast_map List.length (streamYields stage total bs s) hmne
    have hlen : (chunkLens bs total s).length
        = (streamYields stage total bs s).length := by
      rw [← hmap, List.length_map]
    rw [hsame, h3, hlen] at h1
    exact h1.symm
  · intro fuel hf
    rw [streamYields]
    cases stage with
    | fill v =>
      rw [stream_fill_def]
      exact collectFuel_fuel_free _ _ _ _ _ _ _ _ hbs (by omega) (by omega)
    | random ks =>
      rw [stream_random_def]
      exact collectFuel_fuel_free _ _ _ _ _ _ _ _ hbs (by omega) (by omega)
  · rintro v rfl c hc b hb
    rw [streamYields, stream_fill_def] at hc
    exact collectFuel_fill_mem _ _ _ _ _ _ c hc b hb

/-- Witness for C5 at a concrete instance: the `fill 0x33` stage over 5
bytes in blocks of 2 yields 3 slices of lengths 2, 2, 1, all bytes
0x33. -/
theorem c5_stream_emission_witness :
    0 < 2 ∧ (0 : Nat) ≤ 5 ∧
    ((streamYields (Stage.fill 0x33) 5 2 0).length = (5 - 0 + 2 - 1) / 2
  ∧ (∀ c ∈ (streamYields (Stage.fill 0x33) 5 2 0).dropLast, c.length = 2)
  ∧ (∀ h : streamYields (Stage.fill 0x33) 5 2 0 ≠ [],
      ((streamYields (Stage.fill 0x33) 5 2 0).getLast h).length
        = 5 - 0 - 2 * ((streamYields (Stage.fill 0x33) 5 2 0).length - 1))
  ∧ (∀ fuel, 5 - 0 + 1 ≤ fuel →
      ((Stage.fill 0x33).stream 5 2 0).collectFuel fuel
        = streamYields (Stage.fill 0x33) 5 2 0)
  ∧ (∀ v, Stage.fill 0x33 = Stage.fill v →
      ∀ c ∈ streamYields (Stage.fill 0x33) 5 2 0, ∀ b ∈ c, b = v)) :=
  ⟨by decide, by decide,
   c5_stream_emission (Stage.fill 0x33) 5 2 0 (by decide) (by decide)⟩

/-- C1 (amended): for a Random stage, when `block_size` is a positive
multiple of 4 and `start_from` is a multiple of 4 with
`start_from ≤ total_size`, the concatenation of the slices yielded by
`stage.stream(total_size, block_size, start_from)` equals the bytes at
absolute offsets `[start_from, total_size)` of the concatenation yielded
by `stage.stream(total_size, block_size, 0)`.  (The original claim
allowed every `block_size > 0`; it fails for block sizes that are not
multiples of 4, because `fill_bytes` consumes whole 32-bit words —
see the counterexample.) -/
theorem c1_random_positional (ks : Nat → Byte) (total bs s : Nat)
    (hbs : 0 < bs) (h4bs : 4 ∣ bs) (h4s : 4 ∣ s) (hs : s ≤ total) :
    (streamYields (Stage.random ks) total bs s).flatten
      = ((streamYields (Stage.random ks) total bs 0).flatten).drop s := by
  have h0 : (streamYields (Stage.random ks) total bs 0).flatten
      = (List.range total).map ks := by
    rw [streamYields, stream_random_def]
    have := collectFuel_random_flatten (total - 0 + 1) total bs 0 0 ks
      (List.replicate bs 0) 0 hbs h4bs (by omega) (by omega)
    simpa using this
  have hsw : 4 * (s / 4) = s := Nat.mul_div_cancel' h4s
  have hL : (streamYields (Stage.random ks) total bs s).flatten
      = (List.range (total - s)).map (fun i => ks (s + i)) := by
    rw [streamYields, stream_random_def]
    exact collectFuel_random_flatten (total - s + 1) total bs s (s / 4) ks
      (List.replicate bs 0) 0 hbs h4bs hsw (by omega)
  rw [hL, h0]
  have hsplit : (List.range total).map ks
      = (List.range s).map ks
        ++ (List.range (total - s)).map (fun i => ks (s + i)) := by
    conv_lhs => rw [show total = s + (total - s) by omega]
    rw [List.range_add, List.map_append, List.map_map]
    rfl
  rw [hsplit, List.drop_left' (by simp)]

/-- Witness for the amended C1 at a concrete instance. -/
theorem c1_random_positional_witness :
    0 < 4 ∧ 4 ∣ 4 ∧ 4 ∣ 4 ∧ 4 ≤ 10 ∧
    ((streamYields (Stage.random (fun n => n * 7)) 10 4 4).flatten
      = ((streamYields (Stage.random (fun n => n * 7)) 10 4 0).flatten).drop 4) :=
  ⟨by decide, by decide, by decide, by decide,
   c1_random_positional (fun n => n * 7) 10 4 4 (by decide) (by decide)
     (by decide) (by decide)⟩

/-- Counterexample to C1 as stated: with `block_size = 6` (positive but
not a multiple of 4), `start_from = 12` (a multiple of 4, ≤ `total_size
= 18`) and the keystream `fun n => n`, the restarted stream yields
keystream bytes 12..17 while bytes 12..17 of the stream from 0 are
keystream bytes 16..21: the generator consumes two whole words
(8 bytes) per 6-byte block. -/
theorem c1_counterexample :
    ¬ ((streamYields (Stage.random (fun n => n)) 18 6 12).flatten
        = ((streamYields (Stage.random (fun n => n)) 18 6 0).flatten).drop 12) := by
  decide

/-! ### Step equations for the engine routines -/

theorem tryWrite_at_bad {σ : Type} (sm : StorageModel σ) (t : WipeTask)
    (s : σ) (ws : WipeState) (chunk : List Byte)
    (hbad : isAtBadBlock t ws = true) :
    tryWrite sm t s ws chunk = ⟨s, ws, [], [], Except.ok false⟩ := by
  simp [tryWrite, hbad]

theorem tryWrite_ok {σ : Type} (sm : StorageModel σ) (t : WipeTask)
    (s s' : σ) (ws : WipeState) (chunk : List Byte) (u : Unit)
    (hbad : isAtBadBlock t ws = false)
    (hw : sm.write s chunk = (s', SRes.ok u)) :
    tryWrite sm t s ws chunk
      = ⟨s', ws, [], [SOp.writeOp chunk.length], Except.ok true⟩ := by
  simp [tryWrite, hbad, hw]

theorem tryWrite_err_io {σ : Type} (sm : StorageModel σ) (t : WipeTask)
    (s s' : σ) (ws : WipeState) (chunk : List Byte) (e : AnyError) (k : Nat)
    (hbad : isAtBadBlock t ws = false)
    (hw : sm.write s chunk = (s', SRes.err e))
    (hk : underlying_io_error_kind e = some k) :
    tryWrite sm t s ws chunk
      = ⟨s', { ws with
            bad_blocks := markBlock ws.bad_blocks (currentBlockNumber t ws) },
         [(ws.at_verification, WipeEvent.markBlockAsBad ws.position)],
         [SOp.writeOp chunk.length], Except.ok false⟩ := by
  simp [tryWrite, hbad, hw, hk]

theorem tryWrite_err_other {σ : Type} (sm : StorageModel σ) (t : WipeTask)
    (s s' : σ) (ws : WipeState) (chunk : List Byte) (e : AnyError)
    (hbad : isAtBadBlock t ws = false)
    (hw : sm.write s chunk = (s', SRes.err e))
    (hk : underlying_io_error_kind e = none) :
    tryWrite sm t s ws chunk
      = ⟨s', ws, [], [SOp.writeOp chunk.length], Except.error e⟩ := by
  simp [tryWrite, hbad, hw, hk]

theorem trySeek_at_bad {σ : Type} (sm : StorageModel σ) (t : WipeTask)
    (s : σ) (ws : WipeState) (hbad : isAtBadBlock t ws = true) :
    trySeek sm t s ws = ⟨s, ws, [], [], Except.ok false⟩ := by
  simp [trySeek, hbad]

theorem trySeek_ok {σ : Type} (sm : StorageModel σ) (t : WipeTask)
    (s s' : σ) (ws : WipeState) (p : Nat)
    (hbad : isAtBadBlock t ws = false)
    (hs : sm.seek s ws.position = (s', SRes.ok p)) :
    trySeek sm t s ws
      = ⟨s', ws, [], [SOp.seekOp ws.position], Except.ok true⟩ := by
  simp [trySeek, hbad, hs]

theorem trySeek_err_io {σ : Type} (sm : StorageModel σ) (t : WipeTask)
    (s s' : σ) (ws : WipeState) (e : AnyError) (k : Nat)
    (hbad : isAtBadBlock t ws = false)
    (hs : sm.seek s ws.position = (s', SRes.err e))
    (hk : underlying_io_error_kind e = some k) :
    trySeek sm t s ws
      = ⟨s', { ws with
            bad_blocks := markBlock ws.bad_blocks (currentBlockNumber t ws) },
         [(ws.at_verification, WipeEvent.markBlockAsBad ws.position)],
         [SOp.seekOp ws.position], Except.ok false⟩ := by
  simp [trySeek, hbad, hs, hk]

theorem trySeek_err_other {σ : Type} (sm : StorageModel σ) (t : WipeTask)
    (s s' : σ) (ws : WipeState) (e : AnyError)
    (hbad : isAtBadBlock t ws = false)
    (hs : sm.seek s ws.position = (s', SRes.err e))
    (hk : underlying_io_error_kind e = none) :
    trySeek sm t s ws
      = ⟨s', ws, [], [SOp.seekOp ws.position], Except.error e⟩ := by
  simp [trySeek, hbad, hs, hk]

theorem seekSafe_at_end {σ : Type} (sm : StorageModel σ) (t : WipeTask)
    (fuel : Nat) (s : σ) (ws : WipeState)
    (hend : t.total_size ≤ ws.position) :
    seekToTheNextSafePosition sm t (fuel + 1) s ws
      = ⟨s, ws, [], [], Except.ok ()⟩ := by
  simp [seekToTheNextSafePosition, hend]

theorem seekSafe_ok {σ : Type} (sm : StorageModel σ) (t : WipeTask)
    (fuel : Nat) (s s' : σ) (ws : WipeState) (p : Nat)
    (hend : ¬ t.total_size ≤ ws.position)
    (hbad : isAtBadBlock t ws = false)
    (hs : sm.seek s ws.position = (s', SRes.ok p)) :
    seekToTheNextSafePosition sm t (fuel + 1) s ws
      = ⟨s', ws, [], [SOp.seekOp ws.position], Except.ok ()⟩ := by
  simp [seekToTheNextSafePosition, hend, hbad,
    trySeek_ok sm t s s' ws p hbad hs]

theorem fillLoop_none {σ : Type} (sm : StorageModel σ) (t : WipeTask)
    (fuel : Nat) (s : σ) (ws : WipeState) (stream st2 : SanitizationStream)
    (sk : Bool) (hnext : stream.next = (none, st2)) :
    fillLoop sm t (fuel + 1) s ws stream sk = ⟨s, ws, [], [], Except.ok ()⟩ := by
  simp [fillLoop, hnext]

theorem fillLoop_write_ok {σ : Type} (sm : StorageModel σ) (t : WipeTask)
    (fuel : Nat) (s s' : σ) (ws ws' : WipeState)
    (stream stream' : SanitizationStream) (chunk : List Byte)
    (evw : List (Bool × WipeEvent)) (opw : List SOp)
    (hnext : stream.next = (some chunk, stream'))
    (hwr : tryWrite sm t s ws chunk = ⟨s', ws', evw, opw, Except.ok true⟩) :
    fillLoop sm t (fuel + 1) s ws stream false
      = (let aw := advanceRun t ws' chunk.length
         let o2 := fillLoop sm t fuel s' aw.1 stream' false
         ⟨o2.s, o2.ws, evw ++ aw.2 ++ o2.evs, opw ++ o2.ops, o2.res⟩) := by
  simp [fillLoop, hnext, hwr]

theorem fillLoop_write_skip {σ : Type} (sm : StorageModel σ) (t : WipeTask)
    (fuel : Nat) (s s' : σ) (ws ws' : WipeState)
    (stream stream' : SanitizationStream) (chunk : List Byte)
    (evw : List (Bool × WipeEvent)) (opw : List SOp)
    (hnext : stream.next = (some chunk, stream'))
    (hwr : tryWrite sm t s ws chunk = ⟨s', ws', evw, opw, Except.ok false⟩) :
    fillLoop sm t (fuel + 1) s ws stream false
      = (let aw := advanceRun t ws' chunk.length
         let o := trySeek sm t s' aw.1
         match o.res with
         | Except.error e =>
             ⟨o.s, o.ws, evw ++ aw.2 ++ o.evs, opw ++ o.ops, Except.error e⟩
         | Except.ok b =>
           let o2 := fillLoop sm t fuel o.s o.ws stream' (!b)
           ⟨o2.s, o2.ws, evw ++ aw.2 ++ o.evs ++ o2.evs,
            opw ++ o.ops ++ o2.ops, o2.res⟩) := by
  simp [fillLoop, hnext, hwr]

theorem fillLoop_write_err {σ : Type} (sm : StorageModel σ) (t : WipeTask)
    (fuel : Nat) (s s' : σ) (ws ws' : WipeState)
    (stream stream' : SanitizationStream) (chunk : List Byte)
    (evw : List (Bool × WipeEvent)) (opw : List SOp) (e : AnyError)
    (hnext : stream.next = (some chunk, stream'))
    (hwr : tryWrite sm t s ws chunk = ⟨s', ws', evw, opw, Except.error e⟩) :
    fillLoop sm t (fuel + 1) s ws stream false
      = ⟨s', ws', evw, opw, Except.error e⟩ := by
  simp [fillLoop, hnext, hwr]

theorem verifyLoop_none {σ : Type} (sm : StorageModel σ) (t : WipeTask)
    (fuel : Nat) (s : σ) (ws : WipeState) (stream st2 : SanitizationStream)
    (vbuf : List Byte) (hnext : stream.next = (none, st2)) :
    verifyLoop sm t (fuel + 1) s ws stream vbuf
      = ⟨s, ws, [], [], Except.ok ()⟩ := by
  simp [verifyLoop, hnext]

theorem verifyLoop_bad {σ : Type} (sm : StorageModel σ) (t : WipeTask)
    (fuel : Nat) (s : σ) (ws : WipeState)
    (stream stream' : SanitizationStream) (chunk : List Byte)
    (vbuf : List Byte)
    (hnext : stream.next = (some chunk, stream'))
    (hbad : isAtBadBlock t ws = true) :
    verifyLoop sm t (fuel + 1) s ws stream vbuf
      = (let aw := advanceRun t ws chunk.length
         let o := trySeek sm t s aw.1
         match o.res with
         | Except.error e => ⟨o.s, o.ws, aw.2 ++ o.evs, o.ops, Except.error e⟩
         | Except.ok _ =>
           let o2 := verifyLoop sm t fuel o.s o.ws stream' vbuf
           ⟨o2.s, o2.ws, aw.2 ++ o.evs ++ o2.evs, o.ops ++ o2.ops, o2.res⟩) := by
  simp [verifyLoop, hnext, hbad]

theorem verifyLoop_read_err {σ : Type} (sm : StorageModel σ) (t : WipeTask)
    (fuel : Nat) (s s' : σ) (ws : WipeState)
    (stream stream' : SanitizationStream) (chunk : List Byte)
    (vbuf : List Byte) (e : AnyError)
    (hnext : stream.next = (some chunk, stream'))
    (hbad : isAtBadBlock t ws = false)
    (hr : sm.read s (vbuf.take chunk.length) = (s', SRes.err e)) :
    verifyLoop sm t (fuel + 1) s ws stream vbuf
      = ⟨s', ws, [], [SOp.readOp chunk.length], Except.error e⟩ := by
  simp [verifyLoop, hnext, hbad, hr]

theorem verifyLoop_mismatch {σ : Type} (sm : StorageModel σ) (t : WipeTask)
    (fuel : Nat) (s s' : σ) (ws : WipeState)
    (stream stream' : SanitizationStream) (chunk : List Byte)
    (vbuf bytes : List Byte) (cnt : Nat)
    (hnext : stream.next = (some chunk, stream'))
    (hbad : isAtBadBlock t ws = false)
    (hr : sm.read s (vbuf.take chunk.length) = (s', SRes.ok (bytes, cnt)))
    (hne : bytes ≠ chunk) :
    verifyLoop sm t (fuel + 1) s ws stream vbuf
      = ⟨s', ws, [], [SOp.readOp chunk.length],
         Except.error verificationFailedError⟩ := by
  simp [verifyLoop, hnext, hbad, hr, hne]

theorem verifyLoop_match {σ : Type} (sm : StorageModel σ) (t : WipeTask)
    (fuel : Nat) (s s' : σ) (ws : WipeState)
    (stream stream' : SanitizationStream) (chunk : List Byte)
    (vbuf : List Byte) (cnt : Nat)
    (hnext : stream.next = (some chunk, stream'))
    (hbad : isAtBadBlock t ws = false)
    (hr : sm.read s (vbuf.take chunk.length) = (s', SRes.ok (chunk, cnt))) :
    verifyLoop sm t (fuel + 1) s ws stream vbuf
      = (let aw := advanceRun t ws chunk.length
         let o2 := verifyLoop sm t fuel s' aw.1 stream'
           (chunk ++ vbuf.drop chunk.length)
         ⟨o2.s, o2.ws, aw.2 ++ o2.evs, SOp.readOp chunk.length :: o2.ops,
          o2.res⟩) := by
  simp [verifyLoop, hnext, hbad, hr]

/-! ### C7: task construction -/

/-- C7: `WipeTask::new` fails iff `total_size / block_size > 2^32`
(integer division); on success the task holds exactly the given scheme,
verify mode, `total_size` and `block_size`.  The constructor is a pure
function of these four arguments — no storage is involved in its
type. -/
theorem c7_wipe_task_new_validation (scheme : Scheme) (v : Verify)
    (total_size block_size : Nat) (hbs : 0 < block_size) :
    ((WipeTask.new scheme v total_size block_size).isOk
        ↔ total_size / block_size ≤ 2 ^ 32)
  ∧ (∀ t, WipeTask.new scheme v total_size block_size = Except.ok t →
      t.scheme = scheme ∧ t.verify = v ∧ t.total_size = total_size
        ∧ t.block_size = block_size) := by
  constructor
  · constructor
    · intro hok
      by_contra hgt
      push_neg at hgt
      unfold WipeTask.new at hok
      rw [if_pos hgt] at hok
      simp [Except.isOk, Except.toBool] at hok
    · intro hle
      unfold WipeTask.new
      rw [if_neg (fun hgt => absurd hle (Nat.not_le.2 hgt))]
      rfl
  · intro t ht
    unfold WipeTask.new at ht
    by_cases hc : total_size / block_size > 2 ^ 32
    · rw [if_pos hc] at ht
      exact absurd ht (by simp)
    · rw [if_neg hc] at ht
      injection ht with h
      subst h
      exact ⟨rfl, rfl, rfl, rfl⟩

/-- Witness for C7: the `1 << 35` total with blocks of 8 from the
source's own test is accepted. -/
theorem c7_wipe_task_new_validation_witness :
    0 < 8 ∧
    (((WipeTask.new ⟨"zero fill", [Stage.fill 0]⟩ Verify.no (2 ^ 35) 8).isOk
        ↔ 2 ^ 35 / 8 ≤ 2 ^ 32)
  ∧ (∀ t, WipeTask.new ⟨"zero fill", [Stage.fill 0]⟩ Verify.no (2 ^ 35) 8
        = Except.ok t →
      t.scheme = ⟨"zero fill", [Stage.fill 0]⟩ ∧ t.verify = Verify.no
        ∧ t.total_size = 2 ^ 35 ∧ t.block_size = 8)) :=
  ⟨by decide,
   c7_wipe_task_new_validation ⟨"zero fill", [Stage.fill 0]⟩ Verify.no
     (2 ^ 35) 8 (by decide)⟩

/-! ### C9: bad-block classification of failing writes and seeks -/

/-- C9: a failing write or seek makes the engine mark the current block
(`position / block_size`) and continue (`Ok(false)`) exactly when the
failure's cause chain contains a `std::io::Error` — of any kind, `k` is
universally quantified and never inspected; a failure whose chain
contains no `std::io::Error` is returned as the attempt's error. -/
theorem c9_io_error_classification {σ : Type} (sm : StorageModel σ)
    (t : WipeTask) (s s' s2 : σ) (ws : WipeState) (chunk : List Byte)
    (e e2 : AnyError)
    (hbad : isAtBadBlock t ws = false)
    (hw : sm.write s chunk = (s', SRes.err e))
    (hsk : sm.seek s ws.position = (s2, SRes.err e2)) :
    (((tryWrite sm t s ws chunk).res = Except.ok false
        ∧ (tryWrite sm t s ws chunk).ws.bad_blocks
            = markBlock ws.bad_blocks (currentBlockNumber t ws))
      ↔ (underlying_io_error_kind e).isSome = true)
  ∧ ((tryWrite sm t s ws chunk).res = Except.error e
      ↔ underlying_io_error_kind e = none)
  ∧ (((trySeek sm t s ws).res = Except.ok false
        ∧ (trySeek sm t s ws).ws.bad_blocks
            = markBlock ws.bad_blocks (currentBlockNumber t ws))
      ↔ (underlying_io_error_kind e2).isSome = true)
  ∧ ((trySeek sm t s ws).res = Except.error e2
      ↔ underlying_io_error_kind e2 = none) := by
  rcases hke : e.ioKind with _ | k
  · rcases hke2 : e2.ioKind with _ | k2
    · rw [tryWrite_err_other sm t s s' ws chunk e hbad hw hke,
        trySeek_err_other sm t s s2 ws e2 hbad hsk hke2]
      simp [underlying_io_error_kind, hke, hke2]
    · rw [tryWrite_err_other sm t s s' ws chunk e hbad hw hke,
        trySeek_err_io sm t s s2 ws e2 k2 hbad hsk hke2]
      simp [underlying_io_error_kind, hke, hke2]
  · rcases hke2 : e2.ioKind with _ | k2
    · rw [tryWrite_err_io sm t s s' ws chunk e k hbad hw hke,
        trySeek_err_other sm t s s2 ws e2 hbad hsk hke2]
      simp [underlying_io_error_kind, hke, hke2]
    · rw [tryWrite_err_io sm t s s' ws chunk e k hbad hw hke,
        trySeek_err_io sm t s s2 ws e2 k2 hbad hsk hke2]
      simp [underlying_io_error_kind, hke, hke2]

/-- Witness for C9: storage failing with an io error of kind 7 (not a
sector-failure kind) still leads to mark-and-continue. -/
theorem c9_io_error_classification_witness :
    isAtBadBlock smallTask WipeState.default = false ∧
    ((((tryWrite ioFailSM smallTask () WipeState.default [0, 0]).res
          = Except.ok false
        ∧ (tryWrite ioFailSM smallTask () WipeState.default [0, 0]).ws.bad_blocks
            = markBlock WipeState.default.bad_blocks
                (currentBlockNumber smallTask WipeState.default))
      ↔ (underlying_io_error_kind ⟨some 7, "simulated iofail"⟩).isSome = true)
  ∧ ((tryWrite ioFailSM smallTask () WipeState.default [0, 0]).res
        = Except.error ⟨some 7, "simulated iofail"⟩
      ↔ underlying_io_error_kind ⟨some 7, "simulated iofail"⟩ = none)
  ∧ (((trySeek ioFailSM smallTask () WipeState.default).res = Except.ok false
        ∧ (trySeek ioFailSM smallTask () WipeState.default).ws.bad_blocks
            = markBlock WipeState.default.bad_blocks
                (currentBlockNumber smallTask WipeState.default))
      ↔ (underlying_io_error_kind ⟨some 7, "simulated iofail"⟩).isSome = true)
  ∧ ((trySeek ioFailSM smallTask () WipeState.default).res
        = Except.error ⟨some 7, "simulated iofail"⟩
      ↔ underlying_io_error_kind ⟨some 7, "simulated iofail"⟩ = none)) :=
  ⟨by decide,
   c9_io_error_classification ioFailSM smallTask () () () WipeState.default
     [0, 0] ⟨some 7, "simulated iofail"⟩ ⟨some 7, "simulated iofail"⟩
     (by decide) rfl rfl⟩

/-! ### C3: bad-block handling in the Fill phase -/

/-- C3: in the Fill loop, a write failing with an io-classified
(bad-block) error makes the engine mark block `position / block_size`,
emit `MarkBlockAsBad(position)` (the byte offset), advance the position
by the chunk length emitting `Progress`, attempt a seek to the new
position — `skip_next` for the next iteration is the negation of that
seek's success, so the next chunk is consumed and discarded if the seek
also fails as a bad block — and continue the stream.  `try_write` and
`try_seek` never return an io-classified error, so a bad-block failure
never escapes as the attempt's error, while a write failure with no
`std::io::Error` in its chain (classified `Other`) terminates the
attempt with exactly that error. -/
theorem c3_fill_bad_block_recovery {σ : Type} (sm : StorageModel σ)
    (t : WipeTask) (fuel : Nat) (s s' : σ) (ws : WipeState)
    (stream stream' : SanitizationStream) (chunk : List Byte) (e : AnyError)
    (hnext : stream.next = (some chunk, stream'))
    (hbad : isAtBadBlock t ws = false)
    (hw : sm.write s chunk = (s', SRes.err e)) :
    (∀ k, underlying_io_error_kind e = some k →
      fillLoop sm t (fuel + 1) s ws stream false
        = (let ws1 := { ws with
             bad_blocks := markBlock ws.bad_blocks (currentBlockNumber t ws) }
           let evw := [(ws.at_verification, WipeEvent.markBlockAsBad ws.position)]
           let aw := advanceRun t ws1 chunk.length
           let o := trySeek sm t s' aw.1
           match o.res with
           | Except.error e2 =>
               ⟨o.s, o.ws, evw ++ aw.2 ++ o.evs,
                SOp.writeOp chunk.length :: o.ops, Except.error e2⟩
           | Except.ok b =>
             let o2 := fillLoop sm t fuel o.s o.ws stream' (!b)
             ⟨o2.s, o2.ws, evw ++ aw.2 ++ o.evs ++ o2.evs,
              SOp.writeOp chunk.length :: (o.ops ++ o2.ops), o2.res⟩))
  ∧ (underlying_io_error_kind e = none →
      fillLoop sm t (fuel + 1) s ws stream false
        = ⟨s', ws, [], [SOp.writeOp chunk.length], Except.error e⟩)
  ∧ (∀ s0 ws0 chunk0 e2, (tryWrite sm t s0 ws0 chunk0).res = Except.error e2 →
      underlying_io_error_kind e2 = none)
  ∧ (∀ s0 ws0 e2, (trySeek sm t s0 ws0).res = Except.error e2 →
      underlying_io_error_kind e2 = none) := by
  refine ⟨?_, ?_, ?_, ?_⟩
  · intro k hk
    rw [fillLoop_write_skip sm t fuel s s' ws _ stream stream' chunk _ _ hnext
      (tryWrite_err_io sm t s s' ws chunk e k hbad hw hk)]
    rfl
  · intro hk
    rw [fillLoop_write_err sm t fuel s s' ws ws stream stream' chunk [] _ e
      hnext (tryWrite_err_other sm t s s' ws chunk e hbad hw hk)]
  · intro s0 ws0 chunk0 e2 hres
    by_cases hb : isAtBadBlock t ws0
    · rw [tryWrite_at_bad sm t s0 ws0 chunk0 hb] at hres
      exact absurd hres (by simp)
    · rcases hwr : sm.write s0 chunk0 with ⟨s1, r⟩
      cases r with
      | ok u =>
        rw [tryWrite_ok sm t s0 s1 ws0 chunk0 u (by simpa using hb) hwr] at hres
        exact absurd hres (by simp)
      | err e3 =>
        rcases hke : underlying_io_error_kind e3 with _ | k3
        · rw [tryWrite_err_other sm t s0 s1 ws0 chunk0 e3
            (by simpa using hb) hwr hke] at hres
          simp at hres
          rw [← hres]
          exact hke
        · rw [tryWrite_err_io sm t s0 s1 ws0 chunk0 e3 k3
            (by simpa using hb) hwr hke] at hres
          exact absurd hres (by simp)
  · intro s0 ws0 e2 hres
    by_cases hb : isAtBadBlock t ws0
    · rw [trySeek_at_bad sm t s0 ws0 hb] at hres
      exact absurd hres (by simp)
    · rcases hwr : sm.seek s0 ws0.position with ⟨s1, r⟩
      cases r with
      | ok p =>
        rw [trySeek_ok sm t s0 s1 ws0 p (by simpa using hb) hwr] at hres
        exact absurd hres (by simp)
      | err e3 =>
        rcases hke : underlying_io_error_kind e3 with _ | k3
        · rw [trySeek_err_other sm t s0 s1 ws0 e3
            (by simpa using hb) hwr hke] at hres
          simp at hres
          rw [← hres]
          exact hke
        · rw [trySeek_err_io sm t s0 s1 ws0 e3 k3
            (by simpa using hb) hwr hke] at hres
          exact absurd hres (by simp)

/-- Witness for C3: with storage whose writes and seeks fail with an io
error, the fill loop marks blocks, emits `MarkBlockAsBad`/`Progress`
pairs and completes without an error, while the same run against storage
failing with a non-io error terminates with exactly that error. -/
theorem c3_fill_bad_block_recovery_witness :
    (fillLoop ioFailSM smallTask (2 + 1) () WipeState.default
        ((Stage.fill 0).stream 4 2 0) false).evs
      = [(false, WipeEvent.markBlockAsBad 0), (false, WipeEvent.progress 2),
         (false, WipeEvent.markBlockAsBad 2), (false, WipeEvent.progress 4),
         (false, WipeEvent.markBlockAsBad 4)]
  ∧ (fillLoop ioFailSM smallTask (2 + 1) () WipeState.default
        ((Stage.fill 0).stream 4 2 0) false).res = Except.ok ()
  ∧ (fillLoop otherFailSM smallTask (2 + 1) () WipeState.default
        ((Stage.fill 0).stream 4 2 0) false).res
      = Except.error ⟨none, "simulated failure"⟩ := by
  have h1 := (c3_fill_bad_block_recovery ioFailSM smallTask 2 () ()
    WipeState.default ((Stage.fill 0).stream 4 2 0)
    ⟨StreamKind.fill, ⟨4, 2, 2, [0, 0], 2, false⟩⟩ [0, 0]
    ⟨some 7, "simulated iofail"⟩ rfl (by decide) rfl).1 7 rfl
  have h2 := (c3_fill_bad_block_recovery otherFailSM smallTask 2 () ()
    WipeState.default ((Stage.fill 0).stream 4 2 0)
    ⟨StreamKind.fill, ⟨4, 2, 2, [0, 0], 2, false⟩⟩ [0, 0]
    ⟨none, "simulated failure"⟩ rfl (by decide) rfl).2.1 rfl
  refine ⟨?_, ?_, ?_⟩
  · rw [h1]; decide
  · rw [h1]; decide
  · rw [h2]

/-! ### C4: the Verify phase, chunk by chunk -/

/-- C4: in the Verify loop, a chunk whose block is marked bad makes the
engine advance the position (emitting `Progress`) and attempt a seek,
without issuing any read — the step's own storage operations come from
`try_seek`, which only ever issues seeks; a failing read aborts the
attempt with exactly that error, leaving the state (and so the bad-block
marker) unchanged; bytes differing from the expected chunk abort the
attempt with the distinct "Verification failed!" error, whose cause
chain holds no `std::io::Error`, so it is not a bad-block error. -/
theorem c4_verify_chunk_handling {σ : Type} (sm : StorageModel σ)
    (t : WipeTask) (fuel : Nat) (s s' : σ) (ws : WipeState)
    (stream stream' : SanitizationStream) (chunk vbuf bytes : List Byte)
    (cnt : Nat) (e : AnyError)
    (hnext : stream.next = (some chunk, stream')) :
    (isAtBadBlock t ws = true →
      verifyLoop sm t (fuel + 1) s ws stream vbuf
        = (let aw := advanceRun t ws chunk.length
           let o := trySeek sm t s aw.1
           match o.res with
           | Except.error e2 =>
               ⟨o.s, o.ws, aw.2 ++ o.evs, o.ops, Except.error e2⟩
           | Except.ok _ =>
             let o2 := verifyLoop sm t fuel o.s o.ws stream' vbuf
             ⟨o2.s, o2.ws, aw.2 ++ o.evs ++ o2.evs, o.ops ++ o2.ops,
              o2.res⟩))
  ∧ (∀ s0 ws0, ∀ op ∈ (trySeek sm t s0 ws0).ops, ∃ p, op = SOp.seekOp p)
  ∧ (isAtBadBlock t ws = false →
      sm.read s (vbuf.take chunk.length) = (s', SRes.err e) →
      verifyLoop sm t (fuel + 1) s ws stream vbuf
        = ⟨s', ws, [], [SOp.readOp chunk.length], Except.error e⟩)
  ∧ (isAtBadBlock t ws = false →
      sm.read s (vbuf.take chunk.length) = (s', SRes.ok (bytes, cnt)) →
      bytes ≠ chunk →
      verifyLoop sm t (fuel + 1) s ws stream vbuf
          = ⟨s', ws, [], [SOp.readOp chunk.length],
             Except.error verificationFailedError⟩
        ∧ underlying_io_error_kind verificationFailedError = none) := by
  refine ⟨?_, ?_, ?_, ?_⟩
  · intro hbad
    exact verifyLoop_bad sm t fuel s ws stream stream' chunk vbuf hnext hbad
  · intro s0 ws0 op hop
    by_cases hb : isAtBadBlock t ws0
    · rw [trySeek_at_bad sm t s0 ws0 hb] at hop
      simp at hop
    · rcases hwr : sm.seek s0 ws0.position with ⟨s1, r⟩
      cases r with
      | ok p =>
        rw [trySeek_ok sm t s0 s1 ws0 p (by simpa using hb) hwr] at hop
        simp at hop
        exact ⟨ws0.position, hop⟩
      | err e3 =>
        rcases hke : underlying_io_error_kind e3 with _ | k3
        · rw [trySeek_err_other sm t s0 s1 ws0 e3
            (by simpa using hb) hwr hke] at hop
          simp at hop
          exact ⟨ws0.position, hop⟩
        · rw [trySeek_err_io sm t s0 s1 ws0 e3 k3
            (by simpa using hb) hwr hke] at hop
          simp at hop
          exact ⟨ws0.position, hop⟩
  · intro hbad hr
    exact verifyLoop_read_err sm t fuel s s' ws stream stream' chunk vbuf e
      hnext hbad hr
  · intro hbad hr hne
    exact ⟨verifyLoop_mismatch sm t fuel s s' ws stream stream' chunk vbuf
      bytes cnt hnext hbad hr hne, rfl⟩

/-- Witness for C4: a marked-bad chunk is skipped with a seek and no
read; a failing read aborts with that error and an unchanged state; a
mismatching read aborts with the "Verification failed!" error. -/
theorem c4_verify_chunk_handling_witness :
    ((verifyLoop idleSM smallTask (1 + 1) () wsBad0
        ((Stage.fill 0).stream 4 2 0) [9, 9]).evs.take 1
        = [(false, WipeEvent.progress 2)]
      ∧ (verifyLoop idleSM smallTask (1 + 1) () wsBad0
          ((Stage.fill 0).stream 4 2 0) [9, 9]).ops.take 1
        = [SOp.seekOp 2])
  ∧ verifyLoop readFailSM smallTask (0 + 1) () WipeState.default
        ((Stage.fill 0).stream 4 2 0) [0, 0]
      = ⟨(), WipeState.default, [], [SOp.readOp 2],
         Except.error ⟨some 3, "simulated read failure"⟩⟩
  ∧ verifyLoop mismatchSM smallTask (0 + 1) () WipeState.default
        ((Stage.fill 0).stream 4 2 0) [0, 0]
      = ⟨(), WipeState.default, [], [SOp.readOp 2],
         Except.error verificationFailedError⟩ := by
  have h1 := (c4_verify_chunk_handling idleSM smallTask 1 () () wsBad0
    ((Stage.fill 0).stream 4 2 0)
    ⟨StreamKind.fill, ⟨4, 2, 2, [0, 0], 2, false⟩⟩ [0, 0] [9, 9] [] 0
    ⟨none, ""⟩ rfl).1 (by decide)
  have h2 := (c4_verify_chunk_handling readFailSM smallTask 0 () ()
    WipeState.default ((Stage.fill 0).stream 4 2 0)
    ⟨StreamKind.fill, ⟨4, 2, 2, [0, 0], 2, false⟩⟩ [0, 0] [0, 0] [] 0
    ⟨some 3, "simulated read failure"⟩ rfl).2.2.1 (by decide) rfl
  have h3 := ((c4_verify_chunk_handling mismatchSM smallTask 0 () ()
    WipeState.default ((Stage.fill 0).stream 4 2 0)
    ⟨StreamKind.fill, ⟨4, 2, 2, [0, 0], 2, false⟩⟩ [0, 0] [0, 0] [9, 9] 2
    ⟨none, ""⟩ rfl).2.2.2 (by decide) rfl (by decide)).1
  refine ⟨⟨?_, ?_⟩, h2, h3⟩
  · rw [h1]; decide
  · rw [h1]; decide

/-! ### C10: the Verify phase discards the read byte count -/

/-- C10: the engine discards the count returned by `access.read`.  Two
storages whose reads agree on the state transition and the bytes placed
in the buffer but report arbitrary different counts produce identical
verify outcomes.  Concretely (second conjunct), a successful short read
that fills nothing is never detected: the comparison uses the first
`chunk.len()` bytes of the reused buffer, which still hold the previous
iteration's bytes, and verification succeeds on those stale bytes. -/
theorem c10_verify_ignores_read_count {σ : Type} (sm : StorageModel σ)
    (t : WipeTask)
    (f g : σ → List Byte → σ × SRes (List Byte × Nat))
    (hagree : ∀ s b, (f s b).1 = (g s b).1
      ∧ sresBytes (f s b).2 = sresBytes (g s b).2) :
    (∀ fuel s ws stream vbuf,
      verifyLoop { sm with read := f } t fuel s ws stream vbuf
        = verifyLoop { sm with read := g } t fuel s ws stream vbuf)
  ∧ ((verifyLoop staleReadSM staleTask 3 0 WipeState.default
        ((Stage.fill 5).stream 4 2 0) (List.replicate 2 0)).res
          = Except.ok ()
      ∧ (verifyLoop staleReadSM staleTask 3 0 WipeState.default
          ((Stage.fill 5).stream 4 2 0) (List.replicate 2 0)).ops
          = [SOp.readOp 2, SOp.readOp 2]) := by
  constructor
  · intro fuel
    induction fuel with
    | zero => intro s ws stream vbuf; rfl
    | succ fuel ih =>
      intro s ws stream vbuf
      rcases hn : stream.next with ⟨copt, st'⟩
      cases copt with
      | none =>
        rw [verifyLoop_none _ _ _ _ _ _ _ _ hn,
          verifyLoop_none _ _ _ _ _ _ _ _ hn]
      | some chunk =>
        by_cases hb : isAtBadBlock t ws
        · simp only [verifyLoop_bad { sm with read := f } t fuel s ws stream
              st' chunk vbuf hn hb,
            verifyLoop_bad { sm with read := g } t fuel s ws stream st'
              chunk vbuf hn hb]
          have hseek : trySeek { sm with read := g } t s
              (advanceRun t ws chunk.length).1
              = trySeek { sm with read := f } t s
                (advanceRun t ws chunk.length).1 := rfl
          rw [hseek]
          rcases hres : (trySeek { sm with read := f } t s
            (advanceRun t ws chunk.length).1).res with e | b
          · simp [hres]
          · simp [hres, ih]
        · have hb' : isAtBadBlock t ws = false := by simpa using hb
          have hf := hagree s (vbuf.take chunk.length)
          rcases hfs : f s (vbuf.take chunk.length) with ⟨s1, r1⟩
          rcases hgs : g s (vbuf.take chunk.length) with ⟨s2, r2⟩
          rw [hfs, hgs] at hf
          have hs12 : s1 = s2 := hf.1
          subst hs12
          cases r1 with
          | err e1 =>
            cases r2 with
            | err e2 =>
              have he : e1 = e2 := by
                have := hf.2
                simpa [sresBytes] using this
              subst he
              rw [verifyLoop_read_err { sm with read := f } t fuel s s1 ws
                  stream st' chunk vbuf e1 hn hb' hfs,
                verifyLoop_read_err { sm with read := g } t fuel s s1 ws
                  stream st' chunk vbuf e1 hn hb' hgs]
            | ok p2 =>
              have := hf.2
              simp [sresBytes] at this
          | ok p1 =>
            cases r2 with
            | err e2 =>
              have := hf.2
              simp [sresBytes] at this
            | ok p2 =>
              rcases p1 with ⟨bytes1, c1⟩
              rcases p2 with ⟨bytes2, c2⟩
              have hbytes : bytes1 = bytes2 := by
                have := hf.2
                simpa [sresBytes] using this
              subst hbytes
              by_cases hmatch : bytes1 = chunk
              · subst hmatch
                rw [verifyLoop_match { sm with read := f } t fuel s s1 ws
                    stream st' bytes1 vbuf c1 hn hb' hfs,
                  verifyLoop_match { sm with read := g } t fuel s s1 ws
                    stream st' bytes1 vbuf c2 hn hb' hgs]
                simp [ih]
              · rw [verifyLoop_mismatch { sm with read := f } t fuel s s1 ws
                    stream st' chunk vbuf bytes1 c1 hn hb' hfs hmatch,
                  verifyLoop_mismatch { sm with read := g } t fuel s s1 ws
                    stream st' chunk vbuf bytes1 c2 hn hb' hgs hmatch]
  · constructor
    · decide
    · decide

/-- Witness for C10 at a concrete model: the two reads differ only in
the reported count. -/
theorem c10_verify_ignores_read_count_witness :
    (∀ fuel s ws stream vbuf,
      verifyLoop { idleSM with read := fun s b => (s, SRes.ok (b, 0)) }
          staleTask fuel s ws stream vbuf
        = verifyLoop { idleSM with read := fun s b => (s, SRes.ok (b, b.length)) }
          staleTask fuel s ws stream vbuf)
  ∧ ((verifyLoop staleReadSM staleTask 3 0 WipeState.default
        ((Stage.fill 5).stream 4 2 0) (List.replicate 2 0)).res
          = Except.ok ()
      ∧ (verifyLoop staleReadSM staleTask 3 0 WipeState.default
          ((Stage.fill 5).stream 4 2 0) (List.replicate 2 0)).ops
          = [SOp.readOp 2, SOp.readOp 2]) :=
  c10_verify_ignores_read_count idleSM staleTask
    (fun s b => (s, SRes.ok (b, 0))) (fun s b => (s, SRes.ok (b, b.length)))
    (fun s b => ⟨rfl, rfl⟩)

/-! ### C8: runs over a zero-sized device -/

theorem fill_zero {σ : Type} (sm : StorageModel σ) (t : WipeTask)
    (fuel : Nat) (s : σ) (ws : WipeState) (stage : Stage)
    (ht : t.total_size = 0) :
    fill sm t (fuel + 1) s ws stage
      = ⟨s, ws, [(ws.at_verification, WipeEvent.progress ws.position)], [],
         Except.ok ()⟩ := by
  unfold fill
  rw [seekSafe_at_end sm t fuel s ws (by omega)]
  simp [ht]

theorem verify_zero {σ : Type} (sm : StorageModel σ) (t : WipeTask)
    (fuel : Nat) (s : σ) (ws : WipeState) (stage : Stage)
    (ht : t.total_size = 0) :
    verify sm t (fuel + 1) s ws stage
      = ⟨s, ws, [(ws.at_verification, WipeEvent.progress ws.position)], [],
         Except.ok ()⟩ := by
  unfold verify
  rw [seekSafe_at_end sm t fuel s ws (by omega)]
  simp [ht]

theorem attemptLoop_zero {σ : Type} (sm : StorageModel σ) (t : WipeTask)
    (fuel : Nat) (s : σ) (ws : WipeState) (stage : Stage) (htv : Bool)
    (ht : t.total_size = 0) :
    attemptLoop sm t (fuel + 1) s ws stage htv
      = ⟨s, if htv then { ws with at_verification := true } else ws,
         ([(ws.at_verification, WipeEvent.stageStarted),
           (ws.at_verification, WipeEvent.progress ws.position),
           (ws.at_verification, WipeEvent.stageCompleted none)]
           ++ if htv then
                [(true, WipeEvent.stageStarted),
                 (true, WipeEvent.progress ws.position),
                 (true, WipeEvent.stageCompleted none)]
              else []),
         [], Except.ok none⟩ := by
  unfold attemptLoop
  rw [fill_zero sm t fuel s ws stage ht]
  cases htv with
  | false => simp
  | true =>
    simp only [Bool.not_true, Bool.false_eq_true, if_false, reduceIte]
    rw [verify_zero sm t fuel s _ stage ht]
    simp

theorem runStages_zero {σ : Type} (sm : StorageModel σ) (t : WipeTask)
    (fuel : Nat) (ht : t.total_size = 0) :
    ∀ (stages : List Stage) (i : Nat) (s : σ) (ws : WipeState),
    ((runStages sm t (fuel + 1) stages i s ws).evs.map Prod.snd
        = zeroSizeTraceE t.verify t.scheme.stages.length i stages)
  ∧ (runStages sm t (fuel + 1) stages i s ws).res = Except.ok none
  ∧ (runStages sm t (fuel + 1) stages i s ws).s = s
  ∧ (runStages sm t (fuel + 1) stages i s ws).ops = [] := by
  intro stages
  induction stages with
  | nil =>
    intro i s ws
    simp [runStages, zeroSizeTraceE]
  | cons stg rest ih =>
    intro i s ws
    simp only [runStages]
    rw [attemptLoop_zero sm t fuel s
      { ws with stage := i, position := 0, at_verification := false } stg
      (haveToVerify t.verify i t.scheme.stages.length) ht]
    rcases ih (i + 1) s (if haveToVerify t.verify i t.scheme.stages.length
      then { ws with stage := i, position := 0, at_verification := true }
      else { ws with stage := i, position := 0, at_verification := false })
      with ⟨ihe, ihr, ihs, iho⟩
    by_cases hv : haveToVerify t.verify i t.scheme.stages.length
    · simp only [hv, if_true, reduceIte] at ihe ihr ihs iho ⊢
      refine ⟨?_, ?_, ?_, ?_⟩ <;>
        simp [zeroSizeTraceE, zeroSizePhaseE, hv, ihe, ihr, ihs, iho]
    · simp only [hv, Bool.false_eq_true, if_false, reduceIte] at ihe ihr ihs iho ⊢
      refine ⟨?_, ?_, ?_, ?_⟩ <;>
        simp [zeroSizeTraceE, zeroSizePhaseE, hv, ihe, ihr, ihs, iho]

/-- C8 (amended): for a task with `total_size = 0`, the run emits
`Started`, then for every stage one `StageStarted`, one `Progress(0)`
(the unconditional entry `Progress` of the phase) and one
`StageCompleted(None)` — the same triple again for the verification pass
of every verified stage — then a final `Completed(None)`; no storage
operation is issued and the run returns `true`.  (The original claim's
"no Progress event between them" fails: `fill` and `verify` publish
`Progress(position)` on entry before checking for the end of the device
— see the counterexample.) -/
theorem c8_zero_total_size {σ : Type} (sm : StorageModel σ)
    (scheme : Scheme) (v : Verify) (bs fuel : Nat) (s : σ)
    (ws : WipeState) :
    ((WipeTask.run ⟨scheme, v, 0, bs⟩ sm (fuel + 1) s ws).evs.map Prod.snd
        = WipeEvent.started
          :: (zeroSizeTraceE v scheme.stages.length 0 scheme.stages
              ++ [WipeEvent.completed none]))
  ∧ (WipeTask.run ⟨scheme, v, 0, bs⟩ sm (fuel + 1) s ws).res
      = Except.ok true
  ∧ (WipeTask.run ⟨scheme, v, 0, bs⟩ sm (fuel + 1) s ws).ops = [] := by
  rcases runStages_zero sm ⟨scheme, v, 0, bs⟩ fuel rfl scheme.stages 0 s ws
    with ⟨he, hr, hs, ho⟩
  unfold WipeTask.run
  simp only [hr]
  refine ⟨?_, ?_, ?_⟩ <;> simp [he, ho, Option.isNone]

/-- Counterexample to C8 as stated: with one `zero` stage, no
verification and `total_size = 0`, the run publishes a `Progress(0)`
event between `StageStarted` and `StageCompleted(None)`. -/
theorem c8_counterexample :
    (WipeTask.run ⟨⟨"zero fill", [Stage.fill 0]⟩, Verify.no, 0, 1⟩ idleSM 1
        () WipeState.default).evs
      = [(false, WipeEvent.started), (false, WipeEvent.stageStarted),
         (false, WipeEvent.progress 0),
         (false, WipeEvent.stageCompleted none),
         (false, WipeEvent.completed none)]
  ∧ (false, WipeEvent.progress 0)
      ∈ (WipeTask.run ⟨⟨"zero fill", [Stage.fill 0]⟩, Verify.no, 0, 1⟩
          idleSM 1 () WipeState.default).evs := by
  constructor
  · decide
  · decide

/-! ### C6 machinery: monotone progress and segment splitting -/

theorem IsMono.le {lo hi : Nat} : ∀ {l : List Nat}, IsMono lo l hi → lo ≤ hi := by
  intro l
  induction l generalizing lo with
  | nil => intro h; exact h
  | cons p ps ih =>
    intro h
    exact le_trans h.1 (ih h.2)

theorem IsMono.append {lo mid hi : Nat} :
    ∀ {l1 l2 : List Nat}, IsMono lo l1 mid → IsMono mid l2 hi →
    IsMono lo (l1 ++ l2) hi := by
  intro l1
  induction l1 generalizing lo with
  | nil =>
    intro l2 h1 h2
    cases l2 with
    | nil => exact le_trans h1 h2
    | cons q qs => exact ⟨le_trans h1 h2.1, h2.2⟩
  | cons p ps ih =>
    intro l2 h1 h2
    exact ⟨h1.1, ih h1.2 h2⟩

theorem IsMono.chain {lo hi : Nat} :
    ∀ {l : List Nat}, IsMono lo l hi → List.Chain' (· ≤ ·) l := by
  intro l
  induction l generalizing lo with
  | nil => intro _; exact List.chain'_nil
  | cons p ps ih =>
    intro h
    cases ps with
    | nil => simp
    | cons q qs =>
      exact List.Chain'.cons h.2.1 (ih h.2)

theorem IsMono.upper {lo hi : Nat} :
    ∀ {l : List Nat}, IsMono lo l hi → ∀ p ∈ l, p ≤ hi := by
  intro l
  induction l generalizing lo with
  | nil => intro _ p hp; simp at hp
  | cons q qs ih =>
    intro h p hp
    rcases List.mem_cons.1 hp with rfl | hp
    · exact h.2.le
    · exact ih h.2 p hp

theorem IsMono.widen {lo hi hi' : Nat} (hh : hi ≤ hi') :
    ∀ {l : List Nat}, IsMono lo l hi → IsMono lo l hi' := by
  intro l
  induction l generalizing lo with
  | nil => intro h; exact le_trans h hh
  | cons p ps ih => intro h; exact ⟨h.1, ih h.2⟩

theorem progresses_append (a b : List (Bool × WipeEvent)) :
    progresses (a ++ b) = progresses a ++ progresses b := by
  simp [progresses]

theorem noSS_append {a b : List (Bool × WipeEvent)} (ha : noSS a)
    (hb : noSS b) : noSS (a ++ b) := by
  intro e he
  rcases List.mem_append.1 he with h | h
  · exact ha e h
  · exact hb e h

theorem segsAux_cons_ss (cur : List Nat) (b : Bool)
    (rest : List (Bool × WipeEvent)) :
    segsAux cur ((b, WipeEvent.stageStarted) :: rest)
      = cur :: segsAux [] rest := rfl

theorem segsAux_cons_progress (cur : List Nat) (b : Bool) (p : Nat)
    (rest : List (Bool × WipeEvent)) :
    segsAux cur ((b, WipeEvent.progress p) :: rest)
      = segsAux (cur ++ [p]) rest := rfl

theorem segsAux_cons_other (cur : List Nat) (e : Bool × WipeEvent)
    (rest : List (Bool × WipeEvent)) (h1 : e.2 ≠ WipeEvent.stageStarted)
    (h2 : ∀ p, e.2 ≠ WipeEvent.progress p) :
    segsAux cur (e :: rest) = segsAux cur rest := by
  rcases e with ⟨b, ev⟩
  cases ev with
  | stageStarted => exact absurd rfl h1
  | progress p => exact absurd rfl (h2 p)
  | started => rfl
  | markBlockAsBad p => rfl
  | stageCompleted r => rfl
  | retrying => rfl
  | aborted => rfl
  | completed r => rfl
  | fatal e => rfl

theorem progresses_cons_progress (b : Bool) (p : Nat)
    (rest : List (Bool × WipeEvent)) :
    progresses ((b, WipeEvent.progress p) :: rest) = p :: progresses rest := rfl

theorem progresses_cons_other (e : Bool × WipeEvent)
    (rest : List (Bool × WipeEvent)) (h2 : ∀ p, e.2 ≠ WipeEvent.progress p) :
    progresses (e :: rest) = progresses rest := by
  rcases e with ⟨b, ev⟩
  cases ev with
  | progress p => exact absurd rfl (h2 p)
  | stageStarted => rfl
  | started => rfl
  | markBlockAsBad p => rfl
  | stageCompleted r => rfl
  | retrying => rfl
  | aborted => rfl
  | completed r => rfl
  | fatal e => rfl

theorem segsAux_append_noSS : ∀ (evs1 : List (Bool × WipeEvent))
    (cur : List Nat) (evs2 : List (Bool × WipeEvent)), noSS evs1 →
    segsAux cur (evs1 ++ evs2) = segsAux (cur ++ progresses evs1) evs2 := by
  intro evs1
  induction evs1 with
  | nil => intro cur evs2 _; simp [progresses]
  | cons e rest ih =>
    intro cur evs2 hss
    have he : e.2 ≠ WipeEvent.stageStarted := hss e (List.mem_cons_self e rest)
    have hrest : noSS rest := fun x hx => hss x (List.mem_cons_of_mem e hx)
    rcases e with ⟨b, ev⟩
    cases ev with
    | stageStarted => exact absurd rfl he
    | progress p =>
      rw [List.cons_append, segsAux_cons_progress, progresses_cons_progress,
        ih (cur ++ [p]) evs2 hrest]
      simp
    | started =>
      rw [List.cons_append,
        segsAux_cons_other _ _ _ he (fun p h => by cases h),
        progresses_cons_other _ _ (fun p h => by cases h),
        ih cur evs2 hrest]
    | markBlockAsBad q =>
      rw [List.cons_append,
        segsAux_cons_other _ _ _ he (fun p h => by cases h),
        progresses_cons_other _ _ (fun p h => by cases h),
        ih cur evs2 hrest]
    | stageCompleted r =>
      rw [List.cons_append,
        segsAux_cons_other _ _ _ he (fun p h => by cases h),
        progresses_cons_other _ _ (fun p h => by cases h),
        ih cur evs2 hrest]
    | retrying =>
      rw [List.cons_append,
        segsAux_cons_other _ _ _ he (fun p h => by cases h),
        progresses_cons_other _ _ (fun p h => by cases h),
        ih cur evs2 hrest]
    | aborted =>
      rw [List.cons_append,
        segsAux_cons_other _ _ _ he (fun p h => by cases h),
        progresses_cons_other _ _ (fun p h => by cases h),
        ih cur evs2 hrest]
    | completed r =>
      rw [List.cons_append,
        segsAux_cons_other _ _ _ he (fun p h => by cases h),
        progresses_cons_other _ _ (fun p h => by cases h),
        ih cur evs2 hrest]
    | fatal e2 =>
      rw [List.cons_append,
        segsAux_cons_other _ _ _ he (fun p h => by cases h),
        progresses_cons_other _ _ (fun p h => by cases h),
        ih cur evs2 hrest]

theorem trySeek_quiet {σ : Type} (sm : StorageModel σ) (t : WipeTask)
    (s : σ) (ws : WipeState) :
    progresses (trySeek sm t s ws).evs = []
  ∧ (trySeek sm t s ws).ws.position = ws.position
  ∧ noSS (trySeek sm t s ws).evs := by
  by_cases hb : isAtBadBlock t ws
  · rw [trySeek_at_bad sm t s ws hb]
    exact ⟨rfl, rfl, by intro e he; simp at he⟩
  · rcases hs : sm.seek s ws.position with ⟨s', r⟩
    cases r with
    | ok p =>
      rw [trySeek_ok sm t s s' ws p (by simpa using hb) hs]
      exact ⟨rfl, rfl, by intro e he; simp at he⟩
    | err e =>
      rcases hk : underlying_io_error_kind e with _ | k
      · rw [trySeek_err_other sm t s s' ws e (by simpa using hb) hs hk]
        exact ⟨rfl, rfl, by intro e2 he2; simp at he2⟩
      · rw [trySeek_err_io sm t s s' ws e k (by simpa using hb) hs hk]
        refine ⟨rfl, rfl, ?_⟩
        intro e2 he2
        simp at he2
        rw [he2]
        simp

theorem tryWrite_quiet {σ : Type} (sm : StorageModel σ) (t : WipeTask)
    (s : σ) (ws : WipeState) (chunk : List Byte) :
    progresses (tryWrite sm t s ws chunk).evs = []
  ∧ (tryWrite sm t s ws chunk).ws.position = ws.position
  ∧ noSS (tryWrite sm t s ws chunk).evs := by
  by_cases hb : isAtBadBlock t ws
  · rw [tryWrite_at_bad sm t s ws chunk hb]
    exact ⟨rfl, rfl, by intro e he; simp at he⟩
  · rcases hs : sm.write s chunk with ⟨s', r⟩
    cases r with
    | ok u =>
      rw [tryWrite_ok sm t s s' ws chunk u (by simpa using hb) hs]
      exact ⟨rfl, rfl, by intro e he; simp at he⟩
    | err e =>
      rcases hk : underlying_io_error_kind e with _ | k
      · rw [tryWrite_err_other sm t s s' ws chunk e (by simpa using hb) hs hk]
        exact ⟨rfl, rfl, by intro e2 he2; simp at he2⟩
      · rw [tryWrite_err_io sm t s s' ws chunk e k (by simpa using hb) hs hk]
        refine ⟨rfl, rfl, ?_⟩
        intro e2 he2
        simp at he2
        rw [he2]
        simp

theorem phase_seekSafe {σ : Type} (sm : StorageModel σ) (t : WipeTask) :
    ∀ (fuel : Nat) (s : σ) (ws : WipeState), ws.position ≤ t.total_size →
    PhaseOK t ws (seekToTheNextSafePosition sm t fuel s ws) := by
  intro fuel
  induction fuel with
  | zero =>
    intro s ws hpos
    exact ⟨le_rfl, hpos, by intro e he; simp [seekToTheNextSafePosition] at he⟩
  | succ fuel ih =>
    intro s ws hpos
    by_cases hend : t.total_size ≤ ws.position
    · rw [seekSafe_at_end sm t fuel s ws hend]
      exact ⟨le_rfl, hpos, by intro e he; simp at he⟩
    · by_cases hb : isAtBadBlock t ws
      · have hstep : seekToTheNextSafePosition sm t (fuel + 1) s ws
            = ⟨(seekToTheNextSafePosition sm t fuel s { ws with
                  position := min (ws.position + t.block_size) t.total_size }).s,
               (seekToTheNextSafePosition sm t fuel s { ws with
                  position := min (ws.position + t.block_size) t.total_size }).ws,
               (ws.at_verification, WipeEvent.progress
                   (min (ws.position + t.block_size) t.total_size))
                 :: (seekToTheNextSafePosition sm t fuel s { ws with
                      position := min (ws.position + t.block_size) t.total_size }).evs,
               (seekToTheNextSafePosition sm t fuel s { ws with
                  position := min (ws.position + t.block_size) t.total_size }).ops,
               (seekToTheNextSafePosition sm t fuel s { ws with
                  position := min (ws.position + t.block_size) t.total_size }).res⟩ := by
          simp [seekToTheNextSafePosition, hend, hb, advanceRun]
        rw [hstep]
        have hrec := ih s { ws with
          position := min (ws.position + t.block_size) t.total_size }
          (min_le_right _ _)
        refine ⟨?_, hrec.2.1, ?_⟩
        · show IsMono ws.position
            (progresses ((ws.at_verification, WipeEvent.progress
                (min (ws.position + t.block_size) t.total_size)) :: _)) _
          rw [progresses_cons_progress]
          exact ⟨le_min (Nat.le_add_right _ _) hpos, hrec.1⟩
        · intro e he
          rcases List.mem_cons.1 he with rfl | he2
          · simp
          · exact hrec.2.2 e he2
      · have hq := trySeek_quiet sm t s ws
        rcases hts : trySeek sm t s ws with ⟨s2, ws2, evs2, ops2, res2⟩
        rw [hts] at hq
        obtain ⟨hqp, hqpos, hqss⟩ := hq
        cases res2 with
        | error e =>
          have hstep : seekToTheNextSafePosition sm t (fuel + 1) s ws
              = ⟨s2, ws2, evs2, ops2, Except.error e⟩ := by
            simp [seekToTheNextSafePosition, hend, hb, hts]
          rw [hstep]
          refine ⟨?_, ?_, hqss⟩
          · show IsMono ws.position (progresses evs2) ws2.position
            rw [hqp, hqpos]
            exact le_rfl
          · show ws2.position ≤ t.total_size
            rw [hqpos]
            exact hpos
        | ok b =>
          cases b with
          | true =>
            have hstep : seekToTheNextSafePosition sm t (fuel + 1) s ws
                = ⟨s2, ws2, evs2, ops2, Except.ok ()⟩ := by
              simp [seekToTheNextSafePosition, hend, hb, hts]
            rw [hstep]
            refine ⟨?_, ?_, hqss⟩
            · show IsMono ws.position (progresses evs2) ws2.position
              rw [hqp, hqpos]
              exact le_rfl
            · show ws2.position ≤ t.total_size
              rw [hqpos]
              exact hpos
          | false =>
            have hstep : seekToTheNextSafePosition sm t (fuel + 1) s ws
                = ⟨(seekToTheNextSafePosition sm t fuel s2 { ws2 with
                      position := min (ws2.position + t.block_size) t.total_size }).s,
                   (seekToTheNextSafePosition sm t fuel s2 { ws2 with
                      position := min (ws2.position + t.block_size) t.total_size }).ws,
                   evs2 ++ (ws2.at_verification, WipeEvent.progress
                       (min (ws2.position + t.block_size) t.total_size))
                     :: (seekToTheNextSafePosition sm t fuel s2 { ws2 with
                          position := min (ws2.position + t.block_size) t.total_size }).evs,
                   ops2 ++ (seekToTheNextSafePosition sm t fuel s2 { ws2 with
                      position := min (ws2.position + t.block_size) t.total_size }).ops,
                   (seekToTheNextSafePosition sm t fuel s2 { ws2 with
                      position := min (ws2.position + t.block_size) t.total_size }).res⟩ := by
              simp [seekToTheNextSafePosition, hend, hb, hts, advanceRun]
            rw [hstep]
            have hrec := ih s2 { ws2 with
              position := min (ws2.position + t.block_size) t.total_size }
              (min_le_right _ _)
            refine ⟨?_, hrec.2.1, ?_⟩
            · rw [progresses_append, hqp, progresses_cons_progress,
                List.nil_append]
              refine ⟨?_, hrec.1⟩
              refine le_min ?_ ?_
              · rw [← hqpos]
                exact Nat.le_add_right _ _
              · exact hpos
            · refine noSS_append hqss ?_
              intro e he
              rcases List.mem_cons.1 he with rfl | he2
              · simp
              · exact hrec.2.2 e he2

theorem phase_fillLoop {σ : Type} (sm : StorageModel σ) (t : WipeTask) :
    ∀ (fuel : Nat) (s : σ) (ws : WipeState) (stream : SanitizationStream)
    (sk : Bool), ws.position ≤ t.total_size →
    PhaseOK t ws (fillLoop sm t fuel s ws stream sk) := by
  intro fuel
  induction fuel with
  | zero =>
    intro s ws stream sk hpos
    exact ⟨le_rfl, hpos, by intro e he; simp [fillLoop] at he⟩
  | succ fuel ih =>
    intro s ws stream sk hpos
    rcases hnx : stream.next with ⟨copt, st'⟩
    cases copt with
    | none =>
      rw [fillLoop_none sm t fuel s ws stream st' sk hnx]
      exact ⟨le_rfl, hpos, by intro e he; simp at he⟩
    | some chunk =>
      have hq2 := trySeek_quiet sm t s { ws with
        position := min (ws.position + chunk.length) t.total_size }
      cases sk with
      | true =>
        rcases hts : trySeek sm t s { ws with
          position := min (ws.position + chunk.length) t.total_size }
          with ⟨s2, ws2, evs2, ops2, res2⟩
        rw [hts] at hq2
        obtain ⟨hqp, hqpos, hqss⟩ := hq2
        have hqp2 : progresses evs2 = [] := hqp
        have hqpos2 : ws2.position
            = min (ws.position + chunk.length) t.total_size := hqpos
        have hmono0 : ws.position
            ≤ min (ws.position + chunk.length) t.total_size :=
          le_min (Nat.le_add_right _ _) hpos
        cases res2 with
        | error e =>
          have hstep : fillLoop sm t (fuel + 1) s ws stream true
              = ⟨s2, ws2,
                 (ws.at_verification, WipeEvent.progress
                     (min (ws.position + chunk.length) t.total_size)) :: evs2,
                 ops2, Except.error e⟩ := by
            simp [fillLoop, hnx, advanceRun, hts]
          rw [hstep]
          refine ⟨?_, ?_, ?_⟩
          · rw [progresses_cons_progress]
            refine ⟨hmono0, ?_⟩
            rw [hqp2]
            show IsMono _ [] ws2.position
            rw [hqpos2]
            exact le_rfl
          · show ws2.position ≤ t.total_size
            rw [hqpos2]
            exact min_le_right _ _
          · intro e2 he2
            rcases List.mem_cons.1 he2 with rfl | he3
            · simp
            · exact hqss e2 he3
        | ok b =>
          have hstep : fillLoop sm t (fuel + 1) s ws stream true
              = ⟨(fillLoop sm t fuel s2 ws2 st' (!b)).s,
                 (fillLoop sm t fuel s2 ws2 st' (!b)).ws,
                 (ws.at_verification, WipeEvent.progress
                     (min (ws.position + chunk.length) t.total_size))
                   :: (evs2 ++ (fillLoop sm t fuel s2 ws2 st' (!b)).evs),
                 ops2 ++ (fillLoop sm t fuel s2 ws2 st' (!b)).ops,
                 (fillLoop sm t fuel s2 ws2 st' (!b)).res⟩ := by
            simp [fillLoop, hnx, advanceRun, hts]
          rw [hstep]
          have hrec := ih s2 ws2 st' (!b)
            (by rw [hqpos2]; exact min_le_right _ _)
          refine ⟨?_, hrec.2.1, ?_⟩
          · rw [progresses_cons_progress, progresses_append, hqp2,
              List.nil_append]
            refine ⟨hmono0, ?_⟩
            have := hrec.1
            rw [hqpos2] at this
            exact this
          · intro e2 he2
            rcases List.mem_cons.1 he2 with rfl | he3
            · simp
            · rcases List.mem_append.1 he3 with h4 | h4
              · exact hqss e2 h4
              · exact hrec.2.2 e2 h4
      | false =>
        have hqw := tryWrite_quiet sm t s ws chunk
        rcases htw : tryWrite sm t s ws chunk with ⟨sw, wsw, evsw, opsw, resw⟩
        rw [htw] at hqw
        obtain ⟨hwp, hwpos, hwss⟩ := hqw
        have hwp2 : progresses evsw = [] := hwp
        have hwpos2 : wsw.position = ws.position := hwpos
        cases resw with
        | error e =>
          have hstep : fillLoop sm t (fuel + 1) s ws stream false
              = ⟨sw, wsw, evsw, opsw, Except.error e⟩ := by
            simp [fillLoop, hnx, htw]
          rw [hstep]
          refine ⟨?_, ?_, hwss⟩
          · show IsMono ws.position (progresses evsw) wsw.position
            rw [hwp2, hwpos2]
            exact le_rfl
          · show wsw.position ≤ t.total_size
            rw [hwpos2]
            exact hpos
        | ok b =>
          cases b with
          | true =>
            have hstep : fillLoop sm t (fuel + 1) s ws stream false
                = ⟨(fillLoop sm t fuel sw { wsw with
                      position := min (wsw.position + chunk.length)
                        t.total_size } st' false).s,
                   (fillLoop sm t fuel sw { wsw with
                      position := min (wsw.position + chunk.length)
                        t.total_size } st' false).ws,
                   evsw ++ (wsw.at_verification, WipeEvent.progress
                       (min (wsw.position + chunk.length) t.total_size))
                     :: (fillLoop sm t fuel sw { wsw with
                          position := min (wsw.position + chunk.length)
                            t.total_size } st' false).evs,
                   opsw ++ (fillLoop sm t fuel sw { wsw with
                      position := min (wsw.position + chunk.length)
                        t.total_size } st' false).ops,
                   (fillLoop sm t fuel sw { wsw with
                      position := min (wsw.position + chunk.length)
                        t.total_size } st' false).res⟩ := by
              simp [fillLoop, hnx, htw, advanceRun]
            rw [hstep]
            have hrec := ih sw { wsw with
              position := min (wsw.position + chunk.length) t.total_size }
              st' false (min_le_right _ _)
            refine ⟨?_, hrec.2.1, ?_⟩
            · rw [progresses_append, hwp2, progresses_cons_progress,
                List.nil_append]
              refine ⟨?_, hrec.1⟩
              rw [hwpos2]
              exact le_min (Nat.le_add_right _ _) hpos
            · refine noSS_append hwss ?_
              intro e2 he2
              rcases List.mem_cons.1 he2 with rfl | he3
              · simp
              · exact hrec.2.2 e2 he3
          | false =>
            have hq3 := trySeek_quiet sm t sw { wsw with
              position := min (wsw.position + chunk.length) t.total_size }
            rcases hts : trySeek sm t sw { wsw with
              position := min (wsw.position + chunk.length) t.total_size }
              with ⟨s2, ws2, evs2, ops2, res2⟩
            rw [hts] at hq3
            obtain ⟨hqp, hqpos, hqss⟩ := hq3
            have hqp2 : progresses evs2 = [] := hqp
            have hqpos2 : ws2.position
                = min (wsw.position + chunk.length) t.total_size := hqpos
            have hmono0 : ws.position
                ≤ min (wsw.position + chunk.length) t.total_size := by
              rw [hwpos2]
              exact le_min (Nat.le_add_right _ _) hpos
            cases res2 with
            | error e =>
              have hstep : fillLoop sm t (fuel + 1) s ws stream false
                  = ⟨s2, ws2,
                     evsw ++ (wsw.at_verification, WipeEvent.progress
                         (min (wsw.position + chunk.length) t.total_size))
                       :: evs2,
                     opsw ++ ops2, Except.error e⟩ := by
                simp [fillLoop, hnx, htw, advanceRun, hts]
              rw [hstep]
              refine ⟨?_, ?_, ?_⟩
              · rw [progresses_append, hwp2, progresses_cons_progress,
                  List.nil_append]
                refine ⟨hmono0, ?_⟩
                rw [hqp2]
                show IsMono _ [] ws2.position
                rw [hqpos2]
                exact le_rfl
              · show ws2.position ≤ t.total_size
                rw [hqpos2]
                exact min_le_right _ _
              · refine noSS_append hwss ?_
                intro e2 he2
                rcases List.mem_cons.1 he2 with rfl | he3
                · simp
                · exact hqss e2 he3
            | ok b2 =>
              have hstep : fillLoop sm t (fuel + 1) s ws stream false
                  = ⟨(fillLoop sm t fuel s2 ws2 st' (!b2)).s,
                     (fillLoop sm t fuel s2 ws2 st' (!b2)).ws,
                     evsw ++ (wsw.at_verification, WipeEvent.progress
                         (min (wsw.position + chunk.length) t.total_size))
                       :: (evs2 ++ (fillLoop sm t fuel s2 ws2 st' (!b2)).evs),
                     opsw ++ ops2 ++ (fillLoop sm t fuel s2 ws2 st' (!b2)).ops,
                     (fillLoop sm t fuel s2 ws2 st' (!b2)).res⟩ := by
                simp [fillLoop, hnx, htw, advanceRun, hts]
              rw [hstep]
              have hrec := ih s2 ws2 st' (!b2)
                (by rw [hqpos2]; exact min_le_right _ _)
              refine ⟨?_, hrec.2.1, ?_⟩
              · rw [progresses_append, hwp2, progresses_cons_progress,
                  progresses_append, hqp2, List.nil_append, List.nil_append]
                refine ⟨hmono0, ?_⟩
                have := hrec.1
                rw [hqpos2] at this
                exact this
              · refine noSS_append hwss ?_
                intro e2 he2
                rcases List.mem_cons.1 he2 with rfl | he3
                · simp
                · rcases List.mem_append.1 he3 with h4 | h4
                  · exact hqss e2 h4
                  · exact hrec.2.2 e2 h4

theorem phase_verifyLoop {σ : Type} (sm : StorageModel σ) (t : WipeTask) :
    ∀ (fuel : Nat) (s : σ) (ws : WipeState) (stream : SanitizationStream)
    (vbuf : List Byte), ws.position ≤ t.total_size →
    PhaseOK t ws (verifyLoop sm t fuel s ws stream vbuf) := by
  intro fuel
  induction fuel with
  | zero =>
    intro s ws stream vbuf hpos
    exact ⟨le_rfl, hpos, by intro e he; simp [verifyLoop] at he⟩
  | succ fuel ih =>
    intro s ws stream vbuf hpos
    rcases hnx : stream.next with ⟨copt, st'⟩
    cases copt with
    | none =>
      rw [verifyLoop_none sm t fuel s ws stream st' vbuf hnx]
      exact ⟨le_rfl, hpos, by intro e he; simp at he⟩
    | some chunk =>
      have hmono0 : ws.position
          ≤ min (ws.position + chunk.length) t.total_size :=
        le_min (Nat.le_add_right _ _) hpos
      by_cases hb : isAtBadBlock t ws
      · have hq2 := trySeek_quiet sm t s { ws with
          position := min (ws.position + chunk.length) t.total_size }
        rcases hts : trySeek sm t s { ws with
          position := min (ws.position + chunk.length) t.total_size }
          with ⟨s2, ws2, evs2, ops2, res2⟩
        rw [hts] at hq2
        obtain ⟨hqp, hqpos, hqss⟩ := hq2
        have hqp2 : progresses evs2 = [] := hqp
        have hqpos2 : ws2.position
            = min (ws.position + chunk.length) t.total_size := hqpos
        cases res2 with
        | error e =>
          have hstep : verifyLoop sm t (fuel + 1) s ws stream vbuf
              = ⟨s2, ws2,
                 (ws.at_verification, WipeEvent.progress
                     (min (ws.position + chunk.length) t.total_size)) :: evs2,
                 ops2, Except.error e⟩ := by
            simp [verifyLoop, hnx, hb, advanceRun, hts]
          rw [hstep]
          refine ⟨?_, ?_, ?_⟩
          · rw [progresses_cons_progress]
            refine ⟨hmono0, ?_⟩
            rw [hqp2]
            show IsMono _ [] ws2.position
            rw [hqpos2]
            exact le_rfl
          · show ws2.position ≤ t.total_size
            rw [hqpos2]
            exact min_le_right _ _
          · intro e2 he2
            rcases List.mem_cons.1 he2 with rfl | he3
            · simp
            · exact hqss e2 he3
        | ok b =>
          have hstep : verifyLoop sm t (fuel + 1) s ws stream vbuf
              = ⟨(verifyLoop sm t fuel s2 ws2 st' vbuf).s,
                 (verifyLoop sm t fuel s2 ws2 st' vbuf).ws,
                 (ws.at_verification, WipeEvent.progress
                     (min (ws.position + chunk.length) t.total_size))
                   :: (evs2 ++ (verifyLoop sm t fuel s2 ws2 st' vbuf).evs),
                 ops2 ++ (verifyLoop sm t fuel s2 ws2 st' vbuf).ops,
                 (verifyLoop sm t fuel s2 ws2 st' vbuf).res⟩ := by
            simp [verifyLoop, hnx, hb, advanceRun, hts]
          rw [hstep]
          have hrec := ih s2 ws2 st' vbuf
            (by rw [hqpos2]; exact min_le_right _ _)
          refine ⟨?_, hrec.2.1, ?_⟩
          · rw [progresses_cons_progress, progresses_append, hqp2,
              List.nil_append]
            refine ⟨hmono0, ?_⟩
            have := hrec.1
            rw [hqpos2] at this
            exact this
          · intro e2 he2
            rcases List.mem_cons.1 he2 with rfl | he3
            · simp
            · rcases List.mem_append.1 he3 with h4 | h4
              · exact hqss e2 h4
              · exact hrec.2.2 e2 h4
      · have hb' : isAtBadBlock t ws = false := by simpa using hb
        rcases hrd : sm.read s (vbuf.take chunk.length) with ⟨s2, r⟩
        cases r with
        | err e =>
          rw [verifyLoop_read_err sm t fuel s s2 ws stream st' chunk vbuf e
            hnx hb' hrd]
          exact ⟨le_rfl, hpos, by intro e2 he2; simp at he2⟩
        | ok p =>
          rcases p with ⟨bytes, cnt⟩
          by_cases hmatch : bytes = chunk
          · subst hmatch
            have hstep := verifyLoop_match sm t fuel s s2 ws stream st'
              bytes vbuf cnt hnx hb' hrd
            rw [hstep]
            have hrec := ih s2 { ws with
              position := min (ws.position + bytes.length) t.total_size }
              st' (bytes ++ vbuf.drop bytes.length) (min_le_right _ _)
            refine ⟨?_, hrec.2.1, ?_⟩
            · show IsMono ws.position
                (progresses ((ws.at_verification, WipeEvent.progress
                    (min (ws.position + bytes.length) t.total_size))
                  :: (verifyLoop sm t fuel s2 _ st' _).evs)) _
              rw [progresses_cons_progress]
              exact ⟨le_min (Nat.le_add_right _ _) hpos, hrec.1⟩
            · intro e2 he2
              rcases List.mem_cons.1 he2 with rfl | he3
              · simp
              · exact hrec.2.2 e2 he3
          · rw [verifyLoop_mismatch sm t fuel s s2 ws stream st' chunk vbuf
              bytes cnt hnx hb' hrd hmatch]
            exact ⟨le_rfl, hpos, by intro e2 he2; simp at he2⟩

theorem phase_fill {σ : Type} (sm : StorageModel σ) (t : WipeTask)
    (fuel : Nat) (s : σ) (ws : WipeState) (stage : Stage)
    (hpos : ws.position ≤ t.total_size) :
    PhaseOK t ws (fill sm t fuel s ws stage) := by
  have hph := phase_seekSafe sm t fuel s ws hpos
  rcases hsk : seekToTheNextSafePosition sm t fuel s ws
    with ⟨s1, ws1, evs1, ops1, res1⟩
  rw [hsk] at hph
  obtain ⟨hm1, hb1, hss1⟩ := hph
  have hm1' : IsMono ws.position (progresses evs1) ws1.position := hm1
  have hb1' : ws1.position ≤ t.total_size := hb1
  have hss1' : noSS evs1 := hss1
  cases res1 with
  | error e =>
    have hstep : fill sm t fuel s ws stage
        = ⟨s1, ws1, (ws.at_verification, WipeEvent.progress ws.position)
            :: evs1, ops1, Except.error e⟩ := by
      simp [fill, hsk]
    rw [hstep]
    refine ⟨?_, hb1', ?_⟩
    · rw [progresses_cons_progress]
      exact ⟨le_rfl, hm1'⟩
    · intro e2 he2
      rcases List.mem_cons.1 he2 with rfl | he3
      · simp
      · exact hss1' e2 he3
  | ok u =>
    by_cases hend : t.total_size ≤ ws1.position
    · have hstep : fill sm t fuel s ws stage
          = ⟨s1, ws1, (ws.at_verification, WipeEvent.progress ws.position)
              :: evs1, ops1, Except.ok ()⟩ := by
        simp [fill, hsk, hend]
      rw [hstep]
      refine ⟨?_, hb1', ?_⟩
      · rw [progresses_cons_progress]
        exact ⟨le_rfl, hm1'⟩
      · intro e2 he2
        rcases List.mem_cons.1 he2 with rfl | he3
        · simp
        · exact hss1' e2 he3
    · have hph2 := phase_fillLoop sm t fuel s1 ws1
        (Stage.stream stage t.total_size t.block_size ws1.position) false hb1'
      rcases hfl : fillLoop sm t fuel s1 ws1
          (Stage.stream stage t.total_size t.block_size ws1.position) false
        with ⟨s2, ws2, evs2, ops2, res2⟩
      rw [hfl] at hph2
      obtain ⟨hm2, hb2, hss2⟩ := hph2
      have hm2' : IsMono ws1.position (progresses evs2) ws2.position := hm2
      have hb2' : ws2.position ≤ t.total_size := hb2
      have hss2' : noSS evs2 := hss2
      have hcommon : IsMono ws.position
          (progresses ((ws.at_verification, WipeEvent.progress ws.position)
            :: (evs1 ++ evs2))) ws2.position := by
        rw [progresses_cons_progress, progresses_append]
        exact ⟨le_rfl, IsMono.append hm1' hm2'⟩
      have hssc : noSS ((ws.at_verification, WipeEvent.progress ws.position)
          :: (evs1 ++ evs2)) := by
        intro e2 he2
        rcases List.mem_cons.1 he2 with rfl | he3
        · simp
        · exact noSS_append hss1' hss2' e2 he3
      cases res2 with
      | error e =>
        have hstep : fill sm t fuel s ws stage
            = ⟨s2, ws2, (ws.at_verification, WipeEvent.progress ws.position)
                :: (evs1 ++ evs2), ops1 ++ ops2, Except.error e⟩ := by
          simp [fill, hsk, hend, hfl]
        rw [hstep]
        exact ⟨hcommon, hb2', hssc⟩
      | ok u2 =>
        rcases hf : sm.flush s2 with ⟨s3, rf⟩
        cases rf with
        | ok u3 =>
          have hstep : fill sm t fuel s ws stage
              = ⟨s3, ws2, (ws.at_verification, WipeEvent.progress ws.position)
                  :: (evs1 ++ evs2), ops1 ++ ops2 ++ [SOp.flushOp],
                 Except.ok ()⟩ := by
            simp [fill, hsk, hend, hfl, hf]
          rw [hstep]
          exact ⟨hcommon, hb2', hssc⟩
        | err e =>
          have hstep : fill sm t fuel s ws stage
              = ⟨s3, ws2, (ws.at_verification, WipeEvent.progress ws.position)
                  :: (evs1 ++ evs2), ops1 ++ ops2 ++ [SOp.flushOp],
                 Except.error e⟩ := by
            simp [fill, hsk, hend, hfl, hf]
          rw [hstep]
          exact ⟨hcommon, hb2', hssc⟩

theorem phase_verify {σ : Type} (sm : StorageModel σ) (t : WipeTask)
    (fuel : Nat) (s : σ) (ws : WipeState) (stage : Stage)
    (hpos : ws.position ≤ t.total_size) :
    PhaseOK t ws (verify sm t fuel s ws stage) := by
  have hph := phase_seekSafe sm t fuel s ws hpos
  rcases hsk : seekToTheNextSafePosition sm t fuel s ws
    with ⟨s1, ws1, evs1, ops1, res1⟩
  rw [hsk] at hph
  obtain ⟨hm1, hb1, hss1⟩ := hph
  have hm1' : IsMono ws.position (progresses evs1) ws1.position := hm1
  have hb1' : ws1.position ≤ t.total_size := hb1
  have hss1' : noSS evs1 := hss1
  cases res1 with
  | error e =>
    have hstep : verify sm t fuel s ws stage
        = ⟨s1, ws1, (ws.at_verification, WipeEvent.progress ws.position)
            :: evs1, ops1, Except.error e⟩ := by
      simp [verify, hsk]
    rw [hstep]
    refine ⟨?_, hb1', ?_⟩
    · rw [progresses_cons_progress]
      exact ⟨le_rfl, hm1'⟩
    · intro e2 he2
      rcases List.mem_cons.1 he2 with rfl | he3
      · simp
      · exact hss1' e2 he3
  | ok u =>
    by_cases hend : t.total_size ≤ ws1.position
    · have hstep : verify sm t fuel s ws stage
          = ⟨s1, ws1, (ws.at_verification, WipeEvent.progress ws.position)
              :: evs1, ops1, Except.ok ()⟩ := by
        simp [verify, hsk, hend]
      rw [hstep]
      refine ⟨?_, hb1', ?_⟩
      · rw [progresses_cons_progress]
        exact ⟨le_rfl, hm1'⟩
      · intro e2 he2
        rcases List.mem_cons.1 he2 with rfl | he3
        · simp
        · exact hss1' e2 he3
    · have hph2 := phase_verifyLoop sm t fuel s1 ws1
        (Stage.stream stage t.total_size t.block_size ws1.position)
        (List.replicate t.block_size 0) hb1'
      rcases hvl : verifyLoop sm t fuel s1 ws1
          (Stage.stream stage t.total_size t.block_size ws1.position)
          (List.replicate t.block_size 0)
        with ⟨s2, ws2, evs2, ops2, res2⟩
      rw [hvl] at hph2
      obtain ⟨hm2, hb2, hss2⟩ := hph2
      have hm2' : IsMono ws1.position (progresses evs2) ws2.position := hm2
      have hb2' : ws2.position ≤ t.total_size := hb2
      have hss2' : noSS evs2 := hss2
      have hstep : verify sm t fuel s ws stage
          = ⟨s2, ws2, (ws.at_verification, WipeEvent.progress ws.position)
              :: (evs1 ++ evs2), ops1 ++ ops2, res2⟩ := by
        simp [verify, hsk, hend, hvl]
      rw [hstep]
      refine ⟨?_, hb2', ?_⟩
      · rw [progresses_cons_progress, progresses_append]
        exact ⟨le_rfl, IsMono.append hm1' hm2'⟩
      · intro e2 he2
        rcases List.mem_cons.1 he2 with rfl | he3
        · simp
        · exact noSS_append hss1' hss2' e2 he3

theorem progresses_nil : progresses [] = [] := rfl

theorem segsAux_nil (cur : List Nat) : segsAux cur [] = [cur] := rfl

theorem TailOK_nil : TailOK [] := by
  intro cur hcur seg hseg
  rw [segsAux_nil] at hseg
  rcases List.mem_singleton.1 hseg with rfl
  exact hcur

theorem attempt_ok {σ : Type} (sm : StorageModel σ) (t : WipeTask) :
    ∀ (fuel : Nat) (s : σ) (ws : WipeState) (stage : Stage) (htv : Bool),
    ws.position ≤ t.total_size →
    (attemptLoop sm t fuel s ws stage htv).ws.position ≤ t.total_size
  ∧ (∀ p ∈ progresses (attemptLoop sm t fuel s ws stage htv).evs,
      p ≤ t.total_size)
  ∧ (∀ tail, TailOK tail →
      TailOK ((attemptLoop sm t fuel s ws stage htv).evs ++ tail)) := by
  intro fuel
  induction fuel with
  | zero =>
    intro s ws stage htv hpos
    refine ⟨hpos, ?_, ?_⟩
    · intro p hp
      simp [attemptLoop, progresses] at hp
    · intro tail htail
      simpa [attemptLoop] using htail
  | succ fuel ih =>
    intro s ws stage htv hpos
    have hphf := phase_fill sm t (fuel + 1) s ws stage hpos
    rcases hof : fill sm t (fuel + 1) s ws stage with ⟨sf, wsf, evsf, opsf, resf⟩
    rw [hof] at hphf
    obtain ⟨hmf, hbf, hssf⟩ := hphf
    have hmf' : IsMono ws.position (progresses evsf) wsf.position := hmf
    have hbf' : wsf.position ≤ t.total_size := hbf
    have hssf' : noSS evsf := hssf
    cases resf with
    | error e =>
      by_cases hr : 0 < wsf.retries_left
      · rcases ho2 : attemptLoop sm t fuel sf
            { wsf with retries_left := wsf.retries_left - 1 } stage htv
          with ⟨s2, ws2, evs2, ops2, res2⟩
        have ihn := ih sf { wsf with retries_left := wsf.retries_left - 1 }
          stage htv (by simpa using hbf')
        rw [ho2] at ihn
        have hstep : attemptLoop sm t (fuel + 1) s ws stage htv
            = ⟨s2, ws2, (ws.at_verification, WipeEvent.stageStarted)
                :: (evsf
                  ++ (wsf.at_verification, WipeEvent.stageCompleted (some e))
                  :: (wsf.at_verification, WipeEvent.retrying) :: evs2),
               opsf ++ ops2, res2⟩ := by
          simp [attemptLoop, hof, hr, ho2]
        rw [hstep]
        refine ⟨ihn.1, ?_, ?_⟩
        · intro p hp
          rw [progresses_cons_other _ _ (by simp), progresses_append,
            progresses_cons_other _ _ (by simp),
            progresses_cons_other _ _ (by simp)] at hp
          rcases List.mem_append.1 hp with hp | hp
          · exact le_trans (IsMono.upper hmf' p hp) hbf'
          · exact ihn.2.1 p hp
        · intro tail htail cur hcur seg hseg
          rw [List.cons_append, segsAux_cons_ss] at hseg
          rcases List.mem_cons.1 hseg with rfl | hseg2
          · exact hcur
          · rw [List.append_assoc, segsAux_append_noSS evsf [] _ hssf',
              List.nil_append, List.cons_append,
              segsAux_cons_other _ _ _ (by simp) (by simp),
              List.cons_append,
              segsAux_cons_other _ _ _ (by simp) (by simp)] at hseg2
            exact ihn.2.2 tail htail (progresses evsf)
              (IsMono.chain hmf') seg hseg2
      · have hstep : attemptLoop sm t (fuel + 1) s ws stage htv
            = ⟨sf, wsf, (ws.at_verification, WipeEvent.stageStarted)
                :: (evsf
                  ++ [(wsf.at_verification, WipeEvent.stageCompleted (some e))]),
               opsf, Except.ok (some e)⟩ := by
          simp [attemptLoop, hof, hr]
        rw [hstep]
        refine ⟨hbf', ?_, ?_⟩
        · intro p hp
          rw [progresses_cons_other _ _ (by simp), progresses_append,
            progresses_cons_other _ _ (by simp), progresses_nil,
            List.append_nil] at hp
          exact le_trans (IsMono.upper hmf' p hp) hbf'
        · intro tail htail cur hcur seg hseg
          rw [List.cons_append, segsAux_cons_ss] at hseg
          rcases List.mem_cons.1 hseg with rfl | hseg2
          · exact hcur
          · rw [List.append_assoc, segsAux_append_noSS evsf [] _ hssf',
              List.nil_append, List.singleton_append,
              segsAux_cons_other _ _ _ (by simp) (by simp)] at hseg2
            exact htail (progresses evsf) (IsMono.chain hmf') seg hseg2
    | ok u =>
      cases htv with
      | false =>
        have hstep : attemptLoop sm t (fuel + 1) s ws stage false
            = ⟨sf, wsf, (ws.at_verification, WipeEvent.stageStarted)
                :: (evsf
                  ++ [(wsf.at_verification, WipeEvent.stageCompleted none)]),
               opsf, Except.ok none⟩ := by
          simp [attemptLoop, hof]
        rw [hstep]
        refine ⟨hbf', ?_, ?_⟩
        · intro p hp
          rw [progresses_cons_other _ _ (by simp), progresses_append,
            progresses_cons_other _ _ (by simp), progresses_nil,
            List.append_nil] at hp
          exact le_trans (IsMono.upper hmf' p hp) hbf'
        · intro tail htail cur hcur seg hseg
          rw [List.cons_append, segsAux_cons_ss] at hseg
          rcases List.mem_cons.1 hseg with rfl | hseg2
          · exact hcur
          · rw [List.append_assoc, segsAux_append_noSS evsf [] _ hssf',
              List.nil_append, List.singleton_append,
              segsAux_cons_other _ _ _ (by simp) (by simp)] at hseg2
            exact htail (progresses evsf) (IsMono.chain hmf') seg hseg2
      | true =>
        have hphv := phase_verify sm t (fuel + 1) sf
          { wsf with position := ws.position, at_verification := true } stage
          (by simpa using hpos)
        rcases hov : verify sm t (fuel + 1) sf
            { wsf with position := ws.position, at_verification := true } stage
          with ⟨sv, wsv, evsv, opsv, resv⟩
        rw [hov] at hphv
        obtain ⟨hmv, hbv, hssv⟩ := hphv
        have hmv' : IsMono ws.position (progresses evsv) wsv.position := hmv
        have hbv' : wsv.position ≤ t.total_size := hbv
        have hssv' : noSS evsv := hssv
        cases resv with
        | error e =>
          by_cases hr : 0 < wsv.retries_left
          · rcases ho2 : attemptLoop sm t fuel sv
                { wsv with retries_left := wsv.retries_left - 1,
                           at_verification := false } stage true
              with ⟨s2, ws2, evs2, ops2, res2⟩
            have ihn := ih sv
              { wsv with retries_left := wsv.retries_left - 1,
                         at_verification := false } stage true
              (by simpa using hbv')
            rw [ho2] at ihn
            have hstep : attemptLoop sm t (fuel + 1) s ws stage true
                = ⟨s2, ws2, (ws.at_verification, WipeEvent.stageStarted)
                    :: (evsf
                      ++ (wsf.at_verification, WipeEvent.stageCompleted none)
                      :: (true, WipeEvent.stageStarted)
                      :: (evsv
                        ++ (wsv.at_verification,
                            WipeEvent.stageCompleted (some e))
                        :: (false, WipeEvent.retrying) :: evs2)),
                   opsf ++ opsv ++ ops2, res2⟩ := by
              simp [attemptLoop, hof, hov, hr, ho2]
            rw [hstep]
            refine ⟨ihn.1, ?_, ?_⟩
            · intro p hp
              rw [progresses_cons_other _ _ (by simp), progresses_append,
                progresses_cons_other _ _ (by simp),
                progresses_cons_other _ _ (by simp), progresses_append,
                progresses_cons_other _ _ (by simp),
                progresses_cons_other _ _ (by simp)] at hp
              rcases List.mem_append.1 hp with hp | hp
              · exact le_trans (IsMono.upper hmf' p hp) hbf'
              rcases List.mem_append.1 hp with hp | hp
              · exact le_trans (IsMono.upper hmv' p hp) hbv'
              · exact ihn.2.1 p hp
            · intro tail htail cur hcur seg hseg
              rw [List.cons_append, segsAux_cons_ss] at hseg
              rcases List.mem_cons.1 hseg with rfl | hseg2
              · exact hcur
              · rw [List.append_assoc, segsAux_append_noSS evsf [] _ hssf',
                  List.nil_append, List.cons_append,
                  segsAux_cons_other _ _ _ (by simp) (by simp),
                  List.cons_append, segsAux_cons_ss] at hseg2
                rcases List.mem_cons.1 hseg2 with rfl | hseg3
                · exact IsMono.chain hmf'
                · rw [List.append_assoc, segsAux_append_noSS evsv [] _ hssv',
                    List.nil_append, List.cons_append,
                    segsAux_cons_other _ _ _ (by simp) (by simp),
                    List.cons_append,
                    segsAux_cons_other _ _ _ (by simp) (by simp)] at hseg3
                  exact ihn.2.2 tail htail (progresses evsv)
                    (IsMono.chain hmv') seg hseg3
          · have hstep : attemptLoop sm t (fuel + 1) s ws stage true
                = ⟨sv, wsv, (ws.at_verification, WipeEvent.stageStarted)
                    :: (evsf
                      ++ (wsf.at_verification, WipeEvent.stageCompleted none)
                      :: (true, WipeEvent.stageStarted)
                      :: (evsv
                        ++ [(wsv.at_verification,
                             WipeEvent.stageCompleted (some e))])),
                   opsf ++ opsv, Except.ok (some e)⟩ := by
              simp [attemptLoop, hof, hov, hr]
            rw [hstep]
            refine ⟨hbv', ?_, ?_⟩
            · intro p hp
              rw [progresses_cons_other _ _ (by simp), progresses_append,
                progresses_cons_other _ _ (by simp),
                progresses_cons_other _ _ (by simp), progresses_append,
                progresses_cons_other _ _ (by simp), progresses_nil,
                List.append_nil] at hp
              rcases List.mem_append.1 hp with hp | hp
              · exact le_trans (IsMono.upper hmf' p hp) hbf'
              · exact le_trans (IsMono.upper hmv' p hp) hbv'
            · intro tail htail cur hcur seg hseg
              rw [List.cons_append, segsAux_cons_ss] at hseg
              rcases List.mem_cons.1 hseg with rfl | hseg2
              · exact hcur
              · rw [List.append_assoc, segsAux_append_noSS evsf [] _ hssf',
                  List.nil_append, List.cons_append,
                  segsAux_cons_other _ _ _ (by simp) (by simp),
                  List.cons_append, segsAux_cons_ss] at hseg2
                rcases List.mem_cons.1 hseg2 with rfl | hseg3
                · exact IsMono.chain hmf'
                · rw [List.append_assoc, segsAux_append_noSS evsv [] _ hssv',
                    List.nil_append, List.singleton_append,
                    segsAux_cons_other _ _ _ (by simp) (by simp)] at hseg3
                  exact htail (progresses evsv) (IsMono.chain hmv') seg hseg3
        | ok u2 =>
          have hstep : attemptLoop sm t (fuel + 1) s ws stage true
              = ⟨sv, wsv, (ws.at_verification, WipeEvent.stageStarted)
                  :: (evsf
                    ++ (wsf.at_verification, WipeEvent.stageCompleted none)
                    :: (true, WipeEvent.stageStarted)
                    :: (evsv
                      ++ [(wsv.at_verification,
                           WipeEvent.stageCompleted none)])),
                 opsf ++ opsv, Except.ok none⟩ := by
            simp [attemptLoop, hof, hov]
          rw [hstep]
          refine ⟨hbv', ?_, ?_⟩
          · intro p hp
            rw [progresses_cons_other _ _ (by simp), progresses_append,
              progresses_cons_other _ _ (by simp),
              progresses_cons_other _ _ (by simp), progresses_append,
              progresses_cons_other _ _ (by simp), progresses_nil,
              List.append_nil] at hp
            rcases List.mem_append.1 hp with hp | hp
            · exact le_trans (IsMono.upper hmf' p hp) hbf'
            · exact le_trans (IsMono.upper hmv' p hp) hbv'
          · intro tail htail cur hcur seg hseg
            rw [List.cons_append, segsAux_cons_ss] at hseg
            rcases List.mem_cons.1 hseg with rfl | hseg2
            · exact hcur
            · rw [List.append_assoc, segsAux_append_noSS evsf [] _ hssf',
                List.nil_append, List.cons_append,
                segsAux_cons_other _ _ _ (by simp) (by simp),
                List.cons_append, segsAux_cons_ss] at hseg2
              rcases List.mem_cons.1 hseg2 with rfl | hseg3
              · exact IsMono.chain hmf'
              · rw [List.append_assoc, segsAux_append_noSS evsv [] _ hssv',
                  List.nil_append, List.singleton_append,
                  segsAux_cons_other _ _ _ (by simp) (by simp)] at hseg3
                exact htail (progresses evsv) (IsMono.chain hmv') seg hseg3

theorem runStages_ok {σ : Type} (sm : StorageModel σ) (t : WipeTask)
    (fuel : Nat) : ∀ (stages : List Stage) (i : Nat) (s : σ) (ws : WipeState),
    (∀ p ∈ progresses (runStages sm t fuel stages i s ws).evs, p ≤ t.total_size)
  ∧ (∀ tail, TailOK tail →
      TailOK ((runStages sm t fuel stages i s ws).evs ++ tail)) := by
  intro stages
  induction stages with
  | nil =>
    intro i s ws
    refine ⟨?_, ?_⟩
    · intro p hp
      simp [runStages, progresses] at hp
    · intro tail htail
      simpa [runStages] using htail
  | cons stg rest ih =>
    intro i s ws
    have hat := attempt_ok sm t fuel s
      { ws with stage := i, position := 0, at_verification := false } stg
      (haveToVerify t.verify i t.scheme.stages.length) (Nat.zero_le _)
    rcases ho : attemptLoop sm t fuel s
        { ws with stage := i, position := 0, at_verification := false } stg
        (haveToVerify t.verify i t.scheme.stages.length)
      with ⟨s1, ws1, evs1, ops1, res1⟩
    rw [ho] at hat
    cases res1 with
    | error e =>
      have hstep : runStages sm t fuel (stg :: rest) i s ws
          = ⟨s1, ws1, evs1, ops1, Except.error e⟩ := by
        simp [runStages, ho]
      rw [hstep]
      exact ⟨hat.2.1, hat.2.2⟩
    | ok oe =>
      cases oe with
      | some e =>
        have hstep : runStages sm t fuel (stg :: rest) i s ws
            = ⟨s1, ws1, evs1, ops1, Except.ok (some e)⟩ := by
          simp [runStages, ho]
        rw [hstep]
        exact ⟨hat.2.1, hat.2.2⟩
      | none =>
        rcases ho2 : runStages sm t fuel rest (i + 1) s1 ws1
          with ⟨s2, ws2, evs2, ops2, res2⟩
        have ihn := ih (i + 1) s1 ws1
        rw [ho2] at ihn
        have hstep : runStages sm t fuel (stg :: rest) i s ws
            = ⟨s2, ws2, evs1 ++ evs2, ops1 ++ ops2, res2⟩ := by
          simp [runStages, ho, ho2]
        rw [hstep]
        refine ⟨?_, ?_⟩
        · intro p hp
          rw [progresses_append] at hp
          rcases List.mem_append.1 hp with hp | hp
          · exact hat.2.1 p hp
          · exact ihn.1 p hp
        · intro tail htail
          rw [List.append_assoc]
          exact hat.2.2 (evs2 ++ tail) (ihn.2 tail htail)

/-- **C6.** Every `Progress` event published during a run of
`WipeTask.run` carries a position that is at most the task's
`total_size`, and within each stage phase (the stretches of the trace
delimited by `StageStarted` events) the positions carried by the
`Progress` events are non-decreasing. -/
theorem c6_progress_invariants {σ : Type} (sm : StorageModel σ)
    (t : WipeTask) (fuel : Nat) (s : σ) (ws : WipeState) :
    (∀ p ∈ progresses (WipeTask.run t sm fuel s ws).evs, p ≤ t.total_size)
  ∧ (∀ seg ∈ progressSegments (WipeTask.run t sm fuel s ws).evs,
      List.Chain' (fun a b => a ≤ b) seg) := by
  have hrs := runStages_ok sm t fuel t.scheme.stages 0 s ws
  rcases ho : runStages sm t fuel t.scheme.stages 0 s ws
    with ⟨s1, ws1, evs1, ops1, res1⟩
  rw [ho] at hrs
  cases res1 with
  | error e =>
    have hstep : WipeTask.run t sm fuel s ws
        = ⟨s1, ws1, (ws.at_verification, WipeEvent.started) :: evs1, ops1,
           Except.error e⟩ := by
      simp [WipeTask.run, ho]
    rw [hstep]
    refine ⟨?_, ?_⟩
    · intro p hp
      rw [progresses_cons_other _ _ (by simp)] at hp
      exact hrs.1 p hp
    · intro seg hseg
      have h2 := hrs.2 [] TailOK_nil
      rw [List.append_nil] at h2
      rw [progressSegments, segsAux_cons_other _ _ _ (by simp) (by simp)]
        at hseg
      exact h2 [] List.chain'_nil seg hseg
  | ok werr =>
    have hstep : WipeTask.run t sm fuel s ws
        = ⟨s1, ws1, (ws.at_verification, WipeEvent.started)
            :: (evs1 ++ [(ws1.at_verification, WipeEvent.completed werr)]),
           ops1, Except.ok werr.isNone⟩ := by
      simp [WipeTask.run, ho]
    rw [hstep]
    have htailC : TailOK [(ws1.at_verification, WipeEvent.completed werr)] := by
      intro cur hcur seg hseg
      rw [segsAux_cons_other _ _ _ (by simp) (by simp), segsAux_nil] at hseg
      rcases List.mem_singleton.1 hseg with rfl
      exact hcur
    refine ⟨?_, ?_⟩
    · intro p hp
      rw [progresses_cons_other _ _ (by simp), progresses_append,
        progresses_cons_other _ _ (by simp), progresses_nil,
        List.append_nil] at hp
      exact hrs.1 p hp
    · intro seg hseg
      rw [progressSegments, segsAux_cons_other _ _ _ (by simp) (by simp)]
        at hseg
      exact hrs.2 _ htailC [] List.chain'_nil seg hseg

theorem c6_progress_invariants_witness :
    2 ∈ progresses (WipeTask.run smallTask idleSM 5 () WipeState.default).evs
  ∧ 2 ≤ smallTask.total_size :=
  ⟨by decide,
   (c6_progress_invariants idleSM smallTask 5 () WipeState.default).1 2
     (by decide)⟩

/-! ### C2 machinery: the S3 retry scenario on the in-memory storage -/

theorem ksChunk_length (ks : Nat → Byte) (off n : Nat) :
    (ksChunk ks off n).length = n := by
  simp [ksChunk]

theorem ksChunk_getD (ks : Nat → Byte) (off n m : Nat) (h : m < n) :
    (ksChunk ks off n).getD m 0 = ks (off + m) := by
  simp [ksChunk, List.getD_eq_getElem?_getD, List.getElem?_map,
    List.getElem?_range, h]

theorem map_range_ext (n : Nat) (f g : Nat → Byte)
    (h : ∀ i, i < n → f i = g i) :
    (List.range n).map f = (List.range n).map g :=
  List.map_congr_left (fun a ha => h a (List.mem_range.1 ha))

theorem s3_next0 (ks : Nat → Byte) :
    (Stage.stream (Stage.random ks) 100000 32768 0).next
      = (some (ksChunk ks 0 32768),
         ⟨StreamKind.random 8192 ks,
          ⟨100000, 32768, 32768, ksChunk ks 0 32768, 32768, false⟩⟩) := by
  have h0 : Stage.stream (Stage.random ks) 100000 32768 0
      = ⟨StreamKind.random 0 ks,
         ⟨100000, 32768, 0, List.replicate 32768 0, 0, false⟩⟩ := by
    simp [Stage.stream, -List.reduceReplicate]
  rw [h0, next_random _ _ _ _ _ _ _ (by norm_num)]
  simp [ksChunk, -List.reduceReplicate, ← List.map_take, List.take_range]

theorem s3_next1 (ks : Nat → Byte) :
    (SanitizationStream.next
        ⟨StreamKind.random 8192 ks,
         ⟨100000, 32768, 32768, ksChunk ks 0 32768, 32768, false⟩⟩)
      = (some (ksChunk ks 32768 32768),
         ⟨StreamKind.random 16384 ks,
          ⟨100000, 32768, 65536, ksChunk ks 32768 32768, 32768, false⟩⟩) := by
  rw [next_random _ _ _ _ _ _ _ (by norm_num)]
  simp [ksChunk, -List.reduceReplicate, ← List.map_take, List.take_range]

theorem s3_next2 (ks : Nat → Byte) :
    (SanitizationStream.next
        ⟨StreamKind.random 16384 ks,
         ⟨100000, 32768, 65536, ksChunk ks 32768 32768, 32768, false⟩⟩)
      = (some (ksChunk ks 65536 32768),
         ⟨StreamKind.random 24576 ks,
          ⟨100000, 32768, 98304, ksChunk ks 65536 32768, 32768, false⟩⟩) := by
  rw [next_random _ _ _ _ _ _ _ (by norm_num)]
  simp [ksChunk, -List.reduceReplicate, ← List.map_take, List.take_range]

theorem s3_next3 (ks : Nat → Byte) :
    (SanitizationStream.next
        ⟨StreamKind.random 24576 ks,
         ⟨100000, 32768, 98304, ksChunk ks 65536 32768, 32768, false⟩⟩)
      = (some (ksChunk ks 98304 1696),
         ⟨StreamKind.random 32768 ks,
          ⟨100000, 32768, 100000, ksChunk ks 98304 32768, 1696, false⟩⟩) := by
  rw [next_random _ _ _ _ _ _ _ (by norm_num)]
  simp [ksChunk, -List.reduceReplicate, ← List.map_take, List.take_range]

theorem s3_next4 (ks : Nat → Byte) :
    (SanitizationStream.next
        ⟨StreamKind.random 32768 ks,
         ⟨100000, 32768, 100000, ksChunk ks 98304 32768, 1696, false⟩⟩)
      = (none,
         ⟨StreamKind.random 32768 ks,
          ⟨100000, 32768, 100000, ksChunk ks 98304 32768, 1696, true⟩⟩) :=
  next_stop _ _ _ _ _ _ (by norm_num)

theorem s3_next0w (ks : Nat → Byte) :
    (Stage.stream (Stage.random ks) 100000 32768 32768).next
      = (some (ksChunk ks 32768 32768),
         ⟨StreamKind.random 16384 ks,
          ⟨100000, 32768, 65536, ksChunk ks 32768 32768, 32768, false⟩⟩) := by
  have h0 : Stage.stream (Stage.random ks) 100000 32768 32768
      = ⟨StreamKind.random 8192 ks,
         ⟨100000, 32768, 32768, List.replicate 32768 0, 0, false⟩⟩ := by
    simp [Stage.stream, -List.reduceReplicate]
  rw [h0, next_random _ _ _ _ _ _ _ (by norm_num)]
  simp [ksChunk, -List.reduceReplicate, ← List.map_take, List.take_range]

theorem writeOver_ksChunk (c ks : Nat → Byte) (p n x : Nat) :
    writeOver c p (ksChunk ks p n) x
      = if p ≤ x ∧ x < p + n then ks x else c x := by
  unfold writeOver
  rw [ksChunk_length]
  split_ifs with h
  · rw [ksChunk_getD ks p n (x - p) (by omega)]
    congr 1
    omega
  · rfl

theorem s3C1_eq (ks : Nat → Byte) : ∀ x, x < 100000 → s3C1 ks x = ks x := by
  intro x hx
  unfold s3C1 s3F1c3 s3F1c2 s3F1c1
  rw [writeOver_ksChunk, writeOver_ksChunk, writeOver_ksChunk,
    writeOver_ksChunk]
  split_ifs <;> first | rfl | (exfalso; omega)

theorem s3C2_eq (ks : Nat → Byte) : ∀ x, x < 100000 → s3C2 ks x = ks x := by
  intro x hx
  unfold s3C2 s3F2c2 s3F2c1
  rw [writeOver_ksChunk, writeOver_ksChunk, writeOver_ksChunk]
  split_ifs <;> first | rfl | exact s3C1_eq ks x hx

theorem s3_write_ok (c : Nat → Byte) (p tw tr : Nat) (d : List Byte)
    (hfail : tr + tw + d.length ≤ 150000 ∨ 150000 < tr + tw) :
    s3SM.write ⟨c, p, tw, tr⟩ d
      = (⟨writeOver c p d, p + d.length, tw + d.length, tr⟩, SRes.ok ()) := by
  rcases le_or_lt (tr + tw) 150000 with hle | hgt
  · have hd : decide (tr + tw ≤ 150000) = true := decide_eq_true hle
    have hnov : ¬ 150000 < tr + tw + d.length := by omega
    simp [s3SM, inMemSM, checkForTraps, List.find?, hd, hnov]
  · have hd : decide (tr + tw ≤ 150000) = false := by
      simp [Nat.not_le.2 hgt]
    simp [s3SM, inMemSM, checkForTraps, List.find?, hd]

theorem s3_read_ok (c ks : Nat → Byte) (p tw tr n : Nat) (b : List Byte)
    (hlen : b.length = n) (hsz : p + n ≤ 100000)
    (hc : ∀ i, i < n → c (p + i) = ks (p + i))
    (hfail : tr + tw + n ≤ 150000 ∨ 150000 < tr + tw) :
    s3SM.read ⟨c, p, tw, tr⟩ b
      = (⟨c, p + n, tw, tr + n⟩, SRes.ok (ksChunk ks p n, n)) := by
  have hmin : n ⊓ (100000 - p) = n := Nat.min_eq_left (by omega)
  have hn2 : n ≤ 100000 - p := by omega
  have hdrop : b.drop n = [] := List.drop_eq_nil_of_le (by omega)
  have hbytes : (List.range n).map (fun i => c (p + i)) = ksChunk ks p n := by
    unfold ksChunk
    exact map_range_ext n _ _ (fun i hi => hc i hi)
  rcases le_or_lt (tr + tw) 150000 with hle | hgt
  · have hd : decide (tr + tw ≤ 150000) = true := decide_eq_true hle
    have hnov : ¬ 150000 < tr + tw + n := by omega
    simp [s3SM, inMemSM, checkForTraps, List.find?, hd, hlen, hnov, hmin,
      hn2, hdrop, hbytes]
  · have hd : decide (tr + tw ≤ 150000) = false := by
      simp [Nat.not_le.2 hgt]
    simp [s3SM, inMemSM, checkForTraps, List.find?, hd, hlen, hmin,
      hn2, hdrop, hbytes]

theorem s3_read_err (c : Nat → Byte) (p tw tr n : Nat) (b : List Byte)
    (hlen : b.length = n) (hold : tr + tw ≤ 150000)
    (hover : 150000 < tr + tw + n) :
    s3SM.read ⟨c, p, tw, tr⟩ b
      = (⟨c, p, tw, tr + n⟩, SRes.err ⟨none, "Mocked IO failure"⟩) := by
  have hd : decide (tr + tw ≤ 150000) = true := decide_eq_true hold
  simp [s3SM, inMemSM, checkForTraps, List.find?, hd, hlen, hover]

theorem s3_seek (c : Nat → Byte) (p tw tr q : Nat) :
    s3SM.seek ⟨c, p, tw, tr⟩ q = (⟨c, q, tw, tr⟩, SRes.ok q) := by
  simp [s3SM, inMemSM]

theorem s3_flush (st : MemState) : s3SM.flush st = (st, SRes.ok ()) := by
  simp [s3SM, inMemSM]

theorem s3Task_total (ks : Nat → Byte) : (s3Task ks).total_size = 100000 := rfl

theorem s3Task_bs (ks : Nat → Byte) : (s3Task ks).block_size = 32768 := rfl

theorem s3Task_stages (ks : Nat → Byte) :
    (s3Task ks).scheme.stages = [Stage.random ks] := rfl

theorem s3Task_verify (ks : Nat → Byte) : (s3Task ks).verify = Verify.last :=
  rfl

theorem s3_fill1 (ks : Nat → Byte) :
    fill s3SM (s3Task ks) (6 + 1) ⟨s3C0, 0, 0, 0⟩ ⟨0, false, 0, 8, []⟩
        (Stage.random ks)
      = ⟨⟨s3C1 ks, 100000, 100000, 0⟩, ⟨0, false, 100000, 8, []⟩,
         [(false, WipeEvent.progress 0), (false, WipeEvent.progress 32768),
          (false, WipeEvent.progress 65536), (false, WipeEvent.progress 98304),
          (false, WipeEvent.progress 100000)],
         [SOp.seekOp 0, SOp.writeOp 32768, SOp.writeOp 32768,
          SOp.writeOp 32768, SOp.writeOp 1696, SOp.flushOp],
         Except.ok ()⟩ := by
  have hw1 : tryWrite s3SM (s3Task ks) ⟨s3C0, 0, 0, 0⟩ ⟨0, false, 0, 8, []⟩
      (ksChunk ks 0 32768)
      = ⟨⟨s3F1c1 ks, 32768, 32768, 0⟩, ⟨0, false, 0, 8, []⟩, [],
         [SOp.writeOp 32768], Except.ok true⟩ := by
    rw [tryWrite_ok _ _ _ _ _ _ () (by simp [isAtBadBlock])
      (s3_write_ok s3C0 0 0 0 (ksChunk ks 0 32768)
        (by rw [ksChunk_length]; norm_num))]
    simp [ksChunk_length, s3F1c1]
  have hw2 : tryWrite s3SM (s3Task ks) ⟨s3F1c1 ks, 32768, 32768, 0⟩
      ⟨0, false, 32768, 8, []⟩ (ksChunk ks 32768 32768)
      = ⟨⟨s3F1c2 ks, 65536, 65536, 0⟩, ⟨0, false, 32768, 8, []⟩, [],
         [SOp.writeOp 32768], Except.ok true⟩ := by
    rw [tryWrite_ok _ _ _ _ _ _ () (by simp [isAtBadBlock])
      (s3_write_ok (s3F1c1 ks) 32768 32768 0 (ksChunk ks 32768 32768)
        (by rw [ksChunk_length]; norm_num))]
    simp [ksChunk_length, s3F1c2]
  have hw3 : tryWrite s3SM (s3Task ks) ⟨s3F1c2 ks, 65536, 65536, 0⟩
      ⟨0, false, 65536, 8, []⟩ (ksChunk ks 65536 32768)
      = ⟨⟨s3F1c3 ks, 98304, 98304, 0⟩, ⟨0, false, 65536, 8, []⟩, [],
         [SOp.writeOp 32768], Except.ok true⟩ := by
    rw [tryWrite_ok _ _ _ _ _ _ () (by simp [isAtBadBlock])
      (s3_write_ok (s3F1c2 ks) 65536 65536 0 (ksChunk ks 65536 32768)
        (by rw [ksChunk_length]; norm_num))]
    simp [ksChunk_length, s3F1c3]
  have hw4 : tryWrite s3SM (s3Task ks) ⟨s3F1c3 ks, 98304, 98304, 0⟩
      ⟨0, false, 98304, 8, []⟩ (ksChunk ks 98304 1696)
      = ⟨⟨s3C1 ks, 100000, 100000, 0⟩, ⟨0, false, 98304, 8, []⟩, [],
         [SOp.writeOp 1696], Except.ok true⟩ := by
    rw [tryWrite_ok _ _ _ _ _ _ () (by simp [isAtBadBlock])
      (s3_write_ok (s3F1c3 ks) 98304 98304 0 (ksChunk ks 98304 1696)
        (by rw [ksChunk_length]; norm_num))]
    simp [ksChunk_length, s3C1]
  have hL4 : fillLoop s3SM (s3Task ks) 3 ⟨s3C1 ks, 100000, 100000, 0⟩
      ⟨0, false, 100000, 8, []⟩
      ⟨StreamKind.random 32768 ks,
       ⟨100000, 32768, 100000, ksChunk ks 98304 32768, 1696, false⟩⟩ false
      = ⟨⟨s3C1 ks, 100000, 100000, 0⟩, ⟨0, false, 100000, 8, []⟩, [], [],
         Except.ok ()⟩ := by
    rw [show (3 : Nat) = 2 + 1 from rfl]
    exact fillLoop_none _ _ 2 _ _ _ _ _ (s3_next4 ks)
  have hL3 : fillLoop s3SM (s3Task ks) 4 ⟨s3F1c3 ks, 98304, 98304, 0⟩
      ⟨0, false, 98304, 8, []⟩
      ⟨StreamKind.random 24576 ks,
       ⟨100000, 32768, 98304, ksChunk ks 65536 32768, 32768, false⟩⟩ false
      = ⟨⟨s3C1 ks, 100000, 100000, 0⟩, ⟨0, false, 100000, 8, []⟩,
         [(false, WipeEvent.progress 100000)], [SOp.writeOp 1696],
         Except.ok ()⟩ := by
    rw [show (4 : Nat) = 3 + 1 from rfl,
      fillLoop_write_ok _ _ 3 _ _ _ _ _ _ _ _ _ (s3_next3 ks) hw4]
    simp [advanceRun, s3Task_total, ksChunk_length, hL4]
  have hL2 : fillLoop s3SM (s3Task ks) 5 ⟨s3F1c2 ks, 65536, 65536, 0⟩
      ⟨0, false, 65536, 8, []⟩
      ⟨StreamKind.random 16384 ks,
       ⟨100000, 32768, 65536, ksChunk ks 32768 32768, 32768, false⟩⟩ false
      = ⟨⟨s3C1 ks, 100000, 100000, 0⟩, ⟨0, false, 100000, 8, []⟩,
         [(false, WipeEvent.progress 98304), (false, WipeEvent.progress 100000)],
         [SOp.writeOp 32768, SOp.writeOp 1696], Except.ok ()⟩ := by
    rw [show (5 : Nat) = 4 + 1 from rfl,
      fillLoop_write_ok _ _ 4 _ _ _ _ _ _ _ _ _ (s3_next2 ks) hw3]
    simp [advanceRun, s3Task_total, ksChunk_length, hL3]
  have hL1 : fillLoop s3SM (s3Task ks) 6 ⟨s3F1c1 ks, 32768, 32768, 0⟩
      ⟨0, false, 32768, 8, []⟩
      ⟨StreamKind.random 8192 ks,
       ⟨100000, 32768, 32768, ksChunk ks 0 32768, 32768, false⟩⟩ false
      = ⟨⟨s3C1 ks, 100000, 100000, 0⟩, ⟨0, false, 100000, 8, []⟩,
         [(false, WipeEvent.progress 65536), (false, WipeEvent.progress 98304),
          (false, WipeEvent.progress 100000)],
         [SOp.writeOp 32768, SOp.writeOp 32768, SOp.writeOp 1696],
         Except.ok ()⟩ := by
    rw [show (6 : Nat) = 5 + 1 from rfl,
      fillLoop_write_ok _ _ 5 _ _ _ _ _ _ _ _ _ (s3_next1 ks) hw2]
    simp [advanceRun, s3Task_total, ksChunk_length, hL2]
  have hL0 : fillLoop s3SM (s3Task ks) (6 + 1) ⟨s3C0, 0, 0, 0⟩
      ⟨0, false, 0, 8, []⟩ (Stage.stream (Stage.random ks) 100000 32768 0)
      false
      = ⟨⟨s3C1 ks, 100000, 100000, 0⟩, ⟨0, false, 100000, 8, []⟩,
         [(false, WipeEvent.progress 32768), (false, WipeEvent.progress 65536),
          (false, WipeEvent.progress 98304), (false, WipeEvent.progress 100000)],
         [SOp.writeOp 32768, SOp.writeOp 32768, SOp.writeOp 32768,
          SOp.writeOp 1696], Except.ok ()⟩ := by
    rw [fillLoop_write_ok _ _ 6 _ _ _ _ _ _ _ _ _ (s3_next0 ks) hw1]
    simp [advanceRun, s3Task_total, ksChunk_length, hL1]
  have hsk : seekToTheNextSafePosition s3SM (s3Task ks) (6 + 1)
      ⟨s3C0, 0, 0, 0⟩ ⟨0, false, 0, 8, []⟩
      = ⟨⟨s3C0, 0, 0, 0⟩, ⟨0, false, 0, 8, []⟩, [], [SOp.seekOp 0],
         Except.ok ()⟩ :=
    seekSafe_ok s3SM (s3Task ks) 6 _ _ _ 0 (by norm_num [s3Task_total])
      (by simp [isAtBadBlock]) (s3_seek s3C0 0 0 0 0)
  simp [fill, hsk, s3Task_total, s3Task_bs, hL0, s3_flush]

theorem ksChunk_take (ks : Nat → Byte) (off n m : Nat) (h : m ≤ n) :
    (ksChunk ks off n).take m = ksChunk ks off m := by
  simp [ksChunk, ← List.map_take, List.take_range, Nat.min_eq_left h]

theorem s3_verify1 (ks : Nat → Byte) :
    verify s3SM (s3Task ks) (6 + 1) ⟨s3C1 ks, 100000, 100000, 0⟩
        ⟨0, true, 0, 8, []⟩ (Stage.random ks)
      = ⟨⟨s3C1 ks, 32768, 100000, 65536⟩, ⟨0, true, 32768, 8, []⟩,
         [(true, WipeEvent.progress 0), (true, WipeEvent.progress 32768)],
         [SOp.seekOp 0, SOp.readOp 32768, SOp.readOp 32768],
         Except.error ⟨none, "Mocked IO failure"⟩⟩ := by
  have hr1 : s3SM.read ⟨s3C1 ks, 0, 100000, 0⟩
      ((List.replicate 32768 (0 : Byte)).take (ksChunk ks 0 32768).length)
      = (⟨s3C1 ks, 32768, 100000, 32768⟩,
         SRes.ok (ksChunk ks 0 32768, 32768)) := by
    rw [ksChunk_length]
    have harg : (List.replicate 32768 (0 : Byte)).take 32768
        = List.replicate 32768 0 := by
      rw [List.take_replicate]
      norm_num
    rw [harg]
    have h := s3_read_ok (s3C1 ks) ks 0 100000 0 32768
      (List.replicate 32768 0) (by rw [List.length_replicate])
      (by norm_num) (fun i hi => s3C1_eq ks (0 + i) (by omega))
      (by norm_num)
    simpa [-List.reduceReplicate] using h
  have hr2 : s3SM.read ⟨s3C1 ks, 32768, 100000, 32768⟩
      ((ksChunk ks 0 32768).take (ksChunk ks 32768 32768).length)
      = (⟨s3C1 ks, 32768, 100000, 65536⟩,
         SRes.err ⟨none, "Mocked IO failure"⟩) := by
    rw [ksChunk_length, ksChunk_take ks 0 32768 32768 (le_refl 32768)]
    have h := s3_read_err (s3C1 ks) 32768 100000 32768 32768
      (ksChunk ks 0 32768) (ksChunk_length ks 0 32768) (by norm_num)
      (by norm_num)
    simpa using h
  have hVL0 : verifyLoop s3SM (s3Task ks) 6 ⟨s3C1 ks, 32768, 100000, 32768⟩
      ⟨0, true, 32768, 8, []⟩
      ⟨StreamKind.random 8192 ks,
       ⟨100000, 32768, 32768, ksChunk ks 0 32768, 32768, false⟩⟩
      (ksChunk ks 0 32768)
      = ⟨⟨s3C1 ks, 32768, 100000, 65536⟩, ⟨0, true, 32768, 8, []⟩, [],
         [SOp.readOp 32768], Except.error ⟨none, "Mocked IO failure"⟩⟩ := by
    rw [show (6 : Nat) = 5 + 1 from rfl,
      verifyLoop_read_err _ _ 5 _ _ _ _ _ _ _ _ (s3_next1 ks)
        (by simp [isAtBadBlock]) hr2]
    simp [ksChunk_length]
  have hVL1 : verifyLoop s3SM (s3Task ks) (6 + 1) ⟨s3C1 ks, 0, 100000, 0⟩
      ⟨0, true, 0, 8, []⟩ (Stage.stream (Stage.random ks) 100000 32768 0)
      (List.replicate 32768 0)
      = ⟨⟨s3C1 ks, 32768, 100000, 65536⟩, ⟨0, true, 32768, 8, []⟩,
         [(true, WipeEvent.progress 32768)],
         [SOp.readOp 32768, SOp.readOp 32768],
         Except.error ⟨none, "Mocked IO failure"⟩⟩ := by
    rw [verifyLoop_match _ _ 6 _ _ _ _ _ _ _ 32768 (s3_next0 ks)
      (by simp [isAtBadBlock]) hr1]
    simp [advanceRun, s3Task_total, ksChunk_length, List.drop_replicate,
      -List.reduceReplicate, hVL0]
  have hskv : seekToTheNextSafePosition s3SM (s3Task ks) (6 + 1)
      ⟨s3C1 ks, 100000, 100000, 0⟩ ⟨0, true, 0, 8, []⟩
      = ⟨⟨s3C1 ks, 0, 100000, 0⟩, ⟨0, true, 0, 8, []⟩, [], [SOp.seekOp 0],
         Except.ok ()⟩ :=
    seekSafe_ok s3SM (s3Task ks) 6 _ _ _ 0 (by norm_num [s3Task_total])
      (by simp [isAtBadBlock]) (s3_seek (s3C1 ks) 100000 100000 0 0)
  simp [verify, hskv, s3Task_total, s3Task_bs, -List.reduceReplicate, hVL1]

theorem ksChunk_drop_all (ks : Nat → Byte) (off n : Nat) :
    (ksChunk ks off n).drop n = [] :=
  List.drop_eq_nil_of_le (by rw [ksChunk_length])

theorem s3_fill2 (ks : Nat → Byte) :
    fill s3SM (s3Task ks) (5 + 1) ⟨s3C1 ks, 32768, 100000, 65536⟩
        ⟨0, false, 32768, 7, []⟩ (Stage.random ks)
      = ⟨⟨s3C2 ks, 100000, 167232, 65536⟩, ⟨0, false, 100000, 7, []⟩,
         [(false, WipeEvent.progress 32768), (false, WipeEvent.progress 65536),
          (false, WipeEvent.progress 98304), (false, WipeEvent.progress 100000)],
         [SOp.seekOp 32768, SOp.writeOp 32768, SOp.writeOp 32768,
          SOp.writeOp 1696, SOp.flushOp],
         Except.ok ()⟩ := by
  have hw1 : tryWrite s3SM (s3Task ks) ⟨s3C1 ks, 32768, 100000, 65536⟩
      ⟨0, false, 32768, 7, []⟩ (ksChunk ks 32768 32768)
      = ⟨⟨s3F2c1 ks, 65536, 132768, 65536⟩, ⟨0, false, 32768, 7, []⟩, [],
         [SOp.writeOp 32768], Except.ok true⟩ := by
    rw [tryWrite_ok _ _ _ _ _ _ () (by simp [isAtBadBlock])
      (s3_write_ok (s3C1 ks) 32768 100000 65536 (ksChunk ks 32768 32768)
        (by norm_num))]
    simp [ksChunk_length, s3F2c1]
  have hw2 : tryWrite s3SM (s3Task ks) ⟨s3F2c1 ks, 65536, 132768, 65536⟩
      ⟨0, false, 65536, 7, []⟩ (ksChunk ks 65536 32768)
      = ⟨⟨s3F2c2 ks, 98304, 165536, 65536⟩, ⟨0, false, 65536, 7, []⟩, [],
         [SOp.writeOp 32768], Except.ok true⟩ := by
    rw [tryWrite_ok _ _ _ _ _ _ () (by simp [isAtBadBlock])
      (s3_write_ok (s3F2c1 ks) 65536 132768 65536 (ksChunk ks 65536 32768)
        (by norm_num))]
    simp [ksChunk_length, s3F2c2]
  have hw3 : tryWrite s3SM (s3Task ks) ⟨s3F2c2 ks, 98304, 165536, 65536⟩
      ⟨0, false, 98304, 7, []⟩ (ksChunk ks 98304 1696)
      = ⟨⟨s3C2 ks, 100000, 167232, 65536⟩, ⟨0, false, 98304, 7, []⟩, [],
         [SOp.writeOp 1696], Except.ok true⟩ := by
    rw [tryWrite_ok _ _ _ _ _ _ () (by simp [isAtBadBlock])
      (s3_write_ok (s3F2c2 ks) 98304 165536 65536 (ksChunk ks 98304 1696)
        (by norm_num))]
    simp [ksChunk_length, s3C2]
  have hL3 : fillLoop s3SM (s3Task ks) 3 ⟨s3C2 ks, 100000, 167232, 65536⟩
      ⟨0, false, 100000, 7, []⟩
      ⟨StreamKind.random 32768 ks,
       ⟨100000, 32768, 100000, ksChunk ks 98304 32768, 1696, false⟩⟩ false
      = ⟨⟨s3C2 ks, 100000, 167232, 65536⟩, ⟨0, false, 100000, 7, []⟩, [], [],
         Except.ok ()⟩ := by
    rw [show (3 : Nat) = 2 + 1 from rfl]
    exact fillLoop_none _ _ 2 _ _ _ _ _ (s3_next4 ks)
  have hL2 : fillLoop s3SM (s3Task ks) 4 ⟨s3F2c2 ks, 98304, 165536, 65536⟩
      ⟨0, false, 98304, 7, []⟩
      ⟨StreamKind.random 24576 ks,
       ⟨100000, 32768, 98304, ksChunk ks 65536 32768, 32768, false⟩⟩ false
      = ⟨⟨s3C2 ks, 100000, 167232, 65536⟩, ⟨0, false, 100000, 7, []⟩,
         [(false, WipeEvent.progress 100000)], [SOp.writeOp 1696],
         Except.ok ()⟩ := by
    rw [show (4 : Nat) = 3 + 1 from rfl,
      fillLoop_write_ok _ _ 3 _ _ _ _ _ _ _ _ _ (s3_next3 ks) hw3]
    simp [advanceRun, s3Task_total, ksChunk_length, hL3]
  have hL1 : fillLoop s3SM (s3Task ks) 5 ⟨s3F2c1 ks, 65536, 132768, 65536⟩
      ⟨0, false, 65536, 7, []⟩
      ⟨StreamKind.random 16384 ks,
       ⟨100000, 32768, 65536, ksChunk ks 32768 32768, 32768, false⟩⟩ false
      = ⟨⟨s3C2 ks, 100000, 167232, 65536⟩, ⟨0, false, 100000, 7, []⟩,
         [(false, WipeEvent.progress 98304), (false, WipeEvent.progress 100000)],
         [SOp.writeOp 32768, SOp.writeOp 1696], Except.ok ()⟩ := by
    rw [show (5 : Nat) = 4 + 1 from rfl,
      fillLoop_write_ok _ _ 4 _ _ _ _ _ _ _ _ _ (s3_next2 ks) hw2]
    simp [advanceRun, s3Task_total, ksChunk_length, hL2]
  have hL0 : fillLoop s3SM (s3Task ks) (5 + 1) ⟨s3C1 ks, 32768, 100000, 65536⟩
      ⟨0, false, 32768, 7, []⟩
      (Stage.stream (Stage.random ks) 100000 32768 32768) false
      = ⟨⟨s3C2 ks, 100000, 167232, 65536⟩, ⟨0, false, 100000, 7, []⟩,
         [(false, WipeEvent.progress 65536), (false, WipeEvent.progress 98304),
          (false, WipeEvent.progress 100000)],
         [SOp.writeOp 32768, SOp.writeOp 32768, SOp.writeOp 1696],
         Except.ok ()⟩ := by
    rw [fillLoop_write_ok _ _ 5 _ _ _ _ _ _ _ _ _ (s3_next0w ks) hw1]
    simp [advanceRun, s3Task_total, ksChunk_length, hL1]
  have hsk : seekToTheNextSafePosition s3SM (s3Task ks) (5 + 1)
      ⟨s3C1 ks, 32768, 100000, 65536⟩ ⟨0, false, 32768, 7, []⟩
      = ⟨⟨s3C1 ks, 32768, 100000, 65536⟩, ⟨0, false, 32768, 7, []⟩, [],
         [SOp.seekOp 32768], Except.ok ()⟩ :=
    seekSafe_ok s3SM (s3Task ks) 5 _ _ _ 32768 (by norm_num [s3Task_total])
      (by simp [isAtBadBlock]) (s3_seek (s3C1 ks) 32768 100000 65536 32768)
  simp [fill, hsk, s3Task_total, s3Task_bs, hL0, s3_flush]

theorem s3_verify2 (ks : Nat → Byte) :
    verify s3SM (s3Task ks) (5 + 1) ⟨s3C2 ks, 100000, 167232, 65536⟩
        ⟨0, true, 32768, 7, []⟩ (Stage.random ks)
      = ⟨⟨s3C2 ks, 100000, 167232, 131072 + 1696⟩, ⟨0, true, 100000, 7, []⟩,
         [(true, WipeEvent.progress 32768), (true, WipeEvent.progress 65536),
          (true, WipeEvent.progress 98304), (true, WipeEvent.progress 100000)],
         [SOp.seekOp 32768, SOp.readOp 32768, SOp.readOp 32768,
          SOp.readOp 1696], Except.ok ()⟩ := by
  have hr1 : s3SM.read ⟨s3C2 ks, 32768, 167232, 65536⟩
      ((List.replicate 32768 (0 : Byte)).take (ksChunk ks 32768 32768).length)
      = (⟨s3C2 ks, 65536, 167232, 98304⟩,
         SRes.ok (ksChunk ks 32768 32768, 32768)) := by
    rw [ksChunk_length]
    have harg : (List.replicate 32768 (0 : Byte)).take 32768
        = List.replicate 32768 0 := by
      rw [List.take_replicate]
      norm_num
    rw [harg]
    have h := s3_read_ok (s3C2 ks) ks 32768 167232 65536 32768
      (List.replicate 32768 0) (by rw [List.length_replicate])
      (by norm_num) (fun i hi => s3C2_eq ks (32768 + i) (by omega))
      (by norm_num)
    simpa [-List.reduceReplicate] using h
  have hr2 : s3SM.read ⟨s3C2 ks, 65536, 167232, 98304⟩
      ((ksChunk ks 32768 32768).take (ksChunk ks 65536 32768).length)
      = (⟨s3C2 ks, 98304, 167232, 131072⟩,
         SRes.ok (ksChunk ks 65536 32768, 32768)) := by
    rw [ksChunk_length, ksChunk_take ks 32768 32768 32768 (le_refl 32768)]
    have h := s3_read_ok (s3C2 ks) ks 65536 167232 98304 32768
      (ksChunk ks 32768 32768) (ksChunk_length ks 32768 32768)
      (by norm_num) (fun i hi => s3C2_eq ks (65536 + i) (by omega))
      (by norm_num)
    simpa using h
  have hr3 : s3SM.read ⟨s3C2 ks, 98304, 167232, 131072⟩
      ((ksChunk ks 65536 32768).take (ksChunk ks 98304 1696).length)
      = (⟨s3C2 ks, 100000, 167232, 131072 + 1696⟩,
         SRes.ok (ksChunk ks 98304 1696, 1696)) := by
    rw [ksChunk_length, ksChunk_take ks 65536 32768 1696 (by norm_num)]
    have h := s3_read_ok (s3C2 ks) ks 98304 167232 131072 1696
      (ksChunk ks 65536 1696) (ksChunk_length ks 65536 1696)
      (by norm_num) (fun i hi => s3C2_eq ks (98304 + i) (by omega))
      (by norm_num)
    simpa using h
  have hVL3 : verifyLoop s3SM (s3Task ks) 3
      ⟨s3C2 ks, 100000, 167232, 131072 + 1696⟩ ⟨0, true, 100000, 7, []⟩
      ⟨StreamKind.random 32768 ks,
       ⟨100000, 32768, 100000, ksChunk ks 98304 32768, 1696, false⟩⟩
      (ksChunk ks 98304 1696 ++ (ksChunk ks 65536 32768).drop 1696)
      = ⟨⟨s3C2 ks, 100000, 167232, 131072 + 1696⟩, ⟨0, true, 100000, 7, []⟩,
         [], [], Except.ok ()⟩ := by
    rw [show (3 : Nat) = 2 + 1 from rfl]
    exact verifyLoop_none _ _ 2 _ _ _ _ _ (s3_next4 ks)
  have hVL2 : verifyLoop s3SM (s3Task ks) 4 ⟨s3C2 ks, 98304, 167232, 131072⟩
      ⟨0, true, 98304, 7, []⟩
      ⟨StreamKind.random 24576 ks,
       ⟨100000, 32768, 98304, ksChunk ks 65536 32768, 32768, false⟩⟩
      (ksChunk ks 65536 32768)
      = ⟨⟨s3C2 ks, 100000, 167232, 131072 + 1696⟩, ⟨0, true, 100000, 7, []⟩,
         [(true, WipeEvent.progress 100000)], [SOp.readOp 1696],
         Except.ok ()⟩ := by
    rw [show (4 : Nat) = 3 + 1 from rfl,
      verifyLoop_match _ _ 3 _ _ _ _ _ _ _ 1696 (s3_next3 ks)
        (by simp [isAtBadBlock]) hr3]
    simp [advanceRun, s3Task_total, ksChunk_length, hVL3]
  have hVL1 : verifyLoop s3SM (s3Task ks) 5 ⟨s3C2 ks, 65536, 167232, 98304⟩
      ⟨0, true, 65536, 7, []⟩
      ⟨StreamKind.random 16384 ks,
       ⟨100000, 32768, 65536, ksChunk ks 32768 32768, 32768, false⟩⟩
      (ksChunk ks 32768 32768)
      = ⟨⟨s3C2 ks, 100000, 167232, 131072 + 1696⟩, ⟨0, true, 100000, 7, []⟩,
         [(true, WipeEvent.progress 98304), (true, WipeEvent.progress 100000)],
         [SOp.readOp 32768, SOp.readOp 1696], Except.ok ()⟩ := by
    rw [show (5 : Nat) = 4 + 1 from rfl,
      verifyLoop_match _ _ 4 _ _ _ _ _ _ _ 32768 (s3_next2 ks)
        (by simp [isAtBadBlock]) hr2]
    simp [advanceRun, s3Task_total, ksChunk_length, ksChunk_drop_all, hVL2]
  have hVL0 : verifyLoop s3SM (s3Task ks) (5 + 1)
      ⟨s3C2 ks, 32768, 167232, 65536⟩ ⟨0, true, 32768, 7, []⟩
      (Stage.stream (Stage.random ks) 100000 32768 32768)
      (List.replicate 32768 0)
      = ⟨⟨s3C2 ks, 100000, 167232, 131072 + 1696⟩, ⟨0, true, 100000, 7, []⟩,
         [(true, WipeEvent.progress 65536), (true, WipeEvent.progress 98304),
          (true, WipeEvent.progress 100000)],
         [SOp.readOp 32768, SOp.readOp 32768, SOp.readOp 1696],
         Except.ok ()⟩ := by
    rw [verifyLoop_match _ _ 5 _ _ _ _ _ _ _ 32768 (s3_next0w ks)
      (by simp [isAtBadBlock]) hr1]
    simp [advanceRun, s3Task_total, ksChunk_length, List.drop_replicate,
      -List.reduceReplicate, hVL1]
  have hskv : seekToTheNextSafePosition s3SM (s3Task ks) (5 + 1)
      ⟨s3C2 ks, 100000, 167232, 65536⟩ ⟨0, true, 32768, 7, []⟩
      = ⟨⟨s3C2 ks, 32768, 167232, 65536⟩, ⟨0, true, 32768, 7, []⟩, [],
         [SOp.seekOp 32768], Except.ok ()⟩ :=
    seekSafe_ok s3SM (s3Task ks) 5 _ _ _ 32768 (by norm_num [s3Task_total])
      (by simp [isAtBadBlock]) (s3_seek (s3C2 ks) 100000 167232 65536 32768)
  simp [verify, hskv, s3Task_total, s3Task_bs, -List.reduceReplicate, hVL0]

theorem attemptLoop_verified_ok {σ : Type} (sm : StorageModel σ)
    (t : WipeTask) (fuel : Nat) (s sf sv : σ) (ws wsf wsv : WipeState)
    (stage : Stage) (evf evv : List (Bool × WipeEvent)) (opf opv : List SOp)
    (hof : fill sm t (fuel + 1) s ws stage
      = ⟨sf, wsf, evf, opf, Except.ok ()⟩)
    (hov : verify sm t (fuel + 1) sf
        { wsf with position := ws.position, at_verification := true } stage
      = ⟨sv, wsv, evv, opv, Except.ok ()⟩) :
    attemptLoop sm t (fuel + 1) s ws stage true
      = ⟨sv, wsv, (ws.at_verification, WipeEvent.stageStarted)
          :: (evf ++ (wsf.at_verification, WipeEvent.stageCompleted none)
          :: (true, WipeEvent.stageStarted)
          :: (evv ++ [(wsv.at_verification, WipeEvent.stageCompleted none)])),
         opf ++ opv, Except.ok none⟩ := by
  simp [attemptLoop, hof, hov]

theorem attemptLoop_verify_err_retry {σ : Type} (sm : StorageModel σ)
    (t : WipeTask) (fuel : Nat) (s sf sv s2 : σ)
    (ws wsf wsv ws2 : WipeState) (stage : Stage)
    (evf evv evs2 : List (Bool × WipeEvent)) (opf opv ops2 : List SOp)
    (e : AnyError) (res2 : Except AnyError (Option AnyError))
    (hof : fill sm t (fuel + 1) s ws stage
      = ⟨sf, wsf, evf, opf, Except.ok ()⟩)
    (hov : verify sm t (fuel + 1) sf
        { wsf with position := ws.position, at_verification := true } stage
      = ⟨sv, wsv, evv, opv, Except.error e⟩)
    (hr : 0 < wsv.retries_left)
    (ho2 : attemptLoop sm t fuel sv
        { wsv with retries_left := wsv.retries_left - 1,
                   at_verification := false } stage true
      = ⟨s2, ws2, evs2, ops2, res2⟩) :
    attemptLoop sm t (fuel + 1) s ws stage true
      = ⟨s2, ws2, (ws.at_verification, WipeEvent.stageStarted)
          :: (evf ++ (wsf.at_verification, WipeEvent.stageCompleted none)
          :: (true, WipeEvent.stageStarted)
          :: (evv ++ (wsv.at_verification, WipeEvent.stageCompleted (some e))
          :: (false, WipeEvent.retrying) :: evs2)),
         opf ++ opv ++ ops2, res2⟩ := by
  simp [attemptLoop, hof, hov, hr, ho2]

theorem s3_attempt2 (ks : Nat → Byte) :
    attemptLoop s3SM (s3Task ks) 6 ⟨s3C1 ks, 32768, 100000, 65536⟩
      ⟨0, false, 32768, 7, []⟩ (Stage.random ks) true
      = ⟨⟨s3C2 ks, 100000, 167232, 131072 + 1696⟩, ⟨0, true, 100000, 7, []⟩,
         [(false, WipeEvent.stageStarted),
          (false, WipeEvent.progress 32768), (false, WipeEvent.progress 65536),
          (false, WipeEvent.progress 98304), (false, WipeEvent.progress 100000),
          (false, WipeEvent.stageCompleted none),
          (true, WipeEvent.stageStarted),
          (true, WipeEvent.progress 32768), (true, WipeEvent.progress 65536),
          (true, WipeEvent.progress 98304), (true, WipeEvent.progress 100000),
          (true, WipeEvent.stageCompleted none)],
         [SOp.seekOp 32768, SOp.writeOp 32768, SOp.writeOp 32768,
          SOp.writeOp 1696, SOp.flushOp,
          SOp.seekOp 32768, SOp.readOp 32768, SOp.readOp 32768,
          SOp.readOp 1696],
         Except.ok none⟩ := by
  rw [show (6 : Nat) = 5 + 1 from rfl,
    attemptLoop_verified_ok s3SM (s3Task ks) 5 _ _ _ _ _ _ _ _ _ _ _
      (s3_fill2 ks) (s3_verify2 ks)]
  simp

theorem s3_attempt1 (ks : Nat → Byte) :
    attemptLoop s3SM (s3Task ks) (6 + 1) ⟨s3C0, 0, 0, 0⟩
      ⟨0, false, 0, 8, []⟩ (Stage.random ks) true
      = ⟨⟨s3C2 ks, 100000, 167232, 131072 + 1696⟩, ⟨0, true, 100000, 7, []⟩,
         [(false, WipeEvent.stageStarted),
          (false, WipeEvent.progress 0), (false, WipeEvent.progress 32768),
          (false, WipeEvent.progress 65536), (false, WipeEvent.progress 98304),
          (false, WipeEvent.progress 100000),
          (false, WipeEvent.stageCompleted none),
          (true, WipeEvent.stageStarted),
          (true, WipeEvent.progress 0), (true, WipeEvent.progress 32768),
          (true, WipeEvent.stageCompleted
            (some ⟨none, "Mocked IO failure"⟩)),
          (false, WipeEvent.retrying),
          (false, WipeEvent.stageStarted),
          (false, WipeEvent.progress 32768), (false, WipeEvent.progress 65536),
          (false, WipeEvent.progress 98304), (false, WipeEvent.progress 100000),
          (false, WipeEvent.stageCompleted none),
          (true, WipeEvent.stageStarted),
          (true, WipeEvent.progress 32768), (true, WipeEvent.progress 65536),
          (true, WipeEvent.progress 98304), (true, WipeEvent.progress 100000),
          (true, WipeEvent.stageCompleted none)],
         [SOp.seekOp 0, SOp.writeOp 32768, SOp.writeOp 32768,
          SOp.writeOp 32768, SOp.writeOp 1696, SOp.flushOp,
          SOp.seekOp 0, SOp.readOp 32768, SOp.readOp 32768,
          SOp.seekOp 32768, SOp.writeOp 32768, SOp.writeOp 32768,
          SOp.writeOp 1696, SOp.flushOp,
          SOp.seekOp 32768, SOp.readOp 32768, SOp.readOp 32768,
          SOp.readOp 1696],
         Except.ok none⟩ := by
  rw [attemptLoop_verify_err_retry s3SM (s3Task ks) 6 _ _ _ _ _ _ _ _ _
      _ _ _ _ _ _ _ _ (s3_fill1 ks) (s3_verify1 ks) (by norm_num)
      (s3_attempt2 ks)]
  simp

theorem runStages_nil {σ : Type} (sm : StorageModel σ) (t : WipeTask)
    (fuel i : Nat) (s : σ) (ws : WipeState) :
    runStages sm t fuel [] i s ws = ⟨s, ws, [], [], Except.ok none⟩ := by
  simp [runStages]

theorem runStages_cons_ok_none {σ : Type} (sm : StorageModel σ)
    (t : WipeTask) (fuel : Nat) (stg : Stage) (rest : List Stage) (i : Nat)
    (s s1 s2 : σ) (ws ws1 ws2 : WipeState)
    (evs1 evs2 : List (Bool × WipeEvent)) (ops1 ops2 : List SOp)
    (res2 : Except AnyError (Option AnyError))
    (ho : attemptLoop sm t fuel s
        { ws with stage := i, position := 0, at_verification := false } stg
        (haveToVerify t.verify i t.scheme.stages.length)
      = ⟨s1, ws1, evs1, ops1, Except.ok none⟩)
    (ho2 : runStages sm t fuel rest (i + 1) s1 ws1
      = ⟨s2, ws2, evs2, ops2, res2⟩) :
    runStages sm t fuel (stg :: rest) i s ws
      = ⟨s2, ws2, evs1 ++ evs2, ops1 ++ ops2, res2⟩ := by
  simp [runStages, ho, ho2]

theorem s3_runStages (ks : Nat → Byte) :
    runStages s3SM (s3Task ks) (6 + 1) [Stage.random ks] 0
      ⟨s3C0, 0, 0, 0⟩ ⟨0, false, 0, 8, []⟩
      = ⟨⟨s3C2 ks, 100000, 167232, 131072 + 1696⟩, ⟨0, true, 100000, 7, []⟩,
         [(false, WipeEvent.stageStarted),
          (false, WipeEvent.progress 0), (false, WipeEvent.progress 32768),
          (false, WipeEvent.progress 65536), (false, WipeEvent.progress 98304),
          (false, WipeEvent.progress 100000),
          (false, WipeEvent.stageCompleted none),
          (true, WipeEvent.stageStarted),
          (true, WipeEvent.progress 0), (true, WipeEvent.progress 32768),
          (true, WipeEvent.stageCompleted
            (some ⟨none, "Mocked IO failure"⟩)),
          (false, WipeEvent.retrying),
          (false, WipeEvent.stageStarted),
          (false, WipeEvent.progress 32768), (false, WipeEvent.progress 65536),
          (false, WipeEvent.progress 98304), (false, WipeEvent.progress 100000),
          (false, WipeEvent.stageCompleted none),
          (true, WipeEvent.stageStarted),
          (true, WipeEvent.progress 32768), (true, WipeEvent.progress 65536),
          (true, WipeEvent.progress 98304), (true, WipeEvent.progress 100000),
          (true, WipeEvent.stageCompleted none)],
         [SOp.seekOp 0, SOp.writeOp 32768, SOp.writeOp 32768,
          SOp.writeOp 32768, SOp.writeOp 1696, SOp.flushOp,
          SOp.seekOp 0, SOp.readOp 32768, SOp.readOp 32768,
          SOp.seekOp 32768, SOp.writeOp 32768, SOp.writeOp 32768,
          SOp.writeOp 1696, SOp.flushOp,
          SOp.seekOp 32768, SOp.readOp 32768, SOp.readOp 32768,
          SOp.readOp 1696],
         Except.ok none⟩ := by
  have hA : attemptLoop s3SM (s3Task ks) (6 + 1) ⟨s3C0, 0, 0, 0⟩
      ⟨0, false, 0, 8, []⟩ (Stage.random ks)
      (haveToVerify (s3Task ks).verify 0 (s3Task ks).scheme.stages.length)
      = ⟨⟨s3C2 ks, 100000, 167232, 131072 + 1696⟩, ⟨0, true, 100000, 7, []⟩,
         [(false, WipeEvent.stageStarted),
          (false, WipeEvent.progress 0), (false, WipeEvent.progress 32768),
          (false, WipeEvent.progress 65536), (false, WipeEvent.progress 98304),
          (false, WipeEvent.progress 100000),
          (false, WipeEvent.stageCompleted none),
          (true, WipeEvent.stageStarted),
          (true, WipeEvent.progress 0), (true, WipeEvent.progress 32768),
          (true, WipeEvent.stageCompleted
            (some ⟨none, "Mocked IO failure"⟩)),
          (false, WipeEvent.retrying),
          (false, WipeEvent.stageStarted),
          (false, WipeEvent.progress 32768), (false, WipeEvent.progress 65536),
          (false, WipeEvent.progress 98304), (false, WipeEvent.progress 100000),
          (false, WipeEvent.stageCompleted none),
          (true, WipeEvent.stageStarted),
          (true, WipeEvent.progress 32768), (true, WipeEvent.progress 65536),
          (true, WipeEvent.progress 98304), (true, WipeEvent.progress 100000),
          (true, WipeEvent.stageCompleted none)],
         [SOp.seekOp 0, SOp.writeOp 32768, SOp.writeOp 32768,
          SOp.writeOp 32768, SOp.writeOp 1696, SOp.flushOp,
          SOp.seekOp 0, SOp.readOp 32768, SOp.readOp 32768,
          SOp.seekOp 32768, SOp.writeOp 32768, SOp.writeOp 32768,
          SOp.writeOp 1696, SOp.flushOp,
          SOp.seekOp 32768, SOp.readOp 32768, SOp.readOp 32768,
          SOp.readOp 1696],
         Except.ok none⟩ := s3_attempt1 ks
  rw [runStages_cons_ok_none s3SM (s3Task ks) (6 + 1) (Stage.random ks) []
    0 _ _ _ ⟨0, false, 0, 8, []⟩ _ _ _ _ _ _ _ hA
    (runStages_nil s3SM (s3Task ks) (6 + 1) 1 _ _)]
  simp

theorem run_ok_assemble {σ : Type} (sm : StorageModel σ) (t : WipeTask)
    (fuel : Nat) (s s1 : σ) (ws ws1 : WipeState)
    (evs1 : List (Bool × WipeEvent)) (ops1 : List SOp)
    (werr : Option AnyError)
    (ho : runStages sm t fuel t.scheme.stages 0 s ws
      = ⟨s1, ws1, evs1, ops1, Except.ok werr⟩) :
    WipeTask.run t sm fuel s ws
      = ⟨s1, ws1, (ws.at_verification, WipeEvent.started)
          :: (evs1 ++ [(ws1.at_verification, WipeEvent.completed werr)]),
         ops1, Except.ok werr.isNone⟩ := by
  simp [WipeTask.run, ho]

theorem s3_run (ks : Nat → Byte) :
    WipeTask.run (s3Task ks) s3SM (6 + 1) s3Mem0 s3WS0
      = ⟨⟨s3C2 ks, 100000, 167232, 131072 + 1696⟩, ⟨0, true, 100000, 7, []⟩,
         [(false, WipeEvent.started),
          (false, WipeEvent.stageStarted),
          (false, WipeEvent.progress 0), (false, WipeEvent.progress 32768),
          (false, WipeEvent.progress 65536), (false, WipeEvent.progress 98304),
          (false, WipeEvent.progress 100000),
          (false, WipeEvent.stageCompleted none),
          (true, WipeEvent.stageStarted),
          (true, WipeEvent.progress 0), (true, WipeEvent.progress 32768),
          (true, WipeEvent.stageCompleted
            (some ⟨none, "Mocked IO failure"⟩)),
          (false, WipeEvent.retrying),
          (false, WipeEvent.stageStarted),
          (false, WipeEvent.progress 32768), (false, WipeEvent.progress 65536),
          (false, WipeEvent.progress 98304), (false, WipeEvent.progress 100000),
          (false, WipeEvent.stageCompleted none),
          (true, WipeEvent.stageStarted),
          (true, WipeEvent.progress 32768), (true, WipeEvent.progress 65536),
          (true, WipeEvent.progress 98304), (true, WipeEvent.progress 100000),
          (true, WipeEvent.stageCompleted none),
          (true, WipeEvent.completed none)],
         [SOp.seekOp 0, SOp.writeOp 32768, SOp.writeOp 32768,
          SOp.writeOp 32768, SOp.writeOp 1696, SOp.flushOp,
          SOp.seekOp 0, SOp.readOp 32768, SOp.readOp 32768,
          SOp.seekOp 32768, SOp.writeOp 32768, SOp.writeOp 32768,
          SOp.writeOp 1696, SOp.flushOp,
          SOp.seekOp 32768, SOp.readOp 32768, SOp.readOp 32768,
          SOp.readOp 1696],
         Except.ok true⟩ := by
  have hrs : runStages s3SM (s3Task ks) (6 + 1) (s3Task ks).scheme.stages 0
      s3Mem0 s3WS0
      = ⟨⟨s3C2 ks, 100000, 167232, 131072 + 1696⟩, ⟨0, true, 100000, 7, []⟩,
         [(false, WipeEvent.stageStarted),
          (false, WipeEvent.progress 0), (false, WipeEvent.progress 32768),
          (false, WipeEvent.progress 65536), (false, WipeEvent.progress 98304),
          (false, WipeEvent.progress 100000),
          (false, WipeEvent.stageCompleted none),
          (true, WipeEvent.stageStarted),
          (true, WipeEvent.progress 0), (true, WipeEvent.progress 32768),
          (true, WipeEvent.stageCompleted
            (some ⟨none, "Mocked IO failure"⟩)),
          (false, WipeEvent.retrying),
          (false, WipeEvent.stageStarted),
          (false, WipeEvent.progress 32768), (false, WipeEvent.progress 65536),
          (false, WipeEvent.progress 98304), (false, WipeEvent.progress 100000),
          (false, WipeEvent.stageCompleted none),
          (true, WipeEvent.stageStarted),
          (true, WipeEvent.progress 32768), (true, WipeEvent.progress 65536),
          (true, WipeEvent.progress 98304), (true, WipeEvent.progress 100000),
          (true, WipeEvent.stageCompleted none)],
         [SOp.seekOp 0, SOp.writeOp 32768, SOp.writeOp 32768,
          SOp.writeOp 32768, SOp.writeOp 1696, SOp.flushOp,
          SOp.seekOp 0, SOp.readOp 32768, SOp.readOp 32768,
          SOp.seekOp 32768, SOp.writeOp 32768, SOp.writeOp 32768,
          SOp.writeOp 1696, SOp.flushOp,
          SOp.seekOp 32768, SOp.readOp 32768, SOp.readOp 32768,
          SOp.readOp 1696],
         Except.ok none⟩ := s3_runStages ks
  rw [run_ok_assemble s3SM (s3Task ks) (6 + 1) s3Mem0 _ s3WS0 _ _ _ none hrs]
  simp [s3WS0]


/-- **C2** (amended): in the S3 scenario — 100000-byte in-memory storage
initialized to `0xff`, block size 32768, scheme `random`, `Verify::Last`,
`retries_left = 8`, storage failing once after 150000 accumulated
read+write bytes — the first fill succeeds covering all 100000 bytes,
the first verify fails at byte 32768 (the failing read is a plain
`anyhow!` error), the engine emits `Retrying` and rewinds
`state.position` to the stage watermark, which is recomputed at the top
of each attempt, so the retry resumes at 32768 — the position where the
verify failed — not at 0; it re-fills from 32768, the subsequent verify
(also from 32768) succeeds and the run returns `true`. -/
theorem c2_verify_retry_resumes_at_watermark (ks : Nat → Byte) :
    (WipeTask.run (s3Task ks) s3SM (6 + 1) s3Mem0 s3WS0).evs
      = [(false, WipeEvent.started),
         (false, WipeEvent.stageStarted),
         (false, WipeEvent.progress 0), (false, WipeEvent.progress 32768),
         (false, WipeEvent.progress 65536), (false, WipeEvent.progress 98304),
         (false, WipeEvent.progress 100000),
         (false, WipeEvent.stageCompleted none),
         (true, WipeEvent.stageStarted),
         (true, WipeEvent.progress 0), (true, WipeEvent.progress 32768),
         (true, WipeEvent.stageCompleted
           (some ⟨none, "Mocked IO failure"⟩)),
         (false, WipeEvent.retrying),
         (false, WipeEvent.stageStarted),
         (false, WipeEvent.progress 32768), (false, WipeEvent.progress 65536),
         (false, WipeEvent.progress 98304), (false, WipeEvent.progress 100000),
         (false, WipeEvent.stageCompleted none),
         (true, WipeEvent.stageStarted),
         (true, WipeEvent.progress 32768), (true, WipeEvent.progress 65536),
         (true, WipeEvent.progress 98304), (true, WipeEvent.progress 100000),
         (true, WipeEvent.stageCompleted none),
         (true, WipeEvent.completed none)]
  ∧ (WipeTask.run (s3Task ks) s3SM (6 + 1) s3Mem0 s3WS0).res
      = Except.ok true := by
  rw [s3_run ks]
  exact ⟨rfl, rfl⟩

/-- Counterexample to C2 as stated: after `Retrying` the engine does
not rewind to 0 — the retried fill's first `Progress` is 32768 (the
watermark recomputed at the top of the failed attempt), and no
`Progress(0)` occurs anywhere after the `Retrying` event. -/
theorem c2_counterexample :
    ((WipeTask.run (s3Task (fun _ => 0)) s3SM (6 + 1) s3Mem0 s3WS0).evs.map
        Prod.snd).drop 12
      = [WipeEvent.retrying, WipeEvent.stageStarted,
         WipeEvent.progress 32768, WipeEvent.progress 65536,
         WipeEvent.progress 98304, WipeEvent.progress 100000,
         WipeEvent.stageCompleted none, WipeEvent.stageStarted,
         WipeEvent.progress 32768, WipeEvent.progress 65536,
         WipeEvent.progress 98304, WipeEvent.progress 100000,
         WipeEvent.stageCompleted none, WipeEvent.completed none]
  ∧ WipeEvent.progress 0
      ∉ ((WipeTask.run (s3Task (fun _ => 0)) s3SM (6 + 1) s3Mem0
          s3WS0).evs.map Prod.snd).drop 12 := by
  rw [s3_run (fun _ => 0)]
  refine ⟨rfl, ?_⟩
  decide
